import Mathlib

/-!
GoldenCheetah ModelPlot: the binned 3D data model

A shallow embedding of `src/ModelPlot.cpp` (the `ModelDataProvider` constructor,
`ModelDataColor` and the statics shared with the `Bar` enrichment), followed by
theorems about it.

Conventions of the embedding:

* a C++ `double` is an exact rational (`ℚ`): the theorems are about the formulas the
  code evaluates, not about IEEE rounding; a division by zero, which the C++ code would
  turn into an infinity or a NaN, is not given any meaning here beyond Lean's `x / 0 = 0`;
* a C++ `int` is an unbounded integer (`Int`), a `double → int` conversion is the
  truncation `toInt`;
* a `QHash` / `QMap` is an association list in which `insert` overwrites the entry of an
  existing key in place; Qt's Java-style iterators walk a snapshot of the container, so a
  loop that iterates a map and re-inserts into it is a fold over the snapshot;
* the grid key built by `xystring` is the pair of the two integers it prints.
-/

set_option linter.dupNamespace false

namespace ModelPlot

/-! ## Containers -/

/-- Association-list model of `QHash<K,V>` (and of `QMap<K,V>`). -/
abbrev QHash (K V : Type) := List (K × V)

namespace QHash

variable {K V : Type} [DecidableEq K]

/-- The lookup `hash.value(key, defaultValue)`. -/
def value : QHash K V → K → V → V
  | [], _, d => d
  | (k', v) :: rest, k, d => if k' = k then v else value rest k d

/-- The update `hash.insert(key, value)`: an existing entry of the key is overwritten. -/
def insert : QHash K V → K → V → QHash K V
  | [], k, v => [(k, v)]
  | (k', v') :: rest, k, v => if k' = k then (k, v) :: rest else (k', v') :: insert rest k v

/-- The keys held by the container. -/
def keys (m : QHash K V) : List K := m.map Prod.fst

/-- The values held by the container. -/
def values (m : QHash K V) : List V := m.map Prod.snd

/-- The size `hash.count()`. -/
def count (m : QHash K V) : Nat := m.length

/-- The test `hash.contains(key)`. -/
def contains (m : QHash K V) (k : K) : Bool := decide (k ∈ keys m)

/-- A loop `while (it.hasNext()) { it.next(); hash.insert(it.key(), f(it.value())); }`
over a Java-style iterator, which walks the entries `snapshot` the container had when the
iterator was made. -/
def rewriteAll (f : V → V) (snapshot : QHash K V) (m : QHash K V) : QHash K V :=
  snapshot.foldl (fun acc e => insert acc e.1 (f e.2)) m

end QHash

/-! ## Numbers -/

/-- The C++ conversion `(int) d` of a double: truncation toward zero. -/
def toInt (d : ℚ) : Int := if 0 ≤ d then ⌊d⌋ else ⌈d⌉

/-- Modelled from the spec: `Qwt3D::round` belongs to the qwtplot3d library, whose sources
are not part of the repository files at hand; it rounds to the nearest integer, a half
going away from zero: `(d > 0) ? int(d + 0.5) : int(d - 0.5)`. -/
def round (d : ℚ) : Int := if d > 0 then toInt (d + 1 / 2) else toInt (d - 1 / 2)

/-- Grid key of a cell. -/
abbrev Key := Int × Int

/-- The key `xystring(x, y)`, i.e. the text `"%1:%2"` filled with `(int)x` and `(int)y`;
two such texts are equal exactly when both integers are. -/
def xystring (x y : ℚ) : Key := (toInt x, toInt y)

/-! ## Ride data and settings -/

/-- Modelled from the spec: the channel codes `MODEL_*` are declared in `ModelPlot.h`,
which is not among the source files; they are the channels listed in the glossary, with
`MODEL_NONE` the code `0` that marks an unset channel and `unknown c` any other code. -/
inductive Channel where
  | MODEL_NONE
  | MODEL_POWER
  | MODEL_CADENCE
  | MODEL_HEARTRATE
  | MODEL_SPEED
  | MODEL_ALT
  | MODEL_PEDALFORCE
  | MODEL_TIME
  | MODEL_DISTANCE
  | MODEL_INTERVAL
  | MODEL_LAT
  | MODEL_LONG
  | MODEL_XYTIME
  | MODEL_POWERZONE
  | unknown (code : Int)
  deriving DecidableEq, Repr

open Channel

/-- Modelled from the spec: `RideFilePoint` is declared in `RideFile.h` (not among the
source files); these are the fields that `pointType` reads. -/
structure RideFilePoint where
  secs : ℚ
  cad : ℚ
  hr : ℚ
  km : ℚ
  kph : ℚ
  nm : ℚ
  watts : ℚ
  alt : ℚ
  lon : ℚ
  lat : ℚ
  interval : Int
  deriving DecidableEq, Repr

/-- A selected interval (`IntervalItem`), of which the constructor reads `start` and `stop`. -/
structure IntervalItem where
  start : ℚ
  stop : ℚ
  deriving DecidableEq, Repr

/-- A colour as `QColor` exposes it to this file: its red, green and blue components
(0..255) after `convertTo(QColor::Rgb)`. -/
structure QColor where
  red : Int
  green : Int
  blue : Int
  deriving DecidableEq, Repr

/-- The colour `Qwt3D::RGBA`. -/
structure RGBA where
  r : ℚ
  g : ℚ
  b : ℚ
  a : ℚ
  deriving DecidableEq, Repr

/-- The zone configuration `Zones` of a ride, as far as the constructor calls it. -/
structure Zones where
  numZones : Int → Int
  whichZone : Int → ℚ → Int

/-- The ride behind `settings->ride`: its samples, its recording interval, its zone
configuration and the zone range that applies to it (negative when none is configured). -/
structure RideItem where
  dataPoints : List RideFilePoint
  recIntSecs : ℚ
  zones : Zones
  zoneRange : Int

/-- The colour provider `ModelDataColor`. -/
structure ModelDataColor where
  color : QHash Key ℚ
  num : QHash Key Int
  min : ℚ
  max : ℚ
  iszones : Bool
  zonecolor : QHash ℚ QColor

/-- The settings `ModelSettings` handed to the constructor (`ride = none` is a null
pointer); the colour provider it points to is passed separately. -/
structure ModelSettings where
  ride : Option RideItem
  x : Channel
  y : Channel
  z : Channel
  color : Channel
  xbin : Int
  ybin : Int
  ignore : Bool
  gridlines : Bool
  frame : Bool
  legend : Bool
  intervals : List IntervalItem

/-- The flag `SHOW_INTERVALS`. -/
def SHOW_INTERVALS : Nat := 1

/-- The flag `SHOW_FRAME`. -/
def SHOW_FRAME : Nat := 2

/-- The value `ModelDataProvider::pointType(point, type)`. -/
def pointType (point : RideFilePoint) (type : Channel) : ℚ :=
  match type with
  | MODEL_POWER => point.watts
  | MODEL_CADENCE => point.cad
  | MODEL_HEARTRATE => point.hr
  | MODEL_SPEED => point.kph
  | MODEL_ALT => point.alt
  | MODEL_PEDALFORCE => point.nm
  | MODEL_TIME => point.secs
  | MODEL_DISTANCE => point.km
  | MODEL_INTERVAL => point.interval
  | MODEL_LAT => point.lat
  | MODEL_LONG => point.lon
  | MODEL_XYTIME => 1
  | MODEL_POWERZONE => point.watts
  | _ => 0

/-! ## The aggregation loop -/

/-- The variables the sample loop of the constructor reads and writes: its locals, the
maps of the provider (`mz`, `mnum`), the maps of the colour provider (`color`, `num`) and
the statics `intervals_`, `iz`, `inum`. -/
structure LoopState where
  maxbinx : ℚ
  maxbiny : ℚ
  minbinx : ℚ
  minbiny : ℚ
  mincol : ℚ
  maxcol : ℚ
  mz : QHash Key ℚ
  mnum : QHash Key Int
  color : QHash Key ℚ
  num : QHash Key Int
  intervals_ : Nat
  iz : QHash Key ℚ
  inum : QHash Key ℚ

/-- The binned x of a sample: `settings->xbin * Qwt3D::round(pointType(point, x) / xbin)`. -/
def binx (settings : ModelSettings) (point : RideFilePoint) : Int :=
  settings.xbin * round (pointType point settings.x / settings.xbin)

/-- The binned y of a sample. -/
def biny (settings : ModelSettings) (point : RideFilePoint) : Int :=
  settings.ybin * round (pointType point settings.y / settings.ybin)

/-- The test of the `continue` at the head of the loop body: the sample is ignored. -/
def skipped (settings : ModelSettings) (point : RideFilePoint) : Bool :=
  settings.ignore && (binx settings point == 0 || biny settings point == 0)

/-- The cell a sample is binned to: `xystring(binx, biny)`. -/
def cellOf (settings : ModelSettings) (point : RideFilePoint) : Key :=
  xystring (binx settings point) (biny settings point)

/-- The accumulate-or-average update shared by the height, colour and interval
aggregates: for time-at-cell the count goes up and the new value is added to the stored
one, otherwise `if (count) v = ((current*count)+v)/(count+1)` and the count is left as read. -/
def accumulate (isTime : Bool) (count : Int) (current : ℚ) (v : ℚ) : Int × ℚ :=
  if isTime then (count + 1, v + current)
  else (count, if count ≠ 0 then ((current * count) + v) / (count + 1) else v)

/-- The body of the `if` inside the interval loop: the colour aggregate and the interval
height aggregate of the cell are updated. -/
def intervalUpdate (settings : ModelSettings) (recIntSecs : ℚ) (point : RideFilePoint)
    (lookup : Key) (color : ℚ) (st : LoopState) : LoopState :=
  let colcount : Int := st.num.value lookup 0
  let currentcol := st.color.value lookup 0
  let c := accumulate (settings.color == MODEL_XYTIME) colcount currentcol color
  let ized := if settings.z = MODEL_XYTIME then recIntSecs else pointType point settings.z
  let count : Int := toInt (st.inum.value lookup 0)
  let currentz := st.iz.value lookup 0
  let i := accumulate (settings.z == MODEL_XYTIME) count currentz ized
  { st with color := st.color.insert lookup c.2, num := st.num.insert lookup c.1,
            iz := st.iz.insert lookup i.2, inum := st.inum.insert lookup (i.1 : ℚ) }

/-- The loop `for (i = 0; i < intervals.count(); i++)` with its `break`: the first
interval whose `[start, stop]` holds the sample's `secs` triggers the update. -/
def intervalLoop (settings : ModelSettings) (recIntSecs : ℚ) (point : RideFilePoint)
    (lookup : Key) (color : ℚ) : List IntervalItem → LoopState → LoopState
  | [], st => st
  | curr :: rest, st =>
    if point.secs ≥ curr.start ∧ point.secs ≤ curr.stop then
      intervalUpdate settings recIntSecs point lookup color st
    else intervalLoop settings recIntSecs point lookup color rest st

/-- One pass of the body of `foreach (point, dataPoints)`. -/
def loopBody (settings : ModelSettings) (recIntSecs : ℚ) (st : LoopState)
    (point : RideFilePoint) : LoopState :=
  let bx : Int := binx settings point
  let by_ : Int := biny settings point
  if settings.ignore ∧ (bx = 0 ∨ by_ = 0) then st
  else
    let zed := if settings.z = MODEL_XYTIME then recIntSecs else pointType point settings.z
    let color := if settings.color = MODEL_XYTIME then recIntSecs
      else pointType point settings.color
    let maxcol := if color > st.maxcol then color else st.maxcol
    let mincol := if color < st.mincol then color else st.mincol
    let maxbinx := if (bx : ℚ) > st.maxbinx then (bx : ℚ) else st.maxbinx
    let minbinx := if (bx : ℚ) < st.minbinx then (bx : ℚ) else st.minbinx
    let maxbiny := if (by_ : ℚ) > st.maxbiny then (by_ : ℚ) else st.maxbiny
    let minbiny := if (by_ : ℚ) < st.minbiny then (by_ : ℚ) else st.minbiny
    let lookup := xystring bx by_
    let count : Int := st.mnum.value lookup 0
    let currentz := st.mz.value lookup 0
    let z := accumulate (settings.z == MODEL_XYTIME) count currentz zed
    let st1 : LoopState :=
      { st with maxcol := maxcol, mincol := mincol, maxbinx := maxbinx, minbinx := minbinx,
                maxbiny := maxbiny, minbiny := minbiny,
                mz := st.mz.insert lookup z.2, mnum := st.mnum.insert lookup z.1 }
    let st2 : LoopState :=
      if settings.intervals.length = 0 then
        let colcount : Int := st1.num.value lookup 0
        let currentcol := st1.color.value lookup 0
        let c := accumulate (settings.color == MODEL_XYTIME) colcount currentcol color
        { st1 with intervals_ := 0, color := st1.color.insert lookup c.2,
                   num := st1.num.insert lookup c.1 }
      else st1
    if settings.intervals.length > 0 then
      let st3 : LoopState :=
        { st2 with intervals_ :=
            if settings.frame = true then SHOW_INTERVALS ||| SHOW_FRAME else SHOW_INTERVALS }
      intervalLoop settings recIntSecs point lookup color settings.intervals st3
    else st2

/-- The variables as the loop finds them: fresh locals, the empty maps of the new
provider, the colour maps just cleared, and the statics as they stand. -/
def loopInit (intervals_ : Nat) (iz inum : QHash Key ℚ) : LoopState :=
  { maxbinx := 0, maxbiny := 0, minbinx := 65535, minbiny := 65535,
    mincol := 65535, maxcol := 0,
    mz := [], mnum := [], color := [], num := [],
    intervals_ := intervals_, iz := iz, inum := inum }

/-- The loop `foreach (point, dataPoints)` run from the state `st`. -/
def aggregateFrom (settings : ModelSettings) (recIntSecs : ℚ) (st : LoopState)
    (points : List RideFilePoint) : LoopState :=
  points.foldl (loopBody settings recIntSecs) st

/-- The aggregation loop as the constructor runs it: on the samples of the ride, from
fresh locals and maps and the statics as they stand. -/
def aggregateWith (settings : ModelSettings) (ride : RideItem) (intervals_ : Nat)
    (iz inum : QHash Key ℚ) : LoopState :=
  aggregateFrom settings ride.recIntSecs (loopInit intervals_ iz inum) ride.dataPoints

/-- The aggregation loop of the constructor on a ride, the statics `iz` and `inum` being
empty and `intervals_` zero at its start. -/
def aggregate (settings : ModelSettings) (ride : RideItem) : LoopState :=
  aggregateWith settings ride 0 [] []

/-! ## Post-processing -/

/-- The calls the constructor makes on the plot and on its own `Function` base that carry
data of the model, in the order they are made (font, label and axis styling calls are
left out). -/
inductive Call where
  | setDomain (a b c d : ℚ)
  | setMinZ (z : ℚ)
  | setMaxZ (z : ℚ)
  | setMesh (columns rows : Int)
  | create
  | setTitle (title : String)
  | showColorLegend (shown : Bool)
  | setLimits (lo hi : ℚ)
  | setMajors (n : Int)
  | setScale (x y z : ℚ)
  | setGridLines (sides : Bool)
  deriving DecidableEq, Repr

/-- The file-level statics shared with the `Bar` enrichment. -/
structure Statics where
  diag_ : ℚ
  intervals_ : Nat
  zpane : ℚ
  iz : QHash Key ℚ
  inum : QHash Key ℚ

/-- The members of a `ModelDataProvider`; `minz` and `maxz` are `none` as long as the
constructor has not assigned them. -/
structure ModelDataProvider where
  mz : QHash Key ℚ
  mnum : QHash Key Int
  maxz : Option ℚ
  minz : Option ℚ

/-- Everything a run of the constructor leaves behind. -/
structure Built where
  calls : List Call
  provider : ModelDataProvider
  colorProvider : ModelDataColor
  statics : Statics

/-- The loop `for (int i = 0; i < maxcol; i++) zonecolor.insert(i, zoneColor(i, n))`. -/
def fillZoneColors (zoneColor : Int → Int → QColor) (n : Int) (zonecolor : QHash ℚ QColor) :
    QHash ℚ QColor :=
  (List.range n.toNat).foldl
    (fun zc (i : Nat) => zc.insert ((i : Int) : ℚ) (zoneColor (i : Int) n)) zonecolor

/-- The loop that turns every stored power value into `whichZone(zone_range, value) + 1`. -/
def toZones (zones : Zones) (zone_range : Int) (color : QHash Key ℚ) : QHash Key ℚ :=
  QHash.rewriteAll (fun c => ((zones.whichZone zone_range c : Int) : ℚ) + 1) color color

/-- The loops `while (duration && ... && it.hasNext())` over a height map: every stored
time becomes `(value / duration) * 100`; nothing happens when `duration` is zero. -/
def timePercent (duration : ℚ) (m : QHash Key ℚ) : QHash Key ℚ :=
  if duration ≠ 0 then QHash.rewriteAll (fun v => (v / duration) * 100) m m else m

/-- The loop that converts the colour map to percentages and tracks `mincol`, `maxcol`;
the triple is `(mincol, maxcol, color)`. -/
def timePercentColor (duration : ℚ) (color : QHash Key ℚ) : ℚ × ℚ × QHash Key ℚ :=
  if duration ≠ 0 then
    color.foldl
      (fun acc e =>
        let tp := (e.2 / duration) * 100
        (if tp < acc.1 then tp else acc.1, if tp > acc.2.1 then tp else acc.2.1,
          acc.2.2.insert e.1 tp))
      (65535, 0, color)
  else (65535, 0, color)

/-- The scan of `mz` for `minz` and `maxz` (`first` is the state `none`); the pair is
`(minz, maxz)`. -/
def scanMinMax (mz : QHash Key ℚ) : Option (ℚ × ℚ) :=
  mz.foldl
    (fun acc e =>
      match acc with
      | none => some (e.2, e.2)
      | some (lo, hi) => some (if e.2 < lo then e.2 else lo, if e.2 > hi then e.2 else hi))
    none

/-- The loop `while (m < 2) { maxbin += bin; m++; }`; the pair is `(maxbin, m)`. -/
def growMesh (bin : Int) (maxbin : ℚ) (m : Int) : ℚ × Int :=
  if m < 2 then growMesh bin (maxbin + bin) (m + 1) else (maxbin, m)
termination_by (2 - m).toNat
decreasing_by omega

/-- The mesh sizing of one axis: the cell count `(max - min) / bin` truncated to `int`,
grown to 2 by moving `max`, then padded by moving `min` when below 4. The triple is
`(max, min, m)`; `setMesh` receives `m + 1`. -/
def meshAxis (bin : Int) (maxbin minbin : ℚ) : ℚ × ℚ × Int :=
  let m0 : Int := toInt ((maxbin - minbin) / bin)
  let g := growMesh bin maxbin m0
  if g.2 < 4 then (g.1, minbin - bin, g.2 + 1) else (g.1, minbin, g.2)

/-- The bar half-width `diag_`. -/
def barDiag (xbin ybin : Int) (maxbinx minbinx maxbiny minbiny : ℚ) : ℚ :=
  let xr := (8 / 10 : ℚ) * (((xbin : ℚ) / ((maxbinx - minbinx) + xbin)) / 2)
  let yr := (8 / 10 : ℚ) * (((ybin : ℚ) / ((maxbiny - minbiny) + ybin)) / 2)
  if xr < yr then xr * (maxbinx - minbinx) else yr * (maxbiny - minbiny)

/-- The branch that picks the axis the scale is set off; the second test compares the
truth value of `maxbiny >= minbiny` (1 or 0) with the z range, as the source does. -/
def scaleBranch (maxbinx minbinx maxbiny minbiny maxz minz : ℚ) : ℚ × ℚ × ℚ :=
  if (maxbinx - minbinx) ≥ (maxbiny - minbiny) ∧ (maxbinx - minbinx) ≥ (maxz - minz) then
    (1, (maxbinx - minbinx) / (maxbiny - minbiny), (maxbinx - minbinx) / (maxz - minz))
  else if (maxbiny - minbiny) ≥ (maxbinx - minbinx)
      ∧ (if maxbiny ≥ minbiny then (1 : ℚ) else 0) ≥ (maxz - minz) then
    ((maxbiny - minbiny) / (maxbinx - minbinx), 1, (maxbiny - minbiny) / (maxz - minz))
  else
    ((maxz - minz) / (maxbinx - minbinx), (maxz - minz) / (maxbiny - minbiny), 1)

/-- The fix-up `if (xscale < 1) { factor = 1 / xscale; xscale = 1; yscale *= factor;
zscale *= factor; }` on the triple `(xscale, yscale, zscale)`. -/
def fixX (s : ℚ × ℚ × ℚ) : ℚ × ℚ × ℚ :=
  if s.1 < 1 then (1, s.2.1 * (1 / s.1), s.2.2 * (1 / s.1)) else s

/-- The fix-up `if (yscale < 1) { factor = 1 / yscale; yscale = 1; xscale *= factor;
zscale *= factor; }`. -/
def fixY (s : ℚ × ℚ × ℚ) : ℚ × ℚ × ℚ :=
  if s.2.1 < 1 then (s.1 * (1 / s.2.1), 1, s.2.2 * (1 / s.2.1)) else s

/-- The fix-up `if (zscale < 1) { factor = 1 / zscale; zscale = 1; yscale *= factor;
xscale *= factor; }`. -/
def fixZ (s : ℚ × ℚ × ℚ) : ℚ × ℚ × ℚ :=
  if s.2.2 < 1 then (s.1 * (1 / s.2.2), s.2.1 * (1 / s.2.2), 1) else s

/-- The three fix-ups run in the order x, y, z. -/
def scaleFix (s : ℚ × ℚ × ℚ) : ℚ × ℚ × ℚ := fixZ (fixY (fixX s))

/-- The scale factors `(xscale, yscale, zscale)` passed to `setScale`. -/
def scales (maxbinx minbinx maxbiny minbiny maxz minz : ℚ) : ℚ × ℚ × ℚ :=
  scaleFix (scaleBranch maxbinx minbinx maxbiny minbiny maxz minz)

/-! ## The constructor -/

/-- The null plot made for missing or incomplete settings. -/
def nullPlot (cp : ModelDataColor) (statics : Statics) : Built :=
  { calls := [Call.setDomain 0 0 0 0, Call.setMinZ 0, Call.create],
    provider := { mz := [], mnum := [], maxz := none, minz := none },
    colorProvider := cp, statics := statics }

/-- The placeholder made when the loop filled no cell (`mz.count() == 0`): the title, a
2×2 mesh on the domain (0,0,0,0), the colour map cleared, and an early return. -/
def emptyDataset (st : LoopState) (cp : ModelDataColor) (statics : Statics) : Built :=
  { calls := [Call.setTitle "No data or bin size too large", Call.setDomain 0 0 0 0,
              Call.setMesh 2 2, Call.setMinZ 0, Call.create],
    provider := { mz := [], mnum := st.mnum, maxz := none, minz := none },
    colorProvider := { cp with color := [], num := st.num, zonecolor := [] },
    statics := { statics with intervals_ := st.intervals_, iz := st.iz, inum := st.inum } }

/-- The duration of the ride: `dataPoints().last()->secs + recIntSecs()`; the list is not
empty where the constructor evaluates this. -/
def rideDuration (ride : RideItem) : ℚ :=
  (match ride.dataPoints.getLast? with
    | some point => point.secs
    | none => 0) + ride.recIntSecs

/-- The colour post-processing (zone conversion or not) on the colour provider the loop
left; the triple is `(mincol, maxcol, colorProvider)`. -/
def colorStep (zoneColor : Int → Int → QColor) (settings : ModelSettings) (ride : RideItem)
    (st : LoopState) (cp : ModelDataColor) : ℚ × ℚ × ModelDataColor :=
  let zones := ride.zones
  let zone_range := ride.zoneRange
  if settings.color = MODEL_POWERZONE ∧ zone_range ≥ 0 then
    let n : Int := zones.numZones zone_range
    (1, (n : ℚ),
      { cp with max := (n : ℚ), min := 1,
                zonecolor := fillZoneColors zoneColor n cp.zonecolor,
                color := toZones zones zone_range cp.color,
                iszones := true })
  else if settings.color = MODEL_NONE then
    (st.mincol, st.maxcol, { cp with iszones := false, color := [] })
  else
    (st.mincol, st.maxcol, { cp with iszones := false })

/-- Everything the constructor does after the aggregation loop has filled at least one
cell. -/
def postProcess (zoneColor : Int → Int → QColor) (settings : ModelSettings) (ride : RideItem)
    (st : LoopState) (cp : ModelDataColor) : Built :=
  let c1 := colorStep zoneColor settings ride st
    { cp with color := st.color, num := st.num, zonecolor := [] }
  let duration := rideDuration ride
  let mz := if settings.z = MODEL_XYTIME then timePercent duration st.mz else st.mz
  let iz := if settings.z = MODEL_XYTIME then timePercent duration st.iz else st.iz
  let c2 : ℚ × ℚ × QHash Key ℚ :=
    if settings.color = MODEL_XYTIME then timePercentColor duration c1.2.2.color
    else (c1.1, c1.2.1, c1.2.2.color)
  let mincol := c2.1
  let maxcol := c2.2.1
  -- the map is not empty here, so the scan assigns both bounds
  let mm := (scanMinMax mz).getD (0, 0)
  let minz := mm.1
  let maxz := mm.2
  let cp2 : ModelDataColor := { c1.2.2 with color := c2.2.2, min := mincol, max := maxcol }
  let legendCalls : List Call :=
    if settings.legend = true ∧ settings.color ≠ MODEL_NONE then
      [Call.showColorLegend true, Call.setLimits mincol maxcol,
        Call.setMajors (if cp2.iszones = true then toInt maxcol else 10)]
    else [Call.showColorLegend false]
  let ax := meshAxis settings.xbin st.maxbinx st.minbinx
  let ay := meshAxis settings.ybin st.maxbiny st.minbiny
  let maxbinx := ax.1
  let minbinx := ax.2.1
  let maxbiny := ay.1
  let minbiny := ay.2.1
  let sc := scales maxbinx minbinx maxbiny minbiny maxz minz
  { calls := [Call.setMinZ minz, Call.setMaxZ maxz] ++ legendCalls ++
      [Call.setMesh (ax.2.2 + 1) (ay.2.2 + 1), Call.setDomain maxbinx minbinx minbiny maxbiny,
        Call.create, Call.setScale sc.1 sc.2.1 sc.2.2, Call.setTitle "",
        Call.setGridLines settings.gridlines],
    provider := { mz := mz, mnum := st.mnum, maxz := some maxz, minz := some minz },
    colorProvider := cp2,
    statics := { diag_ := barDiag settings.xbin settings.ybin maxbinx minbinx maxbiny minbiny,
                 intervals_ := st.intervals_, zpane := 0, iz := iz, inum := st.inum } }

/-- The constructor `ModelDataProvider::ModelDataProvider(plot, settings)`, given the
colour provider `settings->colorProvider` and the statics as they stand; `zoneColor` is
the zone palette of `Zones.h`. -/
def ModelDataProvider.ModelDataProvider (zoneColor : Int → Int → QColor)
    (settings : Option ModelSettings) (cp : ModelDataColor) (statics : Statics) : Built :=
  match settings with
  | none => nullPlot cp statics
  | some s =>
    match s.ride with
    | none => nullPlot cp statics
    | some ride =>
      if s.x = MODEL_NONE ∨ s.y = MODEL_NONE ∨ s.z = MODEL_NONE then nullPlot cp statics
      else
        let st := aggregateWith s ride statics.intervals_ statics.iz statics.inum
        if st.mz.count = 0 then emptyDataset st cp statics
        else postProcess zoneColor s ride st cp

/-! ## The colour provider -/

/-- The colour `RGBA(r, g, b, a)` read off a `QColor`: each component over 255, alpha 1. -/
def rgbaOf (c : QColor) : RGBA :=
  { r := (c.red : ℚ) / 255, g := (c.green : ℚ) / 255, b := (c.blue : ℚ) / 255, a := 1 }

/-- The call `ModelDataColor::operator()(x, y, z)`; `setHsv h s v` is the `QColor` that
Qt makes from the integers handed to `QColor::setHsv`. -/
def ModelDataColor.call (setHsv : Int → Int → Int → QColor) (cp : ModelDataColor)
    (x y : ℚ) : RGBA :=
  let val := cp.color.value (xystring x y) 0
  if val = 0 then { r := 255, g := 255, b := 255, a := 0 }
  else
    let cHSV : QColor :=
      if cp.iszones = true then cp.zonecolor.value (val - 1) { red := 0, green := 0, blue := 0 }
      else setHsv (toInt (255 * ((val - cp.min) / (cp.max - cp.min)))) 255 255
    rgbaOf cHSV

/-- The vector `Qwt3D::ColorVector` that `createVector` fills. -/
abbrev ColorVector := List RGBA

/-- The continuous-mode loop `for (i = 0, val = min; i < 100; i++, val += ((max-min)/100))`
of `createVector`, with `n` passes still to run: each pass appends the colour of the hue
`255 * ((val-min)/(max-min))`. -/
def gradeColors (setHsv : Int → Int → Int → QColor) (cp : ModelDataColor) :
    Nat → ℚ → ColorVector → ColorVector
  | 0, _, vec => vec
  | n + 1, val, vec =>
    gradeColors setHsv cp n (val + (cp.max - cp.min) / 100)
      (vec ++ [rgbaOf (setHsv (toInt (255 * ((val - cp.min) / (cp.max - cp.min)))) 255 255)])

/-- The call `ModelDataColor::createVector(vec)`: the vector is cleared, then filled by the
zone loop `for (int i = 0; i < 7; i++)` or by the continuous loop. -/
def ModelDataColor.createVector (setHsv : Int → Int → Int → QColor) (cp : ModelDataColor)
    (_vec : ColorVector) : ColorVector :=
  let vec : ColorVector := []
  if cp.iszones = true then
    (List.range 7).foldl
      (fun v (i : Nat) =>
        v ++ [rgbaOf (cp.zonecolor.value ((i : Int) : ℚ) { red := 0, green := 0, blue := 0 })])
      vec
  else gradeColors setHsv cp 100 cp.min vec

/-- The denominators of the divisions made for `diag_` (lines 602-603): the x range plus
`xbin`, the constant 2, the y range plus `ybin`, and again 2. -/
def barDiagDivisors (xbin ybin : Int) (maxbinx minbinx maxbiny minbiny : ℚ) : List ℚ :=
  [(maxbinx - minbinx) + xbin, 2, (maxbiny - minbiny) + ybin, 2]

/-- The denominators of the two divisions made in the branch that the dominant-axis
selection takes (lines 612-627), the branch tests being those of `scaleBranch`. -/
def scaleBranchDivisors (maxbinx minbinx maxbiny minbiny maxz minz : ℚ) : List ℚ :=
  if (maxbinx - minbinx) ≥ (maxbiny - minbiny) ∧ (maxbinx - minbinx) ≥ (maxz - minz) then
    [maxbiny - minbiny, maxz - minz]
  else if (maxbiny - minbiny) ≥ (maxbinx - minbinx)
      ∧ (if maxbiny ≥ minbiny then (1 : ℚ) else 0) ≥ (maxz - minz) then
    [maxbinx - minbinx, maxz - minz]
  else
    [maxbinx - minbinx, maxbiny - minbiny]

/-! ## The bar enrichment and the plot -/

/-- The point `Qwt3D::Triple`. -/
structure Triple where
  x : ℚ
  y : ℚ
  z : ℚ
  deriving DecidableEq, Repr

/-- One `glBegin … glEnd` block of `Bar::draw` for the box of half-width `diag` around
(x, y) between the heights `bottom` and `top`: the block of `GL_QUADS` with the colour of
the bottom face, of the top face, and of the lower and upper vertices of the side faces, or
the block of `GL_LINES` with the twelve edges. -/
inductive Drawn where
  | quads (x y diag bottom top : ℚ) (bottomFace topFace sideBottom sideTop : RGBA)
  | lines (x y diag bottom top : ℚ)
  deriving DecidableEq, Repr

/-- The `GL_QUADS` block of `Bar::draw` for the box from `gminz` to `top`: the top face is
painted `glColor3d(0.7,0,0)` when `top` lies strictly within `interval` of `numlevel`, else
`rgbat`; the lower side vertices take red, green and alpha of `rgbab` and the blue of
`rgbat`, as the source writes them. -/
def shadedBox (diag : ℚ) (pos : Triple) (gminz top numlevel interval : ℚ)
    (rgbab rgbat : RGBA) : Drawn :=
  Drawn.quads pos.x pos.y diag gminz top rgbab
    (if top > numlevel - interval ∧ top < numlevel + interval then
      { r := 7 / 10, g := 0, b := 0, a := 1 }
    else rgbat)
    { r := rgbab.r, g := rgbab.g, b := rgbat.b, a := rgbab.a } rgbat

/-- The call `Bar::draw(pos)`: the blocks it emits, in order. `hullMinZ` and `hullMaxZ`
are `plot->hull().minVertex.z` and `maxVertex.z`, the colour provider is the plot's
`dataColor()`, and `diag_`, `intervals_` and `iz` are read from the statics. -/
def Bar.draw (setHsv : Int → Int → Int → QColor) (cp : ModelDataColor) (statics : Statics)
    (hullMinZ hullMaxZ : ℚ) (pos : Triple) : List Drawn :=
  let range := hullMaxZ - hullMinZ
  let numlevel := hullMinZ + 1 * range
  let interval := range / 100
  let gminz := hullMinZ
  if pos.z = gminz then []
  else
    let rgbat : RGBA :=
      if statics.intervals_ = 0 then cp.call setHsv pos.x pos.y
      else { r := 255, g := 255, b := 255, a := 1 }
    let rgbab : RGBA :=
      if statics.intervals_ = 0 then cp.call setHsv pos.x pos.y
      else { r := 255, g := 255, b := 255, a := 1 }
    let maxBars : List Drawn :=
      if statics.intervals_ = 0 then
        [shadedBox statics.diag_ pos gminz pos.z numlevel interval rgbab rgbat]
      else []
    let maxFrame : List Drawn :=
      if statics.intervals_ = 0 ∨ statics.intervals_ &&& SHOW_FRAME ≠ 0 then
        [Drawn.lines pos.x pos.y statics.diag_ gminz pos.z]
      else []
    if statics.intervals_ = 0 then maxBars ++ maxFrame
    else
      let rgbat2 : RGBA := cp.call setHsv pos.x pos.y
      let rgbab2 : RGBA := cp.call setHsv pos.x pos.y
      let z := statics.iz.value (xystring pos.x pos.y) 0
      if z = 0 then maxBars ++ maxFrame
      else
        maxBars ++ maxFrame ++
          [shadedBox statics.diag_ pos gminz z numlevel interval rgbab2 rgbat2,
            Drawn.lines pos.x pos.y statics.diag_ gminz z]

/-- The call `BasicModelPlot::setFrame(frame)` on the statics. `intervals_` is held as the
bit pattern of the 32-bit `int`, so `~SHOW_FRAME` is `2^32 - 1 - SHOW_FRAME`. -/
def BasicModelPlot.setFrame (frame : Bool) (statics : Statics) : Statics :=
  if statics.intervals_ ≠ 0 ∧ frame = true then
    { statics with intervals_ := statics.intervals_ ||| SHOW_FRAME }
  else if frame = false then
    { statics with intervals_ := statics.intervals_ &&& (4294967295 - SHOW_FRAME) }
  else statics

/-- What persists of a plot between calls: the colour provider and the statics. -/
structure PlotState where
  colorProvider : ModelDataColor
  statics : Statics

/-- The call `BasicModelPlot::setData(settings)`: the old provider is deleted, which clears
`iz` and `inum`, and a new one is constructed. -/
def BasicModelPlot.setData (zoneColor : Int → Int → QColor) (settings : ModelSettings)
    (s : PlotState) : PlotState :=
  let built := ModelDataProvider.ModelDataProvider zoneColor (some settings) s.colorProvider
    { s.statics with iz := [], inum := [] }
  { colorProvider := built.colorProvider, statics := built.statics }

/-- A call that touches `intervals_`: a bare construction of a data provider (as in the
constructor of `BasicModelPlot`, where the settings may be null), `setData`, or `setFrame`. -/
inductive PlotCall where
  | construct (settings : Option ModelSettings)
  | setData (settings : ModelSettings)
  | setFrame (frame : Bool)

/-- The effect of one call on the plot state. -/
def PlotCall.apply (zoneColor : Int → Int → QColor) (s : PlotState) : PlotCall → PlotState
  | PlotCall.construct settings =>
    let built := ModelDataProvider.ModelDataProvider zoneColor settings s.colorProvider s.statics
    { colorProvider := built.colorProvider, statics := built.statics }
  | PlotCall.setData settings => BasicModelPlot.setData zoneColor settings s
  | PlotCall.setFrame frame => { s with statics := BasicModelPlot.setFrame frame s.statics }

/-- A sequence of calls run from a plot state. -/
def runCalls (zoneColor : Int → Int → QColor) (s : PlotState) (calls : List PlotCall) :
    PlotState :=
  calls.foldl (PlotCall.apply zoneColor) s

/-! ## Specification-side notions -/

/-- The arithmetic mean of a list of values (the sum over the length). -/
def mean (l : List ℚ) : ℚ := l.sum / l.length

/-- The samples of a list that are not skipped and are binned to the cell `k`, in
arrival order. -/
def contributing (settings : ModelSettings) (points : List RideFilePoint) (k : Key) :
    List RideFilePoint :=
  points.filter (fun p => !skipped settings p && decide (cellOf settings p = k))

/-- The test: the sample's `secs` lies in `[start, stop]` of at least one selected interval. -/
def inSomeInterval (settings : ModelSettings) (point : RideFilePoint) : Bool :=
  settings.intervals.any (fun c => decide (point.secs ≥ c.start ∧ point.secs ≤ c.stop))

/-- The z value a sample brings: the recording interval for time-at-cell, else the raw
channel value. -/
def zedOf (settings : ModelSettings) (recIntSecs : ℚ) (point : RideFilePoint) : ℚ :=
  if settings.z = MODEL_XYTIME then recIntSecs else pointType point settings.z

/-- The colour value a sample brings. -/
def colorOf (settings : ModelSettings) (recIntSecs : ℚ) (point : RideFilePoint) : ℚ :=
  if settings.color = MODEL_XYTIME then recIntSecs else pointType point settings.color

/-- The height map the post-processing leaves in the provider: the map of the loop,
turned into percentages of the duration when z is time-at-cell. -/
def finalMz (settings : ModelSettings) (ride : RideItem) (mz : QHash Key ℚ) : QHash Key ℚ :=
  if settings.z = MODEL_XYTIME then timePercent (rideDuration ride) mz else mz

/-- The relative bar fraction of an axis: 80% of half the bin width over the range plus
one bin. -/
def relFraction (bin : Int) (range : ℚ) : ℚ := (8 / 10 : ℚ) * (((bin : ℚ) / (range + bin)) / 2)

/-- The absolute candidate of an axis, in the words of the claim:
0.8 × (bin / (range + bin)) / 2 × range. -/
def absCandidate (bin : Int) (range : ℚ) : ℚ :=
  (8 / 10 : ℚ) * ((bin : ℚ) / (range + bin)) / 2 * range

/-- The values `intervals_` takes: 0, `SHOW_INTERVALS`, or `SHOW_INTERVALS | SHOW_FRAME`. -/
def validFlags (n : Nat) : Prop := n = 0 ∨ n = SHOW_INTERVALS ∨ n = SHOW_INTERVALS ||| SHOW_FRAME

/-- The value the most recent sample of a list brings, `d` when the list is empty. -/
def lastValue (f : RideFilePoint → ℚ) (l : List RideFilePoint) (d : ℚ) : ℚ :=
  match l.getLast? with
  | some p => f p
  | none => d

/-- The test: the sample feeds the colour aggregate (no interval is selected, or its secs
lie in a selected interval). -/
def feedsColor (settings : ModelSettings) (point : RideFilePoint) : Bool :=
  decide (settings.intervals = []) || inSomeInterval settings point

/-! ## Concrete rides used as examples -/

/-- A sample with the given time, power, cadence and heart rate, every other field zero. -/
def samplePoint (secs watts cad hr : ℚ) : RideFilePoint :=
  { secs := secs, cad := cad, hr := hr, km := 0, kph := 0, nm := 0, watts := watts,
    alt := 0, lon := 0, lat := 0, interval := 0 }

/-- A zone configuration without zones. -/
def noZones : Zones := { numZones := fun _ => 0, whichZone := fun _ _ => 0 }

/-- Two samples in the same power/cadence cell with heart rates 100 and 200. -/
def hrRide : RideItem :=
  { dataPoints := [samplePoint 0 100 80 100, samplePoint 1 100 80 200],
    recIntSecs := 1, zones := noZones, zoneRange := -1 }

/-- Power (bin width 50) against cadence (bin width 10), height = heart rate. -/
def hrSettings : ModelSettings :=
  { ride := some hrRide, x := MODEL_POWER, y := MODEL_CADENCE, z := MODEL_HEARTRATE,
    color := MODEL_NONE, xbin := 50, ybin := 10, ignore := false, gridlines := false,
    frame := false, legend := false, intervals := [] }

/-- Three samples at times 0, 1, 2 with powers 100, 120, 140 and cadences 80, 82, 81,
recorded every second. -/
def timeRide : RideItem :=
  { dataPoints := [samplePoint 0 100 80 0, samplePoint 1 120 82 0, samplePoint 2 140 81 0],
    recIntSecs := 1, zones := noZones, zoneRange := -1 }

/-- Power (bin width 50) against cadence (bin width 10), height = time at cell. -/
def timeSettings : ModelSettings :=
  { ride := some timeRide, x := MODEL_POWER, y := MODEL_CADENCE, z := MODEL_XYTIME,
    color := MODEL_NONE, xbin := 50, ybin := 10, ignore := false, gridlines := false,
    frame := false, legend := false, intervals := [] }

/-- A colour provider with nothing in it. -/
def emptyColor : ModelDataColor :=
  { color := [], num := [], min := 0, max := 0, iszones := false, zonecolor := [] }

/-- The statics as they are before the first plot is built. -/
def initialStatics : Statics :=
  { diag_ := 0, intervals_ := 0, zpane := 0, iz := [], inum := [] }

/-- A zone palette that paints zone `i` with the grey level `i`. -/
def greyZones (i : Int) (_n : Int) : QColor := { red := i, green := i, blue := i }

/-- A ride whose first sample has no power (it coasts) and whose second has. -/
def zeroRide : RideItem :=
  { dataPoints := [samplePoint 0 0 80 100, samplePoint 1 100 80 120],
    recIntSecs := 1, zones := noZones, zoneRange := -1 }

/-- Power against cadence with the ignore flag set and one selected interval. -/
def zeroSettings : ModelSettings :=
  { ride := some zeroRide, x := MODEL_POWER, y := MODEL_CADENCE, z := MODEL_HEARTRATE,
    color := MODEL_HEARTRATE, xbin := 50, ybin := 10, ignore := true, gridlines := false,
    frame := false, legend := false, intervals := [{ start := 0, stop := 1 }] }

/-- Five samples over three cells: powers 100, 100, 150, 200, 200 at times 0, 1, 3/2, 2, 3. -/
def gapRide : RideItem :=
  { dataPoints := [samplePoint 0 100 80 100, samplePoint 1 100 80 110,
      samplePoint (3 / 2) 150 80 120, samplePoint 2 200 80 130, samplePoint 3 200 80 140],
    recIntSecs := 1, zones := noZones, zoneRange := -1 }

/-- Power against cadence with the two intervals [0,1] and [2,3] selected. -/
def gapSettings : ModelSettings :=
  { ride := some gapRide, x := MODEL_POWER, y := MODEL_CADENCE, z := MODEL_HEARTRATE,
    color := MODEL_NONE, xbin := 50, ybin := 10, ignore := false, gridlines := false,
    frame := false, legend := false,
    intervals := [{ start := 0, stop := 1 }, { start := 2, stop := 3 }] }

/-- A ride whose only sample has no power. -/
def coastRide : RideItem :=
  { dataPoints := [samplePoint 0 0 80 100],
    recIntSecs := 1, zones := noZones, zoneRange := -1 }

/-- Power against cadence, height = heart rate, the ignore flag set. -/
def coastSettings : ModelSettings :=
  { ride := some coastRide, x := MODEL_POWER, y := MODEL_CADENCE, z := MODEL_HEARTRATE,
    color := MODEL_NONE, xbin := 50, ybin := 10, ignore := true, gridlines := false,
    frame := false, legend := false, intervals := [] }

/-- Three power zones: below 150 W, from 150 W to below 250 W, and above. -/
def threeZones : Zones :=
  { numZones := fun _ => 3,
    whichZone := fun _ v => if v < 150 then 0 else if v < 250 then 1 else 2 }

/-- Two samples with powers 100 and 200, and a zone range configured. -/
def zoneRide : RideItem :=
  { dataPoints := [samplePoint 0 100 80 100, samplePoint 1 200 90 120],
    recIntSecs := 1, zones := threeZones, zoneRange := 0 }

/-- Power against cadence, height = heart rate, colour = power zone. -/
def zoneSettings : ModelSettings :=
  { ride := some zoneRide, x := MODEL_POWER, y := MODEL_CADENCE, z := MODEL_HEARTRATE,
    color := MODEL_POWERZONE, xbin := 50, ybin := 10, ignore := false, gridlines := false,
    frame := false, legend := true, intervals := [] }

/-- A colour provider in zone mode with one cell in zone 2 (stored value 2). -/
def zoneColorProvider : ModelDataColor :=
  { color := [((100, 80), 2)], num := [((100, 80), 0)], min := 1, max := 3, iszones := true,
    zonecolor := [(0, { red := 255, green := 0, blue := 0 }),
      (1, { red := 0, green := 255, blue := 0 }), (2, { red := 0, green := 0, blue := 255 })] }

/-- A stand-in for `QColor::setHsv`: a grey of the hue. -/
def greyHsv (h : Int) (_s _v : Int) : QColor := { red := h, green := h, blue := h }

/-- Two samples west of Greenwich (longitudes -122 and -121), taken more than 65535
seconds into the ride. -/
def westRide : RideItem :=
  { dataPoints := [{ samplePoint 70000 100 80 100 with lon := -122, lat := 37 },
      { samplePoint 70001 100 80 100 with lon := -121, lat := 37 }],
    recIntSecs := 1, zones := noZones, zoneRange := -1 }

/-- Longitude against elapsed time, both with bin width 1, height = heart rate. -/
def westSettings : ModelSettings :=
  { ride := some westRide, x := MODEL_LONG, y := MODEL_TIME, z := MODEL_HEARTRATE,
    color := MODEL_NONE, xbin := 1, ybin := 1, ignore := false, gridlines := false,
    frame := false, legend := false, intervals := [] }

/-- The heart-rate settings with the colour channel set to power zone; the ride has no
zone range. -/
def pzSettings : ModelSettings := { hrSettings with color := MODEL_POWERZONE }

/-- Time at cell over the three-sample ride with the overlapping intervals [0,2] and
[1,3] selected. -/
def overlapSettings : ModelSettings :=
  { timeSettings with intervals := [{ start := 0, stop := 2 }, { start := 1, stop := 3 }] }

/-- The heart-rate settings with the two intervals [0,0] and [5,6] selected and the frame
switched on: the first sample lies in an interval, the second does not. -/
def hrIntervalSettings : ModelSettings :=
  { hrSettings with frame := true,
                    intervals := [{ start := 0, stop := 0 }, { start := 5, stop := 6 }] }

/-- Statics with an interval selection, the frame shown, and an interval height 120 for the
cell (100,80). -/
def intervalStatics : Statics :=
  { diag_ := 3, intervals_ := 3, zpane := 0, iz := [((100, 80), 120)], inum := [((100, 80), 0)] }

/-- Colour = heart rate, continuous mode, with the cell (100,80) holding 150. -/
def rampColorProvider : ModelDataColor :=
  { color := [((100, 80), 150)], num := [((100, 80), 0)], min := 100, max := 200,
    iszones := false, zonecolor := [] }

/-! ## Lemmas on the containers -/

namespace QHash

variable {K V : Type} [DecidableEq K]

theorem value_insert (m : QHash K V) (k k' : K) (v d : V) :
    value (insert m k v) k' d = if k = k' then v else value m k' d := by
  induction m with
  | nil => simp [insert, value]
  | cons e rest ih =>
    obtain ⟨a, b⟩ := e
    by_cases h : a = k
    · subst h
      by_cases h2 : a = k' <;> simp [insert, value, h2]
    · by_cases h2 : a = k'
      · subst h2
        simp [insert, value, h, Ne.symm h]
      · simp [insert, value, h, h2, ih]

theorem keys_insert (m : QHash K V) (k : K) (v : V) :
    keys (insert m k v) = if k ∈ keys m then keys m else keys m ++ [k] := by
  induction m with
  | nil => simp [insert, keys]
  | cons e rest ih =>
    obtain ⟨a, b⟩ := e
    by_cases h : a = k
    · subst h
      simp [insert, keys]
    · have h2 : ¬ k = a := fun e => h e.symm
      simp only [keys] at ih
      by_cases h3 : k ∈ List.map Prod.fst rest
      · simp [insert, keys, h, h2, h3, ih]
      · simp [insert, keys, h, h2, h3, ih]

theorem mem_keys_insert (m : QHash K V) (k k' : K) (v : V) :
    k' ∈ keys (insert m k v) ↔ k' = k ∨ k' ∈ keys m := by
  rw [keys_insert]
  by_cases h : k ∈ keys m
  · simp only [h, if_true]
    constructor
    · exact fun h1 => Or.inr h1
    · rintro (rfl | h1)
      · exact h
      · exact h1
  · simp only [h, if_false, List.mem_append, List.mem_singleton]
    tauto

theorem nodup_keys_insert (m : QHash K V) (k : K) (v : V) (h : (keys m).Nodup) :
    (keys (insert m k v)).Nodup := by
  rw [keys_insert]
  by_cases h1 : k ∈ keys m
  · simpa [h1] using h
  · simp only [h1, if_false]
    refine List.Nodup.append h (List.nodup_singleton k) ?_
    intro a ha hb
    rw [List.mem_singleton] at hb
    subst hb
    exact h1 ha

theorem insert_ne_nil (m : QHash K V) (k : K) (v : V) : insert m k v ≠ [] := by
  cases m with
  | nil => simp [insert]
  | cons e rest =>
    obtain ⟨a, b⟩ := e
    by_cases h : a = k <;> simp [insert, h]

theorem value_of_not_mem (m : QHash K V) (k : K) (d : V) (h : k ∉ keys m) :
    value m k d = d := by
  induction m with
  | nil => rfl
  | cons e rest ih =>
    obtain ⟨a, b⟩ := e
    simp only [keys, List.map_cons, List.mem_cons, not_or] at h
    have h1 : ¬ a = k := fun e => h.1 e.symm
    simp only [value, h1, if_false]
    exact ih h.2

theorem insert_append_of_not_mem (pre rest : QHash K V) (e : K × V) (v : V)
    (h : e.1 ∉ keys pre) :
    insert (pre ++ e :: rest) e.1 v = pre ++ (e.1, v) :: rest := by
  induction pre with
  | nil => simp [insert]
  | cons p pre ih =>
    obtain ⟨a, b⟩ := p
    simp only [keys, List.map_cons, List.mem_cons, not_or] at h
    have h1 : ¬ a = e.1 := fun e => h.1 e.symm
    simp only [List.cons_append, insert, h1, if_false]
    exact congrArg _ (ih h.2)

theorem rewriteAll_append (f : V → V) (snap pre : QHash K V)
    (h : (keys (pre ++ snap)).Nodup) :
    rewriteAll f snap (pre ++ snap) = pre ++ snap.map (fun e => (e.1, f e.2)) := by
  induction snap generalizing pre with
  | nil => simp [rewriteAll]
  | cons e rest ih =>
    have hk : e.1 ∉ keys pre := by
      simp only [keys, List.map_append, List.map_cons] at h
      have := (List.nodup_append.mp h).2.2
      intro hm
      exact this hm (List.mem_cons_self _ _) 
    have step : rewriteAll f (e :: rest) (pre ++ e :: rest)
        = rewriteAll f rest ((pre ++ [(e.1, f e.2)]) ++ rest) := by
      simp only [rewriteAll, List.foldl_cons]
      rw [insert_append_of_not_mem pre rest e (f e.2) hk]
      simp
    rw [step, ih]
    · simp
    · simpa [keys] using h

theorem rewriteAll_self (f : V → V) (m : QHash K V) (h : (keys m).Nodup) :
    rewriteAll f m m = m.map (fun e => (e.1, f e.2)) := by
  have := rewriteAll_append f m [] (by simpa using h)
  simpa using this

theorem value_map (f : V → V) (m : QHash K V) (k : K) (d : V) :
    value (m.map (fun e => (e.1, f e.2))) k d
      = if k ∈ keys m then f (value m k d) else d := by
  induction m with
  | nil => simp [value, keys]
  | cons e rest ih =>
    obtain ⟨a, b⟩ := e
    by_cases h : a = k
    · subst h
      simp [value, keys]
    · have h2 : ¬ k = a := fun e => h e.symm
      simp only [keys] at ih
      by_cases h3 : k ∈ List.map Prod.fst rest <;> simp [value, keys, h, h2, h3, ih]

omit [DecidableEq K] in
theorem keys_map (f : V → V) (m : QHash K V) :
    keys (m.map (fun e => (e.1, f e.2))) = keys m := by
  simp [keys, List.map_map, Function.comp_def]

end QHash

/-! ## Lemmas on the conversions -/

theorem toInt_intCast (n : Int) : toInt (n : ℚ) = n := by
  unfold toInt
  split <;> simp

theorem xystring_intCast (a b : Int) : xystring (a : ℚ) (b : ℚ) = (a, b) := by
  simp [xystring, toInt_intCast]

theorem cellOf_eq (settings : ModelSettings) (point : RideFilePoint) :
    cellOf settings point = (binx settings point, biny settings point) := by
  simp [cellOf, xystring_intCast]

/-! ## Lemmas on the aggregation loop -/

theorem skipped_iff (settings : ModelSettings) (point : RideFilePoint) :
    skipped settings point = true ↔
      (settings.ignore = true ∧ (binx settings point = 0 ∨ biny settings point = 0)) := by
  simp [skipped]

theorem intervalLoop_eq (settings : ModelSettings) (r : ℚ) (point : RideFilePoint)
    (lookup : Key) (color : ℚ) (l : List IntervalItem) (st : LoopState) :
    intervalLoop settings r point lookup color l st =
      if l.any (fun c => decide (point.secs ≥ c.start ∧ point.secs ≤ c.stop)) = true then
        intervalUpdate settings r point lookup color st
      else st := by
  induction l with
  | nil => simp [intervalLoop]
  | cons c rest ih =>
    by_cases h : point.secs ≥ c.start ∧ point.secs ≤ c.stop
    · simp [intervalLoop, h]
    · simp only [intervalLoop, h, if_false, ih, List.any_cons, decide_False, Bool.false_or]

theorem loopBody_skipped (settings : ModelSettings) (r : ℚ) (st : LoopState)
    (point : RideFilePoint) (h : skipped settings point = true) :
    loopBody settings r st point = st := by
  rw [skipped_iff] at h
  simp [loopBody, h]

/-- The loop body on a sample that is not skipped, with the interval loop summarised. -/
theorem loopBody_eq (settings : ModelSettings) (r : ℚ) (st : LoopState)
    (point : RideFilePoint) (h : skipped settings point = false) :
    loopBody settings r st point =
      let lookup := cellOf settings point
      let bx : ℚ := binx settings point
      let by_ : ℚ := biny settings point
      let color := colorOf settings r point
      let z := accumulate (settings.z == MODEL_XYTIME) (st.mnum.value lookup 0)
        (st.mz.value lookup 0) (zedOf settings r point)
      let st1 : LoopState :=
        { st with maxcol := if color > st.maxcol then color else st.maxcol,
                  mincol := if color < st.mincol then color else st.mincol,
                  maxbinx := if bx > st.maxbinx then bx else st.maxbinx,
                  minbinx := if bx < st.minbinx then bx else st.minbinx,
                  maxbiny := if by_ > st.maxbiny then by_ else st.maxbiny,
                  minbiny := if by_ < st.minbiny then by_ else st.minbiny,
                  mz := st.mz.insert lookup z.2, mnum := st.mnum.insert lookup z.1 }
      if settings.intervals = [] then
        let c := accumulate (settings.color == MODEL_XYTIME) (st.num.value lookup 0)
          (st.color.value lookup 0) color
        { st1 with intervals_ := 0, color := st.color.insert lookup c.2,
                   num := st.num.insert lookup c.1 }
      else
        let st3 : LoopState :=
          { st1 with intervals_ :=
              if settings.frame = true then SHOW_INTERVALS ||| SHOW_FRAME else SHOW_INTERVALS }
        if inSomeInterval settings point = true then
          intervalUpdate settings r point lookup color st3
        else st3 := by
  have hs : ¬ (settings.ignore = true ∧ (binx settings point = 0 ∨ biny settings point = 0)) := by
    rw [← skipped_iff, h]
    simp
  by_cases hi : settings.intervals = []
  · simp only [loopBody, hs, if_false, hi, List.length_nil, lt_irrefl, if_true, cellOf,
      colorOf, zedOf]
  · have hl : ¬ settings.intervals.length = 0 := by
      simpa [List.length_eq_zero] using hi
    have hp : settings.intervals.length > 0 := Nat.pos_of_ne_zero hl
    simp only [loopBody, hs, if_false, hi, hl, hp, if_true, cellOf, colorOf, zedOf,
      intervalLoop_eq, inSomeInterval]

section LoopFields

variable (settings : ModelSettings) (r : ℚ) (st : LoopState) (point : RideFilePoint)

theorem loopBody_mz (h : skipped settings point = false) :
    (loopBody settings r st point).mz =
      st.mz.insert (cellOf settings point)
        (accumulate (settings.z == MODEL_XYTIME) (st.mnum.value (cellOf settings point) 0)
          (st.mz.value (cellOf settings point) 0) (zedOf settings r point)).2 := by
  rw [loopBody_eq settings r st point h]
  simp only []
  split
  · rfl
  · split
    · simp [intervalUpdate]
    · rfl

theorem loopBody_mnum (h : skipped settings point = false) :
    (loopBody settings r st point).mnum =
      st.mnum.insert (cellOf settings point)
        (accumulate (settings.z == MODEL_XYTIME) (st.mnum.value (cellOf settings point) 0)
          (st.mz.value (cellOf settings point) 0) (zedOf settings r point)).1 := by
  rw [loopBody_eq settings r st point h]
  simp only []
  split
  · rfl
  · split
    · simp [intervalUpdate]
    · rfl

theorem loopBody_iz (h : skipped settings point = false) :
    (loopBody settings r st point).iz =
      if inSomeInterval settings point = true then
        st.iz.insert (cellOf settings point)
          (accumulate (settings.z == MODEL_XYTIME)
            (toInt (st.inum.value (cellOf settings point) 0))
            (st.iz.value (cellOf settings point) 0) (zedOf settings r point)).2
      else st.iz := by
  rw [loopBody_eq settings r st point h]
  simp only []
  by_cases hi : settings.intervals = []
  · have : inSomeInterval settings point = false := by simp [inSomeInterval, hi]
    simp [hi, this]
  · by_cases hm : inSomeInterval settings point = true
    · simp [hi, hm, intervalUpdate, zedOf]
    · simp [hi, hm]

theorem loopBody_inum (h : skipped settings point = false) :
    (loopBody settings r st point).inum =
      if inSomeInterval settings point = true then
        st.inum.insert (cellOf settings point)
          (((accumulate (settings.z == MODEL_XYTIME)
            (toInt (st.inum.value (cellOf settings point) 0))
            (st.iz.value (cellOf settings point) 0) (zedOf settings r point)).1 : Int) : ℚ)
      else st.inum := by
  rw [loopBody_eq settings r st point h]
  simp only []
  by_cases hi : settings.intervals = []
  · have : inSomeInterval settings point = false := by simp [inSomeInterval, hi]
    simp [hi, this]
  · by_cases hm : inSomeInterval settings point = true
    · simp [hi, hm, intervalUpdate, zedOf]
    · simp [hi, hm]

theorem loopBody_color (h : skipped settings point = false) :
    (loopBody settings r st point).color =
      if settings.intervals = [] ∨ inSomeInterval settings point = true then
        st.color.insert (cellOf settings point)
          (accumulate (settings.color == MODEL_XYTIME)
            (st.num.value (cellOf settings point) 0)
            (st.color.value (cellOf settings point) 0) (colorOf settings r point)).2
      else st.color := by
  rw [loopBody_eq settings r st point h]
  simp only []
  by_cases hi : settings.intervals = []
  · simp [hi]
  · by_cases hm : inSomeInterval settings point = true
    · simp [hi, hm, intervalUpdate]
    · simp [hi, hm]

theorem loopBody_num (h : skipped settings point = false) :
    (loopBody settings r st point).num =
      if settings.intervals = [] ∨ inSomeInterval settings point = true then
        st.num.insert (cellOf settings point)
          (accumulate (settings.color == MODEL_XYTIME)
            (st.num.value (cellOf settings point) 0)
            (st.color.value (cellOf settings point) 0) (colorOf settings r point)).1
      else st.num := by
  rw [loopBody_eq settings r st point h]
  simp only []
  by_cases hi : settings.intervals = []
  · simp [hi]
  · by_cases hm : inSomeInterval settings point = true
    · simp [hi, hm, intervalUpdate]
    · simp [hi, hm]

end LoopFields

theorem aggregateFrom_cons (settings : ModelSettings) (r : ℚ) (st : LoopState)
    (point : RideFilePoint) (points : List RideFilePoint) :
    aggregateFrom settings r st (point :: points) =
      aggregateFrom settings r (loopBody settings r st point) points := rfl

theorem aggregateFrom_nil (settings : ModelSettings) (r : ℚ) (st : LoopState) :
    aggregateFrom settings r st [] = st := rfl

theorem contributing_cons (settings : ModelSettings) (point : RideFilePoint)
    (points : List RideFilePoint) (k : Key) :
    contributing settings (point :: points) k =
      if skipped settings point = false ∧ cellOf settings point = k then
        point :: contributing settings points k
      else contributing settings points k := by
  by_cases h1 : skipped settings point = false <;>
    by_cases h2 : cellOf settings point = k <;>
    simp_all [contributing, List.filter_cons]

/-- With z = time-at-cell every contributing sample adds the recording interval to the
height of its cell and one to its count. -/
theorem aggregateFrom_time (settings : ModelSettings) (r : ℚ)
    (hz : settings.z = MODEL_XYTIME) (points : List RideFilePoint) (st : LoopState) (k : Key) :
    (aggregateFrom settings r st points).mz.value k 0
        = st.mz.value k 0 + ((contributing settings points k).length : ℚ) * r ∧
    (aggregateFrom settings r st points).mnum.value k 0
        = st.mnum.value k 0 + ((contributing settings points k).length : Int) := by
  induction points generalizing st with
  | nil => simp [aggregateFrom_nil, contributing]
  | cons p ps ih =>
    rw [aggregateFrom_cons, contributing_cons]
    by_cases hs : skipped settings p = true
    · rw [loopBody_skipped settings r st p hs]
      simpa [hs] using ih st
    · have hs2 : skipped settings p = false := by simpa using hs
      have h := ih (loopBody settings r st p)
      rw [loopBody_mz settings r st p hs2, loopBody_mnum settings r st p hs2] at h
      rw [QHash.value_insert, QHash.value_insert] at h
      by_cases hk : cellOf settings p = k
      · subst hk
        simp only [hs2, true_and, if_true, List.length_cons] at h ⊢
        simp only [accumulate, zedOf, hz, beq_self_eq_true, if_true] at h
        constructor
        · rw [h.1]; push_cast; ring
        · rw [h.2]; push_cast; ring
      · simpa [hs2, hk] using h

theorem aggregateFrom_mz_nodup (settings : ModelSettings) (r : ℚ)
    (points : List RideFilePoint) (st : LoopState) (h : (QHash.keys st.mz).Nodup) :
    (QHash.keys (aggregateFrom settings r st points).mz).Nodup := by
  induction points generalizing st with
  | nil => simpa [aggregateFrom_nil] using h
  | cons p ps ih =>
    rw [aggregateFrom_cons]
    apply ih
    by_cases hs : skipped settings p = true
    · rw [loopBody_skipped settings r st p hs]
      exact h
    · have hs2 : skipped settings p = false := by simpa using hs
      rw [loopBody_mz settings r st p hs2]
      exact QHash.nodup_keys_insert _ _ _ h

theorem timePercent_value (duration : ℚ) (m : QHash Key ℚ) (k : Key)
    (hm : (QHash.keys m).Nodup) (hd : duration ≠ 0) :
    (timePercent duration m).value k 0 = (m.value k 0 / duration) * 100 := by
  simp only [timePercent, hd, ne_eq, not_false_eq_true, if_true]
  rw [QHash.rewriteAll_self _ _ hm, QHash.value_map (fun v => (v / duration) * 100)]
  split
  · rfl
  · rename_i hk
    rw [QHash.value_of_not_mem m k 0 hk]
    simp

/-- Key tracking through the loop: when one pass adds exactly the cell of the samples that
satisfy `c` to the key list `g`, the whole loop adds exactly the cells of such samples. -/
theorem mem_keys_aggregateFrom (settings : ModelSettings) (r : ℚ)
    (g : LoopState → List Key) (c : RideFilePoint → Prop)
    (hstep : ∀ st p k, k ∈ g (loopBody settings r st p) ↔ k ∈ g st ∨ (c p ∧ cellOf settings p = k))
    (points : List RideFilePoint) (st : LoopState) (k : Key) :
    k ∈ g (aggregateFrom settings r st points) ↔
      k ∈ g st ∨ ∃ p ∈ points, c p ∧ cellOf settings p = k := by
  induction points generalizing st with
  | nil => simp [aggregateFrom_nil]
  | cons p ps ih =>
    rw [aggregateFrom_cons, ih, hstep]
    simp only [List.mem_cons, exists_eq_or_imp]
    tauto

section StepKeys

variable (settings : ModelSettings) (r : ℚ) (st : LoopState) (p : RideFilePoint) (k : Key)

theorem mem_keys_loopBody_mz :
    k ∈ QHash.keys (loopBody settings r st p).mz ↔
      k ∈ QHash.keys st.mz ∨ (skipped settings p = false ∧ cellOf settings p = k) := by
  by_cases hs : skipped settings p = true
  · rw [loopBody_skipped settings r st p hs]
    simp [hs]
  · have hs2 : skipped settings p = false := by simpa using hs
    rw [loopBody_mz settings r st p hs2, QHash.mem_keys_insert]
    simp only [hs2, true_and]
    constructor <;> rintro (h | h) <;>
      first | exact Or.inl h | exact Or.inr h | exact Or.inl h.symm | exact Or.inr h.symm

theorem mem_keys_loopBody_mnum :
    k ∈ QHash.keys (loopBody settings r st p).mnum ↔
      k ∈ QHash.keys st.mnum ∨ (skipped settings p = false ∧ cellOf settings p = k) := by
  by_cases hs : skipped settings p = true
  · rw [loopBody_skipped settings r st p hs]
    simp [hs]
  · have hs2 : skipped settings p = false := by simpa using hs
    rw [loopBody_mnum settings r st p hs2, QHash.mem_keys_insert]
    simp only [hs2, true_and]
    constructor <;> rintro (h | h) <;>
      first | exact Or.inl h | exact Or.inr h | exact Or.inl h.symm | exact Or.inr h.symm

theorem mem_keys_loopBody_iz :
    k ∈ QHash.keys (loopBody settings r st p).iz ↔
      k ∈ QHash.keys st.iz ∨
        ((skipped settings p = false ∧ inSomeInterval settings p = true)
          ∧ cellOf settings p = k) := by
  by_cases hs : skipped settings p = true
  · rw [loopBody_skipped settings r st p hs]
    simp [hs]
  · have hs2 : skipped settings p = false := by simpa using hs
    rw [loopBody_iz settings r st p hs2]
    by_cases hm : inSomeInterval settings p = true
    · simp only [hm, if_true, QHash.mem_keys_insert, hs2, true_and]
      constructor <;> rintro (h | h) <;>
        first | exact Or.inl h | exact Or.inr h | exact Or.inl h.symm | exact Or.inr h.symm
    · simp [hm]

theorem mem_keys_loopBody_inum :
    k ∈ QHash.keys (loopBody settings r st p).inum ↔
      k ∈ QHash.keys st.inum ∨
        ((skipped settings p = false ∧ inSomeInterval settings p = true)
          ∧ cellOf settings p = k) := by
  by_cases hs : skipped settings p = true
  · rw [loopBody_skipped settings r st p hs]
    simp [hs]
  · have hs2 : skipped settings p = false := by simpa using hs
    rw [loopBody_inum settings r st p hs2]
    by_cases hm : inSomeInterval settings p = true
    · simp only [hm, if_true, QHash.mem_keys_insert, hs2, true_and]
      constructor <;> rintro (h | h) <;>
        first | exact Or.inl h | exact Or.inr h | exact Or.inl h.symm | exact Or.inr h.symm
    · simp [hm]

theorem mem_keys_loopBody_color :
    k ∈ QHash.keys (loopBody settings r st p).color ↔
      k ∈ QHash.keys st.color ∨
        ((skipped settings p = false ∧
            (settings.intervals = [] ∨ inSomeInterval settings p = true))
          ∧ cellOf settings p = k) := by
  by_cases hs : skipped settings p = true
  · rw [loopBody_skipped settings r st p hs]
    simp [hs]
  · have hs2 : skipped settings p = false := by simpa using hs
    rw [loopBody_color settings r st p hs2]
    by_cases hm : settings.intervals = [] ∨ inSomeInterval settings p = true
    · simp only [hm, if_true, QHash.mem_keys_insert, hs2, true_and]
      constructor <;> rintro (h | h) <;>
        first | exact Or.inl h | exact Or.inr h | exact Or.inl h.symm | exact Or.inr h.symm
    · simp [hm]

theorem mem_keys_loopBody_num :
    k ∈ QHash.keys (loopBody settings r st p).num ↔
      k ∈ QHash.keys st.num ∨
        ((skipped settings p = false ∧
            (settings.intervals = [] ∨ inSomeInterval settings p = true))
          ∧ cellOf settings p = k) := by
  by_cases hs : skipped settings p = true
  · rw [loopBody_skipped settings r st p hs]
    simp [hs]
  · have hs2 : skipped settings p = false := by simpa using hs
    rw [loopBody_num settings r st p hs2]
    by_cases hm : settings.intervals = [] ∨ inSomeInterval settings p = true
    · simp only [hm, if_true, QHash.mem_keys_insert, hs2, true_and]
      constructor <;> rintro (h | h) <;>
        first | exact Or.inl h | exact Or.inr h | exact Or.inl h.symm | exact Or.inr h.symm
    · simp [hm]

end StepKeys

/-- A sample that is kept although the ignore flag is set has a cell with both coordinates
different from zero. -/
theorem cellOf_ne_zero (settings : ModelSettings) (p : RideFilePoint)
    (hign : settings.ignore = true) (hs : skipped settings p = false) :
    (cellOf settings p).1 ≠ 0 ∧ (cellOf settings p).2 ≠ 0 := by
  rw [cellOf_eq]
  have h : ¬ (settings.ignore = true ∧ (binx settings p = 0 ∨ biny settings p = 0)) := by
    rw [← skipped_iff, hs]
    simp
  simp only [hign, true_and, not_or] at h
  exact h

/-- The loop leaves `mz` empty exactly when it skips every sample. -/
theorem aggregateFrom_mz_eq_nil_iff (settings : ModelSettings) (r : ℚ)
    (points : List RideFilePoint) (st : LoopState) (h0 : st.mz = []) :
    (aggregateFrom settings r st points).mz = [] ↔
      ∀ p ∈ points, skipped settings p = true := by
  have key := mem_keys_aggregateFrom settings r (fun s => QHash.keys s.mz)
    (fun p => skipped settings p = false) (mem_keys_loopBody_mz settings r) points st
  constructor
  · intro hnil p hp
    by_contra hs
    have hs2 : skipped settings p = false := by simpa using hs
    have := (key (cellOf settings p)).mpr (Or.inr ⟨p, hp, hs2, rfl⟩)
    simp [hnil, QHash.keys] at this
  · intro hall
    cases hm : (aggregateFrom settings r st points).mz with
    | nil => rfl
    | cons e rest =>
      have hmem : e.1 ∈ QHash.keys (aggregateFrom settings r st points).mz := by
        simp [hm, QHash.keys]
      rcases (key e.1).mp hmem with h | ⟨p, hp, hs, _⟩
      · simp [h0, QHash.keys] at h
      · rw [hall p hp] at hs
        exact absurd hs (by decide)

/-- A loop that skips every sample changes nothing. -/
theorem aggregateFrom_all_skipped (settings : ModelSettings) (r : ℚ)
    (points : List RideFilePoint) (st : LoopState)
    (hall : ∀ p ∈ points, skipped settings p = true) :
    aggregateFrom settings r st points = st := by
  induction points generalizing st with
  | nil => rfl
  | cons p ps ih =>
    rw [aggregateFrom_cons, loopBody_skipped settings r st p (hall p (List.mem_cons_self _ _))]
    exact ih st (fun q hq => hall q (List.mem_cons_of_mem _ hq))

/-- Without selected intervals the loop never touches `iz`. -/
theorem aggregateFrom_iz_of_no_intervals (settings : ModelSettings) (r : ℚ)
    (hi : settings.intervals = []) (points : List RideFilePoint) (st : LoopState) :
    (aggregateFrom settings r st points).iz = st.iz := by
  induction points generalizing st with
  | nil => rfl
  | cons p ps ih =>
    rw [aggregateFrom_cons, ih]
    by_cases hs : skipped settings p = true
    · rw [loopBody_skipped settings r st p hs]
    · have hs2 : skipped settings p = false := by simpa using hs
      rw [loopBody_iz settings r st p hs2]
      simp [inSomeInterval, hi]

theorem inSomeInterval_iff (settings : ModelSettings) (p : RideFilePoint) :
    inSomeInterval settings p = true ↔
      ∃ c ∈ settings.intervals, c.start ≤ p.secs ∧ p.secs ≤ c.stop := by
  simp [inSomeInterval, List.any_eq_true]

theorem aggregateFrom_color_nodup (settings : ModelSettings) (r : ℚ)
    (points : List RideFilePoint) (st : LoopState) (h : (QHash.keys st.color).Nodup) :
    (QHash.keys (aggregateFrom settings r st points).color).Nodup := by
  induction points generalizing st with
  | nil => simpa [aggregateFrom_nil] using h
  | cons p ps ih =>
    rw [aggregateFrom_cons]
    apply ih
    by_cases hs : skipped settings p = true
    · rw [loopBody_skipped settings r st p hs]
      exact h
    · have hs2 : skipped settings p = false := by simpa using hs
      rw [loopBody_color settings r st p hs2]
      split
      · exact QHash.nodup_keys_insert _ _ _ h
      · exact h

/-! ## Lemmas on the post-processing -/

theorem mem_keys_fillZoneColors_aux (zoneColor : Int → Int → QColor) (n : Int)
    (l : List Nat) (m : QHash ℚ QColor) (q : ℚ) :
    q ∈ QHash.keys (l.foldl
        (fun zc (i : Nat) => zc.insert ((i : Int) : ℚ) (zoneColor (i : Int) n)) m) ↔
      q ∈ QHash.keys m ∨ ∃ i ∈ l, q = ((i : Int) : ℚ) := by
  induction l generalizing m with
  | nil => simp
  | cons a rest ih =>
    rw [List.foldl_cons, ih, QHash.mem_keys_insert]
    simp only [List.mem_cons, exists_eq_or_imp]
    tauto

/-- The zone table filled from empty has exactly the keys 0, …, n-1. -/
theorem mem_keys_fillZoneColors (zoneColor : Int → Int → QColor) (n : Int) (q : ℚ) :
    q ∈ QHash.keys (fillZoneColors zoneColor n []) ↔
      ∃ i : Int, q = (i : ℚ) ∧ 0 ≤ i ∧ i < n := by
  unfold fillZoneColors
  rw [mem_keys_fillZoneColors_aux]
  simp only [QHash.keys, List.map_nil, List.not_mem_nil, false_or, List.mem_range]
  constructor
  · rintro ⟨i, hi, rfl⟩
    exact ⟨(i : Int), rfl, Int.natCast_nonneg i, by omega⟩
  · rintro ⟨i, rfl, h0, hn⟩
    refine ⟨i.toNat, by omega, ?_⟩
    rw [Int.toNat_of_nonneg h0]

theorem values_toZones (zones : Zones) (zone_range : Int) (color : QHash Key ℚ)
    (h : (QHash.keys color).Nodup) :
    QHash.values (toZones zones zone_range color) =
      (QHash.values color).map (fun c => ((zones.whichZone zone_range c : Int) : ℚ) + 1) := by
  unfold toZones
  rw [QHash.rewriteAll_self _ _ h]
  simp [QHash.values, List.map_map, Function.comp_def]

/-- The colour provider after post-processing in zone mode. -/
theorem postProcess_colorProvider_zone (zoneColor : Int → Int → QColor)
    (settings : ModelSettings) (ride : RideItem) (st : LoopState) (cp : ModelDataColor)
    (hcol : settings.color = MODEL_POWERZONE) (hrange : ride.zoneRange ≥ 0) :
    (postProcess zoneColor settings ride st cp).colorProvider =
      { color := toZones ride.zones ride.zoneRange st.color, num := st.num,
        min := 1, max := ((ride.zones.numZones ride.zoneRange : Int) : ℚ),
        iszones := true,
        zonecolor := fillZoneColors zoneColor (ride.zones.numZones ride.zoneRange) [] } := by
  have h1 : ¬ (MODEL_POWERZONE = MODEL_XYTIME) := by decide
  simp [postProcess, colorStep, hcol, hrange, h1]

theorem growMesh_eq (bin : Int) (maxbin : ℚ) (m : Int) :
    growMesh bin maxbin m =
      if m < 2 then (maxbin + ((2 - m : Int) : ℚ) * bin, 2) else (maxbin, m) := by
  induction maxbin, m using growMesh.induct bin with
  | case1 maxbin m h ih =>
    rw [growMesh, if_pos h, ih]
    by_cases h2 : m + 1 < 2
    · simp only [h2, h, if_true]
      congr 1
      push_cast
      ring
    · have hm : m = 1 := by omega
      subst hm
      simp
  | case2 maxbin m h =>
    rw [growMesh, if_neg h, if_neg h]

/-- The cell count the mesh sizing of one axis ends with is at least 3. -/
theorem meshAxis_ge (bin : Int) (maxbin minbin : ℚ) : 3 ≤ (meshAxis bin maxbin minbin).2.2 := by
  simp only [meshAxis, growMesh_eq]
  split_ifs <;> simp <;> omega

theorem one_le_mul_inv_of_lt_one (a x : ℚ) (ha : 1 ≤ a) (hx : 0 < x) (hx1 : x < 1) :
    1 ≤ a * (1 / x) := by
  have h : 1 ≤ 1 / x := by
    rw [le_div_iff₀ hx]
    linarith
  calc (1 : ℚ) = 1 * 1 := by ring
    _ ≤ a * (1 / x) := mul_le_mul ha h (by norm_num) (by linarith)

theorem fixX_spec (s : ℚ × ℚ × ℚ) (h1 : 0 < s.1) (h2 : 0 < s.2.1) (h3 : 0 < s.2.2) :
    1 ≤ (fixX s).1 ∧ 0 < (fixX s).2.1 ∧ 0 < (fixX s).2.2 := by
  unfold fixX
  split
  · have hf : 0 < 1 / s.1 := one_div_pos.mpr h1
    exact ⟨le_refl _, mul_pos h2 hf, mul_pos h3 hf⟩
  · rename_i h
    exact ⟨not_lt.mp h, h2, h3⟩

theorem fixY_spec (s : ℚ × ℚ × ℚ) (h1 : 1 ≤ s.1) (h2 : 0 < s.2.1) (h3 : 0 < s.2.2) :
    1 ≤ (fixY s).1 ∧ 1 ≤ (fixY s).2.1 ∧ 0 < (fixY s).2.2 := by
  unfold fixY
  split
  · rename_i h
    have hf : 0 < 1 / s.2.1 := one_div_pos.mpr h2
    exact ⟨one_le_mul_inv_of_lt_one _ _ h1 h2 h, le_refl _, mul_pos h3 hf⟩
  · rename_i h
    exact ⟨h1, not_lt.mp h, h3⟩

theorem fixZ_spec (s : ℚ × ℚ × ℚ) (h1 : 1 ≤ s.1) (h2 : 1 ≤ s.2.1) (h3 : 0 < s.2.2) :
    1 ≤ (fixZ s).1 ∧ 1 ≤ (fixZ s).2.1 ∧ 1 ≤ (fixZ s).2.2 := by
  unfold fixZ
  split
  · rename_i h
    exact ⟨one_le_mul_inv_of_lt_one _ _ h1 h3 h, one_le_mul_inv_of_lt_one _ _ h2 h3 h,
      le_refl _⟩
  · rename_i h
    exact ⟨h1, h2, not_lt.mp h⟩

/-- The three fix-ups bring every factor of a positive triple to at least 1. -/
theorem scaleFix_ge_one (s : ℚ × ℚ × ℚ) (h1 : 0 < s.1) (h2 : 0 < s.2.1) (h3 : 0 < s.2.2) :
    1 ≤ (scaleFix s).1 ∧ 1 ≤ (scaleFix s).2.1 ∧ 1 ≤ (scaleFix s).2.2 := by
  obtain ⟨a1, a2, a3⟩ := fixX_spec s h1 h2 h3
  obtain ⟨b1, b2, b3⟩ := fixY_spec (fixX s) a1 a2 a3
  exact fixZ_spec (fixY (fixX s)) b1 b2 b3

/-- Whatever branch is taken, positive ranges give three positive factors. -/
theorem scaleBranch_pos (maxbinx minbinx maxbiny minbiny maxz minz : ℚ)
    (hx : 0 < maxbinx - minbinx) (hy : 0 < maxbiny - minbiny) (hz : 0 < maxz - minz) :
    0 < (scaleBranch maxbinx minbinx maxbiny minbiny maxz minz).1 ∧
    0 < (scaleBranch maxbinx minbinx maxbiny minbiny maxz minz).2.1 ∧
    0 < (scaleBranch maxbinx minbinx maxbiny minbiny maxz minz).2.2 := by
  unfold scaleBranch
  by_cases h1 : (maxbinx - minbinx) ≥ (maxbiny - minbiny) ∧ (maxbinx - minbinx) ≥ (maxz - minz)
  · rw [if_pos h1]
    exact ⟨by norm_num, div_pos hx hy, div_pos hx hz⟩
  · rw [if_neg h1]
    by_cases h2 : (maxbiny - minbiny) ≥ (maxbinx - minbinx)
        ∧ (if maxbiny ≥ minbiny then (1 : ℚ) else 0) ≥ (maxz - minz)
    · rw [if_pos h2]
      exact ⟨div_pos hy hx, by norm_num, div_pos hy hz⟩
    · rw [if_neg h2]
      exact ⟨div_pos hz hx, div_pos hz hy, by norm_num⟩

theorem gradeColors_length (setHsv : Int → Int → Int → QColor) (cp : ModelDataColor)
    (n : Nat) (val : ℚ) (vec : ColorVector) :
    (gradeColors setHsv cp n val vec).length = vec.length + n := by
  induction n generalizing val vec with
  | zero => simp [gradeColors]
  | succ n ih =>
    rw [gradeColors, ih]
    simp
    omega

/-- The loop fills at least one cell as soon as one sample is not skipped. -/
theorem aggregateWith_count_ne_zero (settings : ModelSettings) (ride : RideItem)
    (statics : Statics) (hdata : ∃ p ∈ ride.dataPoints, skipped settings p = false) :
    ¬ (aggregateWith settings ride statics.intervals_ statics.iz statics.inum).mz.count = 0 := by
  intro h0
  obtain ⟨p, hp, hs⟩ := hdata
  have hall := (aggregateFrom_mz_eq_nil_iff settings ride.recIntSecs ride.dataPoints
    (loopInit statics.intervals_ statics.iz statics.inum) rfl).mp (List.length_eq_zero.mp h0)
  rw [hall p hp] at hs
  exact absurd hs (by decide)

/-- On complete settings with a sample that is not skipped the constructor is the
post-processing of the loop result. -/
theorem constructor_eq_postProcess (zoneColor : Int → Int → QColor) (settings : ModelSettings)
    (ride : RideItem) (cp : ModelDataColor) (statics : Statics)
    (hride : settings.ride = some ride) (hx : settings.x ≠ MODEL_NONE)
    (hy : settings.y ≠ MODEL_NONE) (hz : settings.z ≠ MODEL_NONE)
    (hdata : ∃ p ∈ ride.dataPoints, skipped settings p = false) :
    ModelDataProvider.ModelDataProvider zoneColor (some settings) cp statics =
      postProcess zoneColor settings ride
        (aggregateWith settings ride statics.intervals_ statics.iz statics.inum) cp := by
  have hne := aggregateWith_count_ne_zero settings ride statics hdata
  simp only [ModelDataProvider.ModelDataProvider, hride, hx, hy, hz, or_self, if_false, hne]

/-- The scan from an assigned state: the bounds only widen, stay among the values seen, and
bound every value of the list. -/
theorem scan_fold_some (l : QHash Key ℚ) (lo hi : ℚ) :
    ∃ lo2 hi2 : ℚ,
      l.foldl
        (fun acc e =>
          match acc with
          | none => some (e.2, e.2)
          | some (lo, hi) =>
            some (if e.2 < lo then e.2 else lo, if e.2 > hi then e.2 else hi))
        (some (lo, hi)) = some (lo2, hi2) ∧
      (lo2 = lo ∨ lo2 ∈ QHash.values l) ∧ lo2 ≤ lo ∧ (∀ v ∈ QHash.values l, lo2 ≤ v) ∧
      (hi2 = hi ∨ hi2 ∈ QHash.values l) ∧ hi ≤ hi2 ∧ (∀ v ∈ QHash.values l, v ≤ hi2) := by
  induction l generalizing lo hi with
  | nil => exact ⟨lo, hi, rfl, Or.inl rfl, le_refl _, by simp [QHash.values], Or.inl rfl,
      le_refl _, by simp [QHash.values]⟩
  | cons e rest ih =>
    obtain ⟨lo2, hi2, hf, hlo, hlole, hloall, hhi, hhile, hhiall⟩ :=
      ih (if e.2 < lo then e.2 else lo) (if e.2 > hi then e.2 else hi)
    refine ⟨lo2, hi2, hf, ?_, ?_, ?_, ?_, ?_, ?_⟩
    · rcases hlo with h | h
      · by_cases hc : e.2 < lo
        · right; simp [QHash.values, h, hc]
        · left; simp [h, hc]
      · right; simp only [QHash.values, List.map_cons, List.mem_cons]; exact Or.inr h
    · by_cases hc : e.2 < lo
      · simp only [hc, if_true] at hlole; linarith
      · simpa [hc] using hlole
    · intro v hv
      simp only [QHash.values, List.map_cons, List.mem_cons] at hv
      rcases hv with rfl | hv
      · by_cases hc : e.2 < lo
        · simpa [hc] using hlole
        · simp only [hc, if_false] at hlole; linarith [not_lt.mp hc]
      · exact hloall v hv
    · rcases hhi with h | h
      · by_cases hc : e.2 > hi
        · right; simp [QHash.values, h, hc]
        · left; simp [h, hc]
      · right; simp only [QHash.values, List.map_cons, List.mem_cons]; exact Or.inr h
    · by_cases hc : e.2 > hi
      · simp only [hc, if_true] at hhile; linarith
      · simpa [hc] using hhile
    · intro v hv
      simp only [QHash.values, List.map_cons, List.mem_cons] at hv
      rcases hv with rfl | hv
      · by_cases hc : e.2 > hi
        · simpa [hc] using hhile
        · simp only [hc, if_false] at hhile; linarith [not_lt.mp hc]
      · exact hhiall v hv

/-- On a map that is not empty the scan assigns the least and the greatest value. -/
theorem scanMinMax_spec (m : QHash Key ℚ) (hm : m ≠ []) :
    ∃ lo hi : ℚ, scanMinMax m = some (lo, hi) ∧
      lo ∈ QHash.values m ∧ hi ∈ QHash.values m ∧
      ∀ v ∈ QHash.values m, lo ≤ v ∧ v ≤ hi := by
  cases m with
  | nil => exact absurd rfl hm
  | cons e rest =>
    obtain ⟨lo2, hi2, hf, hlo, hlole, hloall, hhi, hhile, hhiall⟩ := scan_fold_some rest e.2 e.2
    refine ⟨lo2, hi2, hf, ?_, ?_, ?_⟩
    · simp only [QHash.values, List.map_cons, List.mem_cons]
      rcases hlo with h | h
      · exact Or.inl h
      · exact Or.inr h
    · simp only [QHash.values, List.map_cons, List.mem_cons]
      rcases hhi with h | h
      · exact Or.inl h
      · exact Or.inr h
    · intro v hv
      simp only [QHash.values, List.map_cons, List.mem_cons] at hv
      rcases hv with rfl | hv
      · exact ⟨hlole, hhile⟩
      · exact ⟨hloall v hv, hhiall v hv⟩

/-- The result of the scan does not depend on the order of the entries. -/
theorem scanMinMax_perm (m m2 : QHash Key ℚ) (hp : m.Perm m2) :
    scanMinMax m = scanMinMax m2 := by
  by_cases hm : m = []
  · subst hm
    rw [List.Perm.nil_eq hp]
  · have hm2 : m2 ≠ [] := fun h => hm (by subst h; exact List.Perm.eq_nil hp)
    obtain ⟨lo, hi, hs, hlo, hhi, hall⟩ := scanMinMax_spec m hm
    obtain ⟨lo2, hi2, hs2, hlo2, hhi2, hall2⟩ := scanMinMax_spec m2 hm2
    have hv : ∀ v, v ∈ QHash.values m ↔ v ∈ QHash.values m2 := fun v =>
      (hp.map Prod.snd).mem_iff
    have e1 : lo = lo2 :=
      le_antisymm (hall lo2 ((hv lo2).mpr hlo2)).1 (hall2 lo ((hv lo).mp hlo)).1
    have e2 : hi = hi2 :=
      le_antisymm (hall2 hi ((hv hi).mp hhi)).2 (hall hi2 ((hv hi2).mpr hhi2)).2
    rw [hs, hs2, e1, e2]

/-- The all-samples maps the loop builds depend only on the all-samples maps it starts
from, not on the statics. -/
theorem aggregateFrom_mz_congr (settings : ModelSettings) (r : ℚ)
    (points : List RideFilePoint) (st st2 : LoopState)
    (h1 : st.mz = st2.mz) (h2 : st.mnum = st2.mnum) :
    (aggregateFrom settings r st points).mz = (aggregateFrom settings r st2 points).mz ∧
    (aggregateFrom settings r st points).mnum = (aggregateFrom settings r st2 points).mnum := by
  induction points generalizing st st2 with
  | nil => exact ⟨h1, h2⟩
  | cons p ps ih =>
    rw [aggregateFrom_cons, aggregateFrom_cons]
    apply ih
    · by_cases hs : skipped settings p = true
      · rw [loopBody_skipped settings r st p hs, loopBody_skipped settings r st2 p hs]
        exact h1
      · have hs2 : skipped settings p = false := by simpa using hs
        rw [loopBody_mz settings r st p hs2, loopBody_mz settings r st2 p hs2, h1, h2]
    · by_cases hs : skipped settings p = true
      · rw [loopBody_skipped settings r st p hs, loopBody_skipped settings r st2 p hs]
        exact h2
      · have hs2 : skipped settings p = false := by simpa using hs
        rw [loopBody_mnum settings r st p hs2, loopBody_mnum settings r st2 p hs2, h1, h2]

theorem aggregateWith_mz_statics (settings : ModelSettings) (ride : RideItem)
    (statics statics2 : Statics) :
    (aggregateWith settings ride statics.intervals_ statics.iz statics.inum).mz =
      (aggregateWith settings ride statics2.intervals_ statics2.iz statics2.inum).mz :=
  (aggregateFrom_mz_congr settings ride.recIntSecs ride.dataPoints
    (loopInit statics.intervals_ statics.iz statics.inum)
    (loopInit statics2.intervals_ statics2.iz statics2.inum) rfl rfl).1

theorem timePercent_ne_nil (duration : ℚ) (m : QHash Key ℚ) (hm : m ≠ [])
    (hnd : (QHash.keys m).Nodup) : timePercent duration m ≠ [] := by
  unfold timePercent
  split
  · rw [QHash.rewriteAll_self _ _ hnd]
    simpa using hm
  · exact hm

theorem postProcess_provider (zoneColor : Int → Int → QColor) (settings : ModelSettings)
    (ride : RideItem) (st : LoopState) (cp : ModelDataColor) :
    (postProcess zoneColor settings ride st cp).provider.mz = finalMz settings ride st.mz ∧
    (postProcess zoneColor settings ride st cp).provider.minz
      = some ((scanMinMax (finalMz settings ride st.mz)).getD (0, 0)).1 ∧
    (postProcess zoneColor settings ride st cp).provider.maxz
      = some ((scanMinMax (finalMz settings ride st.mz)).getD (0, 0)).2 ∧
    Call.setMinZ ((scanMinMax (finalMz settings ride st.mz)).getD (0, 0)).1
      ∈ (postProcess zoneColor settings ride st cp).calls ∧
    Call.setMaxZ ((scanMinMax (finalMz settings ride st.mz)).getD (0, 0)).2
      ∈ (postProcess zoneColor settings ride st cp).calls := by
  refine ⟨rfl, rfl, rfl, ?_, ?_⟩ <;> simp [postProcess, finalMz]

/-- The shape all intermediate scale triples have: a common positive numerator over the
three ranges, one of the factors being 1. -/
theorem scaleBranch_shape (maxbinx minbinx maxbiny minbiny maxz minz : ℚ)
    (hx : 0 < maxbinx - minbinx) (hy : 0 < maxbiny - minbiny) (hz : 0 < maxz - minz) :
    (∃ c : ℚ, 0 < c ∧ scaleBranch maxbinx minbinx maxbiny minbiny maxz minz
        = (c / (maxbinx - minbinx), c / (maxbiny - minbiny), c / (maxz - minz))) ∧
    ((scaleBranch maxbinx minbinx maxbiny minbiny maxz minz).1 = 1 ∨
      (scaleBranch maxbinx minbinx maxbiny minbiny maxz minz).2.1 = 1 ∨
      (scaleBranch maxbinx minbinx maxbiny minbiny maxz minz).2.2 = 1) := by
  unfold scaleBranch
  by_cases h1 : (maxbinx - minbinx) ≥ (maxbiny - minbiny) ∧ (maxbinx - minbinx) ≥ (maxz - minz)
  · rw [if_pos h1]
    exact ⟨⟨maxbinx - minbinx, hx, by rw [div_self (ne_of_gt hx)]⟩, Or.inl rfl⟩
  · rw [if_neg h1]
    by_cases h2 : (maxbiny - minbiny) ≥ (maxbinx - minbinx)
        ∧ (if maxbiny ≥ minbiny then (1 : ℚ) else 0) ≥ (maxz - minz)
    · rw [if_pos h2]
      exact ⟨⟨maxbiny - minbiny, hy, by rw [div_self (ne_of_gt hy)]⟩, Or.inr (Or.inl rfl)⟩
    · rw [if_neg h2]
      exact ⟨⟨maxz - minz, hz, by rw [div_self (ne_of_gt hz)]⟩, Or.inr (Or.inr rfl)⟩

theorem fixX_shape (rx ry rz : ℚ) (hx : 0 < rx) (hy : 0 < ry) (hz : 0 < rz) (s : ℚ × ℚ × ℚ)
    (hs : ∃ c : ℚ, 0 < c ∧ s = (c / rx, c / ry, c / rz))
    (h1 : s.1 = 1 ∨ s.2.1 = 1 ∨ s.2.2 = 1) :
    (∃ c : ℚ, 0 < c ∧ fixX s = (c / rx, c / ry, c / rz)) ∧
    ((fixX s).1 = 1 ∨ (fixX s).2.1 = 1 ∨ (fixX s).2.2 = 1) := by
  obtain ⟨c, hc, rfl⟩ := hs
  unfold fixX
  by_cases h : c / rx < 1
  · rw [if_pos h]
    refine ⟨⟨rx, hx, ?_⟩, Or.inl rfl⟩
    have hc0 : c ≠ 0 := ne_of_gt hc
    have hx0 : rx ≠ 0 := ne_of_gt hx
    have hy0 : ry ≠ 0 := ne_of_gt hy
    have hz0 : rz ≠ 0 := ne_of_gt hz
    refine Prod.ext ?_ (Prod.ext ?_ ?_)
    · simp [div_self hx0]
    · simp only; field_simp; ring
    · simp only; field_simp; ring
  · rw [if_neg h]
    exact ⟨⟨c, hc, rfl⟩, h1⟩

theorem fixY_shape (rx ry rz : ℚ) (hx : 0 < rx) (hy : 0 < ry) (hz : 0 < rz) (s : ℚ × ℚ × ℚ)
    (hs : ∃ c : ℚ, 0 < c ∧ s = (c / rx, c / ry, c / rz))
    (h1 : s.1 = 1 ∨ s.2.1 = 1 ∨ s.2.2 = 1) :
    (∃ c : ℚ, 0 < c ∧ fixY s = (c / rx, c / ry, c / rz)) ∧
    ((fixY s).1 = 1 ∨ (fixY s).2.1 = 1 ∨ (fixY s).2.2 = 1) := by
  obtain ⟨c, hc, rfl⟩ := hs
  unfold fixY
  by_cases h : c / ry < 1
  · rw [if_pos h]
    refine ⟨⟨ry, hy, ?_⟩, Or.inr (Or.inl rfl)⟩
    have hc0 : c ≠ 0 := ne_of_gt hc
    have hx0 : rx ≠ 0 := ne_of_gt hx
    have hy0 : ry ≠ 0 := ne_of_gt hy
    have hz0 : rz ≠ 0 := ne_of_gt hz
    refine Prod.ext ?_ (Prod.ext ?_ ?_)
    · simp only; field_simp; ring
    · simp [div_self hy0]
    · simp only; field_simp; ring
  · rw [if_neg h]
    exact ⟨⟨c, hc, rfl⟩, h1⟩

theorem fixZ_shape (rx ry rz : ℚ) (hx : 0 < rx) (hy : 0 < ry) (hz : 0 < rz) (s : ℚ × ℚ × ℚ)
    (hs : ∃ c : ℚ, 0 < c ∧ s = (c / rx, c / ry, c / rz))
    (h1 : s.1 = 1 ∨ s.2.1 = 1 ∨ s.2.2 = 1) :
    (∃ c : ℚ, 0 < c ∧ fixZ s = (c / rx, c / ry, c / rz)) ∧
    ((fixZ s).1 = 1 ∨ (fixZ s).2.1 = 1 ∨ (fixZ s).2.2 = 1) := by
  obtain ⟨c, hc, rfl⟩ := hs
  unfold fixZ
  by_cases h : c / rz < 1
  · rw [if_pos h]
    refine ⟨⟨rz, hz, ?_⟩, Or.inr (Or.inr rfl)⟩
    have hc0 : c ≠ 0 := ne_of_gt hc
    have hx0 : rx ≠ 0 := ne_of_gt hx
    have hy0 : ry ≠ 0 := ne_of_gt hy
    have hz0 : rz ≠ 0 := ne_of_gt hz
    refine Prod.ext ?_ (Prod.ext ?_ ?_)
    · simp only; field_simp; ring
    · simp only; field_simp; ring
    · simp [div_self hz0]
  · rw [if_neg h]
    exact ⟨⟨c, hc, rfl⟩, h1⟩

theorem aggregateFrom_time_iz (settings : ModelSettings) (r : ℚ)
    (hz : settings.z = MODEL_XYTIME) (points : List RideFilePoint) (st : LoopState) (k : Key) :
    (aggregateFrom settings r st points).iz.value k 0
      = st.iz.value k 0 +
        (((contributing settings points k).filter (inSomeInterval settings)).length : ℚ) * r := by
  induction points generalizing st with
  | nil => simp [aggregateFrom_nil, contributing]
  | cons p ps ih =>
    rw [aggregateFrom_cons, contributing_cons]
    by_cases hs : skipped settings p = true
    · rw [loopBody_skipped settings r st p hs]
      simpa [hs] using ih st
    · have hs2 : skipped settings p = false := by simpa using hs
      have h := ih (loopBody settings r st p)
      rw [loopBody_iz settings r st p hs2] at h
      by_cases hk : cellOf settings p = k
      · subst hk
        by_cases hm : inSomeInterval settings p = true
        · simp only [hm, if_true, QHash.value_insert, accumulate, zedOf, hz,
            beq_self_eq_true] at h
          simp only [hs2, true_and, if_true, List.filter_cons, hm, List.length_cons]
          rw [h]; push_cast; ring
        · simp only [hm, if_false] at h
          simp only [hs2, true_and, if_true, List.filter_cons, hm]
          simpa using h
      · simp only [hs2, hk, and_false, if_false]
        by_cases hm : inSomeInterval settings p = true
        · simp only [hm, if_true, QHash.value_insert, hk, if_false] at h
          exact h
        · simp only [hm, if_false] at h
          exact h

theorem round_sub_abs_le (d : ℚ) : |((round d : Int) : ℚ) - d| ≤ 1 / 2 := by
  unfold round toInt
  by_cases h : d > 0
  · have h2 : (0 : ℚ) ≤ d + 1 / 2 := by linarith
    simp only [h, if_true, h2]
    have a := Int.floor_le (d + 1 / 2)
    have b := Int.lt_floor_add_one (d + 1 / 2)
    rw [abs_le]
    constructor <;> linarith
  · have h2 : ¬ (0 : ℚ) ≤ d - 1 / 2 := by linarith
    simp only [h, if_false, h2]
    have a := Int.le_ceil (d - 1 / 2)
    have b := Int.ceil_lt_add_one (d - 1 / 2)
    rw [abs_le]
    constructor <;> linarith

theorem bin_sub_abs_le (w : Int) (v : ℚ) (hw : 0 < w) :
    |((w * round (v / w) : Int) : ℚ) - v| ≤ (w : ℚ) / 2 := by
  have hwq : (0 : ℚ) < (w : ℚ) := by exact_mod_cast hw
  have h := round_sub_abs_le (v / w)
  have e : ((w * round (v / w) : Int) : ℚ) - v = (w : ℚ) * (((round (v / w) : Int) : ℚ) - v / w) := by
    push_cast
    field_simp
    ring
  rw [e, abs_mul, abs_of_pos hwq]
  calc (w : ℚ) * |((round (v / w) : Int) : ℚ) - v / w| ≤ (w : ℚ) * (1 / 2) :=
        mul_le_mul_of_nonneg_left h (le_of_lt hwq)
    _ = (w : ℚ) / 2 := by ring

theorem lastValue_nil (f : RideFilePoint → ℚ) (d : ℚ) : lastValue f [] d = d := rfl

theorem lastValue_cons (f : RideFilePoint → ℚ) (p : RideFilePoint) (l : List RideFilePoint)
    (d : ℚ) : lastValue f (p :: l) d = lastValue f l (f p) := by
  induction l generalizing p with
  | nil => simp [lastValue]
  | cons q rest ih =>
    have h1 := ih q
    simp only [lastValue, List.getLast?_cons_cons] at h1 ⊢
    cases hq : (q :: rest).getLast? with
    | none => simp at hq
    | some x => simp

theorem QHash.value_eq_default_of_values {K V : Type} [DecidableEq K]
    (m : QHash K V) (k : K) (d : V)
    (h : ∀ v ∈ values m, v = d) : value m k d = d := by
  induction m with
  | nil => rfl
  | cons e rest ih =>
    obtain ⟨a, b⟩ := e
    simp only [values, List.map_cons, List.mem_cons, forall_eq_or_imp] at h
    simp only [value]
    split
    · exact h.1
    · exact ih h.2

theorem QHash.values_insert_of_values {K V : Type} [DecidableEq K]
    (m : QHash K V) (k : K) (d : V)
    (h : ∀ v ∈ values m, v = d) : ∀ v ∈ values (insert m k d), v = d := by
  induction m with
  | nil => simp [insert, values]
  | cons e rest ih =>
    obtain ⟨a, b⟩ := e
    simp only [values, List.map_cons, List.mem_cons, forall_eq_or_imp] at h
    by_cases hk : a = k
    · simp only [insert, hk, if_true, values, List.map_cons, List.mem_cons, forall_eq_or_imp]
      exact ⟨trivial, h.2⟩
    · simp only [insert, hk, if_false, values, List.map_cons, List.mem_cons, forall_eq_or_imp]
      exact ⟨h.1, ih h.2⟩

theorem accumulate_zero (cur v : ℚ) : accumulate false 0 cur v = (0, v) := by
  simp [accumulate]

/-- With a z channel other than time-at-cell the loop keeps every stored count at 0 and
stores for a cell the z value of the most recent sample it took for that cell. -/
theorem aggregateFrom_raw_mz (settings : ModelSettings) (r : ℚ)
    (hz : settings.z ≠ MODEL_XYTIME) (points : List RideFilePoint) (st : LoopState)
    (h0 : ∀ v ∈ QHash.values st.mnum, v = 0) :
    (∀ v ∈ QHash.values (aggregateFrom settings r st points).mnum, v = 0) ∧
    ∀ k : Key, (aggregateFrom settings r st points).mz.value k 0 =
      lastValue (fun p => pointType p settings.z) (contributing settings points k)
        (st.mz.value k 0) := by
  have hb : (settings.z == MODEL_XYTIME) = false := by simpa using hz
  induction points generalizing st with
  | nil => exact ⟨h0, fun k => by simp [aggregateFrom_nil, contributing, lastValue_nil]⟩
  | cons p ps ih =>
    rw [aggregateFrom_cons]
    by_cases hs : skipped settings p = true
    · rw [loopBody_skipped settings r st p hs]
      refine ⟨(ih st h0).1, fun k => ?_⟩
      rw [(ih st h0).2 k, contributing_cons]
      simp [hs]
    · have hs2 : skipped settings p = false := by simpa using hs
      have hcount : st.mnum.value (cellOf settings p) 0 = 0 :=
        QHash.value_eq_default_of_values _ _ _ h0
      have hnum : (loopBody settings r st p).mnum = st.mnum.insert (cellOf settings p) 0 := by
        rw [loopBody_mnum settings r st p hs2, hb, hcount, accumulate_zero]
      have hmz : (loopBody settings r st p).mz
          = st.mz.insert (cellOf settings p) (pointType p settings.z) := by
        rw [loopBody_mz settings r st p hs2, hb, hcount, accumulate_zero]
        simp [zedOf, hz]
      have h1 : ∀ v ∈ QHash.values (loopBody settings r st p).mnum, v = 0 := by
        rw [hnum]
        exact QHash.values_insert_of_values _ _ _ h0
      refine ⟨(ih _ h1).1, fun k => ?_⟩
      rw [(ih _ h1).2 k, hmz, QHash.value_insert, contributing_cons]
      by_cases hk : cellOf settings p = k
      · simp [hs2, hk, lastValue_cons]
      · simp [hs2, hk]

theorem aggregateFrom_raw_iz (settings : ModelSettings) (r : ℚ)
    (hz : settings.z ≠ MODEL_XYTIME) (points : List RideFilePoint) (st : LoopState)
    (h0 : ∀ v ∈ QHash.values st.inum, v = 0) :
    (∀ v ∈ QHash.values (aggregateFrom settings r st points).inum, v = 0) ∧
    ∀ k : Key, (aggregateFrom settings r st points).iz.value k 0 =
      lastValue (fun p => pointType p settings.z)
        ((contributing settings points k).filter (inSomeInterval settings))
        (st.iz.value k 0) := by
  have hb : (settings.z == MODEL_XYTIME) = false := by simpa using hz
  induction points generalizing st with
  | nil => exact ⟨h0, fun k => by simp [aggregateFrom_nil, contributing, lastValue_nil]⟩
  | cons p ps ih =>
    rw [aggregateFrom_cons]
    by_cases hs : skipped settings p = true
    · rw [loopBody_skipped settings r st p hs]
      refine ⟨(ih st h0).1, fun k => ?_⟩
      rw [(ih st h0).2 k, contributing_cons]
      simp [hs]
    · have hs2 : skipped settings p = false := by simpa using hs
      have hcount : toInt (st.inum.value (cellOf settings p) 0) = 0 := by
        rw [QHash.value_eq_default_of_values _ _ _ h0]
        exact toInt_intCast 0
      by_cases hm : inSomeInterval settings p = true
      · have hnum : (loopBody settings r st p).inum = st.inum.insert (cellOf settings p) 0 := by
          rw [loopBody_inum settings r st p hs2, hb, hcount, accumulate_zero]
          simp [hm]
        have hiz : (loopBody settings r st p).iz
            = st.iz.insert (cellOf settings p) (pointType p settings.z) := by
          rw [loopBody_iz settings r st p hs2, hb, hcount, accumulate_zero]
          simp [zedOf, hz, hm]
        have h1 : ∀ v ∈ QHash.values (loopBody settings r st p).inum, v = 0 := by
          rw [hnum]
          exact QHash.values_insert_of_values _ _ _ h0
        refine ⟨(ih _ h1).1, fun k => ?_⟩
        rw [(ih _ h1).2 k, hiz, QHash.value_insert, contributing_cons]
        by_cases hk : cellOf settings p = k
        · subst hk
          simp [hs2, hm, List.filter_cons, lastValue_cons]
        · simp [hs2, hk]
      · have hnum : (loopBody settings r st p).inum = st.inum := by
          rw [loopBody_inum settings r st p hs2]
          simp [hm]
        have hiz : (loopBody settings r st p).iz = st.iz := by
          rw [loopBody_iz settings r st p hs2]
          simp [hm]
        have h1 : ∀ v ∈ QHash.values (loopBody settings r st p).inum, v = 0 := by
          rw [hnum]; exact h0
        refine ⟨(ih _ h1).1, fun k => ?_⟩
        rw [(ih _ h1).2 k, hiz, contributing_cons]
        by_cases hk : cellOf settings p = k
        · subst hk
          simp [hs2, hm, List.filter_cons]
        · simp [hs2, hk]

theorem aggregateFrom_raw_color (settings : ModelSettings) (r : ℚ)
    (hc : settings.color ≠ MODEL_XYTIME) (points : List RideFilePoint) (st : LoopState)
    (h0 : ∀ v ∈ QHash.values st.num, v = 0) :
    (∀ v ∈ QHash.values (aggregateFrom settings r st points).num, v = 0) ∧
    ∀ k : Key, (aggregateFrom settings r st points).color.value k 0 =
      lastValue (fun p => pointType p settings.color)
        ((contributing settings points k).filter (feedsColor settings))
        (st.color.value k 0) := by
  have hb : (settings.color == MODEL_XYTIME) = false := by simpa using hc
  induction points generalizing st with
  | nil => exact ⟨h0, fun k => by simp [aggregateFrom_nil, contributing, lastValue_nil]⟩
  | cons p ps ih =>
    rw [aggregateFrom_cons]
    by_cases hs : skipped settings p = true
    · rw [loopBody_skipped settings r st p hs]
      refine ⟨(ih st h0).1, fun k => ?_⟩
      rw [(ih st h0).2 k, contributing_cons]
      simp [hs]
    · have hs2 : skipped settings p = false := by simpa using hs
      have hcount : st.num.value (cellOf settings p) 0 = 0 :=
        QHash.value_eq_default_of_values _ _ _ h0
      by_cases hm : settings.intervals = [] ∨ inSomeInterval settings p = true
      · have hf : feedsColor settings p = true := by
          simpa [feedsColor] using hm
        have hnum : (loopBody settings r st p).num = st.num.insert (cellOf settings p) 0 := by
          rw [loopBody_num settings r st p hs2, hb, hcount, accumulate_zero]
          simp [hm]
        have hcol : (loopBody settings r st p).color
            = st.color.insert (cellOf settings p) (pointType p settings.color) := by
          rw [loopBody_color settings r st p hs2, hb, hcount, accumulate_zero]
          simp [colorOf, hc, hm]
        have h1 : ∀ v ∈ QHash.values (loopBody settings r st p).num, v = 0 := by
          rw [hnum]
          exact QHash.values_insert_of_values _ _ _ h0
        refine ⟨(ih _ h1).1, fun k => ?_⟩
        rw [(ih _ h1).2 k, hcol, QHash.value_insert, contributing_cons]
        by_cases hk : cellOf settings p = k
        · subst hk
          simp [hs2, hf, List.filter_cons, lastValue_cons]
        · simp [hs2, hk]
      · have hf : feedsColor settings p = false := by
          simpa [feedsColor] using hm
        have hnum : (loopBody settings r st p).num = st.num := by
          rw [loopBody_num settings r st p hs2]
          simp [hm]
        have hcol : (loopBody settings r st p).color = st.color := by
          rw [loopBody_color settings r st p hs2]
          simp [hm]
        have h1 : ∀ v ∈ QHash.values (loopBody settings r st p).num, v = 0 := by
          rw [hnum]; exact h0
        refine ⟨(ih _ h1).1, fun k => ?_⟩
        rw [(ih _ h1).2 k, hcol, contributing_cons]
        by_cases hk : cellOf settings p = k
        · subst hk
          simp [hs2, hf, List.filter_cons]
        · simp [hs2, hk]

theorem aggregateFrom_iz_nodup (settings : ModelSettings) (r : ℚ)
    (points : List RideFilePoint) (st : LoopState) (h : (QHash.keys st.iz).Nodup) :
    (QHash.keys (aggregateFrom settings r st points).iz).Nodup := by
  induction points generalizing st with
  | nil => simpa [aggregateFrom_nil] using h
  | cons p ps ih =>
    rw [aggregateFrom_cons]
    apply ih
    by_cases hs : skipped settings p = true
    · rw [loopBody_skipped settings r st p hs]
      exact h
    · have hs2 : skipped settings p = false := by simpa using hs
      rw [loopBody_iz settings r st p hs2]
      split
      · exact QHash.nodup_keys_insert _ _ _ h
      · exact h

/-- With z = time-at-cell and a recording interval that is not negative, the interval
height the loop stores for a cell is at most the all-samples height, when it starts from
empty maps. -/
theorem aggregateWith_iz_le_mz (settings : ModelSettings) (ride : RideItem) (n : Nat)
    (hz : settings.z = MODEL_XYTIME) (hr : 0 ≤ ride.recIntSecs) (k : Key) :
    (aggregateWith settings ride n [] []).iz.value k 0
      ≤ (aggregateWith settings ride n [] []).mz.value k 0 := by
  have h1 := aggregateFrom_time_iz settings ride.recIntSecs hz ride.dataPoints
    (loopInit n [] []) k
  have h2 := (aggregateFrom_time settings ride.recIntSecs hz ride.dataPoints
    (loopInit n [] []) k).1
  unfold aggregateWith
  rw [h1, h2]
  simp only [loopInit, QHash.value, zero_add]
  apply mul_le_mul_of_nonneg_right _ hr
  exact_mod_cast List.length_filter_le _ _

theorem loopBody_validFlags (settings : ModelSettings) (r : ℚ) (st : LoopState)
    (p : RideFilePoint) (h : validFlags st.intervals_) :
    validFlags (loopBody settings r st p).intervals_ := by
  by_cases hs : skipped settings p = true
  · rw [loopBody_skipped settings r st p hs]
    exact h
  · have hs2 : skipped settings p = false := by simpa using hs
    rw [loopBody_eq settings r st p hs2]
    simp only []
    by_cases hi : settings.intervals = []
    · simp only [hi, if_true]
      exact Or.inl rfl
    · simp only [hi, if_false]
      by_cases hm : inSomeInterval settings p = true
      · simp only [hm, if_true, intervalUpdate]
        by_cases hf : settings.frame = true
        · simp only [hf, if_true]; exact Or.inr (Or.inr rfl)
        · simp only [hf]; exact Or.inr (Or.inl rfl)
      · simp only [hm]
        by_cases hf : settings.frame = true
        · simp only [hf, if_true]; exact Or.inr (Or.inr rfl)
        · simp only [hf]; exact Or.inr (Or.inl rfl)

theorem aggregateFrom_validFlags (settings : ModelSettings) (r : ℚ)
    (points : List RideFilePoint) (st : LoopState) (h : validFlags st.intervals_) :
    validFlags (aggregateFrom settings r st points).intervals_ := by
  induction points generalizing st with
  | nil => exact h
  | cons p ps ih =>
    rw [aggregateFrom_cons]
    exact ih _ (loopBody_validFlags settings r st p h)

theorem constructor_validFlags (zoneColor : Int → Int → QColor)
    (settings : Option ModelSettings) (cp : ModelDataColor) (statics : Statics)
    (h : validFlags statics.intervals_) :
    validFlags (ModelDataProvider.ModelDataProvider zoneColor settings cp statics).statics.intervals_ := by
  unfold ModelDataProvider.ModelDataProvider
  cases settings with
  | none => exact h
  | some s =>
    simp only []
    cases hr : s.ride with
    | none => exact h
    | some ride =>
      simp only []
      have hagg : validFlags
          (aggregateWith s ride statics.intervals_ statics.iz statics.inum).intervals_ :=
        aggregateFrom_validFlags s ride.recIntSecs ride.dataPoints _ h
      split
      · exact h
      · split
        · exact hagg
        · exact hagg

theorem setFrame_validFlags (frame : Bool) (statics : Statics)
    (h : validFlags statics.intervals_) :
    validFlags (BasicModelPlot.setFrame frame statics).intervals_ := by
  unfold BasicModelPlot.setFrame
  rcases h with h | h | h <;> cases frame <;>
    first
      | (simp [h, validFlags, SHOW_INTERVALS, SHOW_FRAME]; done)
      | (simp [h, validFlags, SHOW_INTERVALS, SHOW_FRAME]; decide)

theorem setFrame_false_bits (statics : Statics) :
    (BasicModelPlot.setFrame false statics).intervals_ &&& SHOW_FRAME = 0 ∧
    (BasicModelPlot.setFrame false statics).intervals_ &&& SHOW_INTERVALS
      = statics.intervals_ &&& SHOW_INTERVALS := by
  have e : (BasicModelPlot.setFrame false statics).intervals_
      = statics.intervals_ &&& (4294967295 - SHOW_FRAME) := by
    simp [BasicModelPlot.setFrame]
  rw [e, Nat.and_assoc, Nat.and_assoc]
  constructor
  · have : (4294967295 - SHOW_FRAME) &&& SHOW_FRAME = 0 := by decide
    rw [this]; simp
  · have : (4294967295 - SHOW_FRAME) &&& SHOW_INTERVALS = SHOW_INTERVALS := by decide
    rw [this]

theorem apply_validFlags (zoneColor : Int → Int → QColor) (s : PlotState) (c : PlotCall)
    (h : validFlags s.statics.intervals_) :
    validFlags (PlotCall.apply zoneColor s c).statics.intervals_ := by
  cases c with
  | construct settings => exact constructor_validFlags zoneColor settings _ _ h
  | setData settings => exact constructor_validFlags zoneColor (some settings) _ _ h
  | setFrame frame => exact setFrame_validFlags frame _ h

theorem runCalls_validFlags (zoneColor : Int → Int → QColor) (calls : List PlotCall)
    (s : PlotState) (h : validFlags s.statics.intervals_) :
    validFlags (runCalls zoneColor s calls).statics.intervals_ := by
  induction calls generalizing s with
  | nil => exact h
  | cons c cs ih => exact ih _ (apply_validFlags zoneColor s c h)

/-! ## C1: the stored height of a non-time channel -/

/-- C1 (evaluation at the failing input): on a ride whose two samples fall in the cell
(100,80) with heart rates 100 and 200, the aggregation loop leaves the count of the cell at
0 and the height 200, the value of the last sample, while the arithmetic mean of the two
contributing values is 150. -/
theorem C1_stored_height_is_last_sample_not_mean :
    (aggregate hrSettings hrRide).mz = [((100, 80), 200)] ∧
    (aggregate hrSettings hrRide).mnum = [((100, 80), 0)] ∧
    mean ((contributing hrSettings hrRide.dataPoints (100, 80)).map
      (fun p => pointType p hrSettings.z)) = 150 := by
  decide!

/-! ## C2: time at cell -/

/-- C2: with z = time-at-cell and complete settings, after the aggregation loop the height
of every cell is n × recIntSecs and its count is n, where n is the number of non-skipped
samples binned to the cell; and when the duration is not zero, the height the constructor
leaves in `mz` is (n × recIntSecs / duration) × 100. -/
theorem C2_time_at_cell_height (zoneColor : Int → Int → QColor) (settings : ModelSettings)
    (ride : RideItem) (cp : ModelDataColor) (statics : Statics) (k : Key)
    (hride : settings.ride = some ride) (hx : settings.x ≠ MODEL_NONE)
    (hy : settings.y ≠ MODEL_NONE) (hz : settings.z = MODEL_XYTIME) :
    (aggregateWith settings ride statics.intervals_ statics.iz statics.inum).mz.value k 0
        = ((contributing settings ride.dataPoints k).length : ℚ) * ride.recIntSecs ∧
    (aggregateWith settings ride statics.intervals_ statics.iz statics.inum).mnum.value k 0
        = ((contributing settings ride.dataPoints k).length : Int) ∧
    (rideDuration ride ≠ 0 →
      (ModelDataProvider.ModelDataProvider zoneColor (some settings) cp statics).provider.mz.value
          k 0
        = (((contributing settings ride.dataPoints k).length : ℚ) * ride.recIntSecs
            / rideDuration ride) * 100) := by
  have hagg := aggregateFrom_time settings ride.recIntSecs hz ride.dataPoints
    (loopInit statics.intervals_ statics.iz statics.inum) k
  have h1 : (aggregateWith settings ride statics.intervals_ statics.iz statics.inum).mz.value k 0
      = ((contributing settings ride.dataPoints k).length : ℚ) * ride.recIntSecs := by
    simpa [aggregateWith, loopInit, QHash.value] using hagg.1
  have h2 : (aggregateWith settings ride statics.intervals_ statics.iz statics.inum).mnum.value
      k 0 = ((contributing settings ride.dataPoints k).length : Int) := by
    simpa [aggregateWith, loopInit, QHash.value] using hagg.2
  refine ⟨h1, h2, ?_⟩
  intro hd
  have hnd : (QHash.keys
      (aggregateWith settings ride statics.intervals_ statics.iz statics.inum).mz).Nodup :=
    aggregateFrom_mz_nodup settings ride.recIntSecs ride.dataPoints _ (by simp [loopInit, QHash.keys])
  have hz2 : ¬ settings.z = MODEL_NONE := by rw [hz]; decide
  simp only [ModelDataProvider.ModelDataProvider, hride, hx, hy, hz2, or_self, if_false]
  split
  · rename_i hc
    have hnil : (aggregateWith settings ride statics.intervals_ statics.iz statics.inum).mz = [] :=
      List.length_eq_zero.mp hc
    rw [hnil] at h1
    simp only [QHash.value] at h1
    simp [emptyDataset, QHash.value, ← h1]
  · simp only [postProcess, hz, if_true]
    rw [timePercent_value _ _ _ hnd hd, h1]

/-- C2 (witness): the three-sample ride with z = time-at-cell. -/
theorem C2_time_at_cell_height_witness :
    (timeSettings.ride = some timeRide ∧ timeSettings.x ≠ MODEL_NONE ∧
      timeSettings.y ≠ MODEL_NONE ∧ timeSettings.z = MODEL_XYTIME) ∧
    ((aggregateWith timeSettings timeRide initialStatics.intervals_ initialStatics.iz
        initialStatics.inum).mz.value (100, 80) 0
        = ((contributing timeSettings timeRide.dataPoints (100, 80)).length : ℚ)
            * timeRide.recIntSecs ∧
    (aggregateWith timeSettings timeRide initialStatics.intervals_ initialStatics.iz
        initialStatics.inum).mnum.value (100, 80) 0
        = ((contributing timeSettings timeRide.dataPoints (100, 80)).length : Int) ∧
    (rideDuration timeRide ≠ 0 →
      (ModelDataProvider.ModelDataProvider greyZones (some timeSettings) emptyColor
          initialStatics).provider.mz.value (100, 80) 0
        = (((contributing timeSettings timeRide.dataPoints (100, 80)).length : ℚ)
            * timeRide.recIntSecs / rideDuration timeRide) * 100)) :=
  ⟨⟨rfl, by decide, by decide, rfl⟩,
    C2_time_at_cell_height greyZones timeSettings timeRide emptyColor initialStatics (100, 80)
      rfl (by decide) (by decide) rfl⟩

/-! ## C3: the three-sample scenario -/

/-- C3 (counterexample): in the scenario of the three samples with powers 100, 120, 140 and
cadences 80, 82, 81 it is not the case that every sample is binned to the cell (100,80) and
that this cell ends with the height 100. -/
theorem C3_not_single_cell_at_full_height :
    ¬ ((∀ p ∈ timeRide.dataPoints, cellOf timeSettings p = (100, 80)) ∧
      (ModelDataProvider.ModelDataProvider greyZones (some timeSettings) emptyColor
        initialStatics).provider.mz.value (100, 80) 0 = 100) := by
  decide!

/-- C3 (amended): in that scenario the samples with powers 100 and 120 are binned to the
cell (100,80) and the sample with power 140 to the cell (150,80); the duration is 3, and
after time normalisation the heights of the two cells are 200/3 and 100/3 percent. -/
theorem C3_scenario_cells_and_heights :
    timeRide.dataPoints.map (cellOf timeSettings) = [(100, 80), (100, 80), (150, 80)] ∧
    rideDuration timeRide = 3 ∧
    (ModelDataProvider.ModelDataProvider greyZones (some timeSettings) emptyColor
      initialStatics).provider.mz = [((100, 80), 200 / 3), ((150, 80), 100 / 3)] := by
  decide!

/-! ## C4: the ignore-zero filter -/

/-- C4: with the ignore flag set, a sample whose binned x or binned y is 0 leaves the whole
loop state as it was (heights, colours, interval aggregates, counts and bounds); hence,
the statics `iz` and `inum` being empty at the start, after the loop no key of `mz`, `mnum`,
`color`, `num`, `iz` or `inum` has a coordinate equal to 0. -/
theorem C4_ignore_zero_bins (settings : ModelSettings) (ride : RideItem) (n : Nat)
    (hign : settings.ignore = true) :
    (∀ (r : ℚ) (st : LoopState) (point : RideFilePoint),
      (binx settings point = 0 ∨ biny settings point = 0) →
        loopBody settings r st point = st) ∧
    (∀ k : Key,
      (k ∈ QHash.keys (aggregateWith settings ride n [] []).mz ∨
        k ∈ QHash.keys (aggregateWith settings ride n [] []).mnum ∨
        k ∈ QHash.keys (aggregateWith settings ride n [] []).color ∨
        k ∈ QHash.keys (aggregateWith settings ride n [] []).num ∨
        k ∈ QHash.keys (aggregateWith settings ride n [] []).iz ∨
        k ∈ QHash.keys (aggregateWith settings ride n [] []).inum) →
      k.1 ≠ 0 ∧ k.2 ≠ 0) := by
  constructor
  · intro r st point h
    exact loopBody_skipped settings r st point ((skipped_iff settings point).mpr ⟨hign, h⟩)
  · intro k hk
    have fromCell : ∀ p : RideFilePoint, skipped settings p = false → cellOf settings p = k →
        k.1 ≠ 0 ∧ k.2 ≠ 0 := by
      intro p hs hc
      rw [← hc]
      exact cellOf_ne_zero settings p hign hs
    unfold aggregateWith at hk
    rcases hk with h | h | h | h | h | h
    · rcases (mem_keys_aggregateFrom settings ride.recIntSecs (fun s => QHash.keys s.mz) _
        (mem_keys_loopBody_mz settings ride.recIntSecs) ride.dataPoints _ k).mp h with
        h0 | ⟨p, _, hs, hc⟩
      · simp [loopInit, QHash.keys] at h0
      · exact fromCell p hs hc
    · rcases (mem_keys_aggregateFrom settings ride.recIntSecs (fun s => QHash.keys s.mnum) _
        (mem_keys_loopBody_mnum settings ride.recIntSecs) ride.dataPoints _ k).mp h with
        h0 | ⟨p, _, hs, hc⟩
      · simp [loopInit, QHash.keys] at h0
      · exact fromCell p hs hc
    · rcases (mem_keys_aggregateFrom settings ride.recIntSecs (fun s => QHash.keys s.color) _
        (mem_keys_loopBody_color settings ride.recIntSecs) ride.dataPoints _ k).mp h with
        h0 | ⟨p, _, hs, hc⟩
      · simp [loopInit, QHash.keys] at h0
      · exact fromCell p hs.1 hc
    · rcases (mem_keys_aggregateFrom settings ride.recIntSecs (fun s => QHash.keys s.num) _
        (mem_keys_loopBody_num settings ride.recIntSecs) ride.dataPoints _ k).mp h with
        h0 | ⟨p, _, hs, hc⟩
      · simp [loopInit, QHash.keys] at h0
      · exact fromCell p hs.1 hc
    · rcases (mem_keys_aggregateFrom settings ride.recIntSecs (fun s => QHash.keys s.iz) _
        (mem_keys_loopBody_iz settings ride.recIntSecs) ride.dataPoints _ k).mp h with
        h0 | ⟨p, _, hs, hc⟩
      · simp [loopInit, QHash.keys] at h0
      · exact fromCell p hs.1 hc
    · rcases (mem_keys_aggregateFrom settings ride.recIntSecs (fun s => QHash.keys s.inum) _
        (mem_keys_loopBody_inum settings ride.recIntSecs) ride.dataPoints _ k).mp h with
        h0 | ⟨p, _, hs, hc⟩
      · simp [loopInit, QHash.keys] at h0
      · exact fromCell p hs.1 hc

/-- C4 (witness): the ride with a zero-power sample, the ignore flag set. -/
theorem C4_ignore_zero_bins_witness :
    zeroSettings.ignore = true ∧
    ((∀ (r : ℚ) (st : LoopState) (point : RideFilePoint),
      (binx zeroSettings point = 0 ∨ biny zeroSettings point = 0) →
        loopBody zeroSettings r st point = st) ∧
    (∀ k : Key,
      (k ∈ QHash.keys (aggregateWith zeroSettings zeroRide 0 [] []).mz ∨
        k ∈ QHash.keys (aggregateWith zeroSettings zeroRide 0 [] []).mnum ∨
        k ∈ QHash.keys (aggregateWith zeroSettings zeroRide 0 [] []).color ∨
        k ∈ QHash.keys (aggregateWith zeroSettings zeroRide 0 [] []).num ∨
        k ∈ QHash.keys (aggregateWith zeroSettings zeroRide 0 [] []).iz ∨
        k ∈ QHash.keys (aggregateWith zeroSettings zeroRide 0 [] []).inum) →
      k.1 ≠ 0 ∧ k.2 ≠ 0)) :=
  ⟨rfl, C4_ignore_zero_bins zeroSettings zeroRide 0 rfl⟩

/-! ## C5: the empty dataset -/

/-- C5: with complete settings the loop leaves `mz` empty exactly when every sample is
skipped (in particular when there is none), the constructor makes the placeholder calls
exactly in that case, and then what it leaves behind is: the title "No data or bin size too
large", the domain (0,0,0,0), the 2×2 mesh, the minimum height 0, `create`, an empty
colour map, `minz` and `maxz` unassigned, `diag_` and the other statics untouched; no
`setMaxZ`, no `setScale` and no other mesh or domain is issued. -/
theorem C5_empty_dataset_path (zoneColor : Int → Int → QColor) (settings : ModelSettings)
    (ride : RideItem) (cp : ModelDataColor) (statics : Statics)
    (hride : settings.ride = some ride) (hx : settings.x ≠ MODEL_NONE)
    (hy : settings.y ≠ MODEL_NONE) (hz : settings.z ≠ MODEL_NONE) :
    ((aggregateWith settings ride statics.intervals_ statics.iz statics.inum).mz.count = 0 ↔
      ∀ p ∈ ride.dataPoints, skipped settings p = true) ∧
    ((ModelDataProvider.ModelDataProvider zoneColor (some settings) cp statics).calls =
        [Call.setTitle "No data or bin size too large", Call.setDomain 0 0 0 0,
          Call.setMesh 2 2, Call.setMinZ 0, Call.create] ↔
      ∀ p ∈ ride.dataPoints, skipped settings p = true) ∧
    ((∀ p ∈ ride.dataPoints, skipped settings p = true) →
      ModelDataProvider.ModelDataProvider zoneColor (some settings) cp statics =
        { calls := [Call.setTitle "No data or bin size too large", Call.setDomain 0 0 0 0,
            Call.setMesh 2 2, Call.setMinZ 0, Call.create],
          provider := { mz := [], mnum := [], maxz := none, minz := none },
          colorProvider := { cp with color := [], num := [], zonecolor := [] },
          statics := statics }) := by
  have hcount : (aggregateWith settings ride statics.intervals_ statics.iz statics.inum).mz.count
      = 0 ↔ ∀ p ∈ ride.dataPoints, skipped settings p = true := by
    rw [← aggregateFrom_mz_eq_nil_iff settings ride.recIntSecs ride.dataPoints
      (loopInit statics.intervals_ statics.iz statics.inum) rfl]
    exact List.length_eq_zero
  have hbuilt : (∀ p ∈ ride.dataPoints, skipped settings p = true) →
      ModelDataProvider.ModelDataProvider zoneColor (some settings) cp statics =
        { calls := [Call.setTitle "No data or bin size too large", Call.setDomain 0 0 0 0,
            Call.setMesh 2 2, Call.setMinZ 0, Call.create],
          provider := { mz := [], mnum := [], maxz := none, minz := none },
          colorProvider := { cp with color := [], num := [], zonecolor := [] },
          statics := statics } := by
    intro hall
    have hst : aggregateWith settings ride statics.intervals_ statics.iz statics.inum
        = loopInit statics.intervals_ statics.iz statics.inum :=
      aggregateFrom_all_skipped settings ride.recIntSecs ride.dataPoints _ hall
    simp only [ModelDataProvider.ModelDataProvider, hride, hx, hy, hz, or_self, if_false,
      hcount.mpr hall, if_true, hst]
    rfl
  refine ⟨hcount, ⟨?_, ?_⟩, hbuilt⟩
  · intro hcalls
    by_contra hall
    have hne : ¬ (aggregateWith settings ride statics.intervals_ statics.iz statics.inum).mz.count
        = 0 := fun h => hall (hcount.mp h)
    simp [ModelDataProvider.ModelDataProvider, hride, hx, hy, hz, hne, postProcess] at hcalls
  · intro hall
    rw [hbuilt hall]

/-- C5 (witness): a ride whose only sample has no power, the ignore flag set. -/
theorem C5_empty_dataset_path_witness :
    (coastSettings.ride = some coastRide ∧ coastSettings.x ≠ MODEL_NONE ∧
      coastSettings.y ≠ MODEL_NONE ∧ coastSettings.z ≠ MODEL_NONE) ∧
    (((aggregateWith coastSettings coastRide initialStatics.intervals_ initialStatics.iz
        initialStatics.inum).mz.count = 0 ↔
      ∀ p ∈ coastRide.dataPoints, skipped coastSettings p = true) ∧
    ((ModelDataProvider.ModelDataProvider greyZones (some coastSettings) emptyColor
        initialStatics).calls =
        [Call.setTitle "No data or bin size too large", Call.setDomain 0 0 0 0,
          Call.setMesh 2 2, Call.setMinZ 0, Call.create] ↔
      ∀ p ∈ coastRide.dataPoints, skipped coastSettings p = true) ∧
    ((∀ p ∈ coastRide.dataPoints, skipped coastSettings p = true) →
      ModelDataProvider.ModelDataProvider greyZones (some coastSettings) emptyColor
          initialStatics =
        { calls := [Call.setTitle "No data or bin size too large", Call.setDomain 0 0 0 0,
            Call.setMesh 2 2, Call.setMinZ 0, Call.create],
          provider := { mz := [], mnum := [], maxz := none, minz := none },
          colorProvider := { emptyColor with color := [], num := [], zonecolor := [] },
          statics := initialStatics })) ∧
    (∀ p ∈ coastRide.dataPoints, skipped coastSettings p = true) :=
  ⟨⟨rfl, by decide, by decide, by decide⟩,
    C5_empty_dataset_path greyZones coastSettings coastRide emptyColor initialStatics
      rfl (by decide) (by decide) (by decide),
    by decide!⟩

/-! ## C6: which cells get an interval entry -/

/-- C6: the statics `iz` and `inum` being empty at the start, after the loop `iz` has an
entry for the cell k exactly when some sample that is not skipped is binned to k and has
`start ≤ secs ≤ stop` for at least one selected interval; and with an empty interval list
the loop leaves `iz` as it found it, so it receives no entry. -/
theorem C6_interval_entries (settings : ModelSettings) (ride : RideItem) (n : Nat) :
    (∀ k : Key, k ∈ QHash.keys (aggregateWith settings ride n [] []).iz ↔
      ∃ p ∈ ride.dataPoints, skipped settings p = false ∧ cellOf settings p = k ∧
        ∃ c ∈ settings.intervals, c.start ≤ p.secs ∧ p.secs ≤ c.stop) ∧
    (∀ iz inum : QHash Key ℚ,
      (aggregateWith { settings with intervals := [] } ride n iz inum).iz = iz) := by
  constructor
  · intro k
    unfold aggregateWith
    rw [mem_keys_aggregateFrom settings ride.recIntSecs (fun s => QHash.keys s.iz) _
      (mem_keys_loopBody_iz settings ride.recIntSecs) ride.dataPoints _ k]
    simp only [loopInit, QHash.keys, List.map_nil, List.not_mem_nil, false_or]
    constructor
    · rintro ⟨p, hp, ⟨hs, hin⟩, hc⟩
      exact ⟨p, hp, hs, hc, (inSomeInterval_iff settings p).mp hin⟩
    · rintro ⟨p, hp, hs, hc, hin⟩
      exact ⟨p, hp, ⟨hs, (inSomeInterval_iff settings p).mpr hin⟩, hc⟩
  · intro iz inum
    unfold aggregateWith
    rw [aggregateFrom_iz_of_no_intervals _ _ rfl]
    rfl

/-- C6 (example): with the intervals [0,1] and [2,3] selected over five samples in the
cells (100,80), (150,80) and (200,80), the sample of the cell (150,80) has secs = 3/2, and
`iz` gets entries for (100,80) and (200,80) only. -/
theorem C6_interval_entries_witness :
    ((∀ k : Key, k ∈ QHash.keys (aggregateWith gapSettings gapRide 0 [] []).iz ↔
      ∃ p ∈ gapRide.dataPoints, skipped gapSettings p = false ∧ cellOf gapSettings p = k ∧
        ∃ c ∈ gapSettings.intervals, c.start ≤ p.secs ∧ p.secs ≤ c.stop) ∧
    (∀ iz inum : QHash Key ℚ,
      (aggregateWith { gapSettings with intervals := [] } gapRide 0 iz inum).iz = iz)) ∧
    QHash.keys (aggregateWith gapSettings gapRide 0 [] []).mz
      = [(100, 80), (150, 80), (200, 80)] ∧
    QHash.keys (aggregateWith gapSettings gapRide 0 [] []).iz = [(100, 80), (200, 80)] :=
  ⟨C6_interval_entries gapSettings gapRide 0, by decide!, by decide!⟩

/-! ## C7: zone colouring -/

/-- C7: with complete settings, the colour channel power-zone, a zone range with N zones
configured, at least one sample not skipped, and `whichZone` giving an index in [0, N-1] for
every value the loop stored in the colour map: after the constructor every value of the
colour map is an integer between 1 and N, the colour bounds are min = 1 and max = N, zone
mode is on, the keys of `zonecolor` are exactly 0, …, N-1, and `zonecolor` has the key v-1
for every stored value v. -/
theorem C7_zone_values_in_range (zoneColor : Int → Int → QColor) (settings : ModelSettings)
    (ride : RideItem) (cp : ModelDataColor) (statics : Statics)
    (hride : settings.ride = some ride) (hx : settings.x ≠ MODEL_NONE)
    (hy : settings.y ≠ MODEL_NONE) (hz : settings.z ≠ MODEL_NONE)
    (hcol : settings.color = MODEL_POWERZONE) (hrange : ride.zoneRange ≥ 0)
    (hdata : ∃ p ∈ ride.dataPoints, skipped settings p = false)
    (hwhich : ∀ v ∈ QHash.values
        (aggregateWith settings ride statics.intervals_ statics.iz statics.inum).color,
      0 ≤ ride.zones.whichZone ride.zoneRange v ∧
        ride.zones.whichZone ride.zoneRange v ≤ ride.zones.numZones ride.zoneRange - 1) :
    (∀ v ∈ QHash.values
        (ModelDataProvider.ModelDataProvider zoneColor (some settings) cp statics).colorProvider.color,
      ∃ i : Int, v = (i : ℚ) ∧ 1 ≤ i ∧ i ≤ ride.zones.numZones ride.zoneRange) ∧
    (ModelDataProvider.ModelDataProvider zoneColor (some settings) cp statics).colorProvider.min
      = 1 ∧
    (ModelDataProvider.ModelDataProvider zoneColor (some settings) cp statics).colorProvider.max
      = ((ride.zones.numZones ride.zoneRange : Int) : ℚ) ∧
    (ModelDataProvider.ModelDataProvider zoneColor (some settings) cp statics).colorProvider.iszones
      = true ∧
    (∀ q : ℚ, q ∈ QHash.keys
        (ModelDataProvider.ModelDataProvider zoneColor (some settings) cp
          statics).colorProvider.zonecolor ↔
      ∃ i : Int, q = (i : ℚ) ∧ 0 ≤ i ∧ i < ride.zones.numZones ride.zoneRange) ∧
    (∀ v ∈ QHash.values
        (ModelDataProvider.ModelDataProvider zoneColor (some settings) cp statics).colorProvider.color,
      v - 1 ∈ QHash.keys
        (ModelDataProvider.ModelDataProvider zoneColor (some settings) cp
          statics).colorProvider.zonecolor) := by
  have hne : ¬ (aggregateWith settings ride statics.intervals_ statics.iz statics.inum).mz.count
      = 0 := by
    intro h0
    obtain ⟨p, hp, hs⟩ := hdata
    have hall := (aggregateFrom_mz_eq_nil_iff settings ride.recIntSecs ride.dataPoints
      (loopInit statics.intervals_ statics.iz statics.inum) rfl).mp (List.length_eq_zero.mp h0)
    rw [hall p hp] at hs
    exact absurd hs (by decide)
  have hb : (ModelDataProvider.ModelDataProvider zoneColor (some settings) cp
      statics).colorProvider =
      { color := toZones ride.zones ride.zoneRange
          (aggregateWith settings ride statics.intervals_ statics.iz statics.inum).color,
        num := (aggregateWith settings ride statics.intervals_ statics.iz statics.inum).num,
        min := 1, max := ((ride.zones.numZones ride.zoneRange : Int) : ℚ),
        iszones := true,
        zonecolor := fillZoneColors zoneColor (ride.zones.numZones ride.zoneRange) [] } := by
    simp only [ModelDataProvider.ModelDataProvider, hride, hx, hy, hz, or_self, if_false, hne]
    exact postProcess_colorProvider_zone zoneColor settings ride _ cp hcol hrange
  have hnd : (QHash.keys
      (aggregateWith settings ride statics.intervals_ statics.iz statics.inum).color).Nodup :=
    aggregateFrom_color_nodup settings ride.recIntSecs ride.dataPoints _
      (by simp [loopInit, QHash.keys])
  have hvals : ∀ v ∈ QHash.values (toZones ride.zones ride.zoneRange
      (aggregateWith settings ride statics.intervals_ statics.iz statics.inum).color),
      ∃ i : Int, v = (i : ℚ) ∧ 1 ≤ i ∧ i ≤ ride.zones.numZones ride.zoneRange := by
    intro v hv
    rw [values_toZones _ _ _ hnd, List.mem_map] at hv
    obtain ⟨c, hc, rfl⟩ := hv
    have hw := hwhich c hc
    refine ⟨ride.zones.whichZone ride.zoneRange c + 1, by push_cast; rfl, by omega, by omega⟩
  rw [hb]
  refine ⟨hvals, rfl, rfl, rfl, fun q => mem_keys_fillZoneColors zoneColor _ q, ?_⟩
  intro v hv
  obtain ⟨i, rfl, h1, hn⟩ := hvals v hv
  exact (mem_keys_fillZoneColors zoneColor _ _).mpr ⟨i - 1, by push_cast; rfl, by omega, by omega⟩

/-- C7 (witness): two samples with powers 100 and 200, three zones. -/
theorem C7_zone_values_in_range_witness :
    (zoneSettings.ride = some zoneRide ∧ zoneSettings.x ≠ MODEL_NONE ∧
      zoneSettings.y ≠ MODEL_NONE ∧ zoneSettings.z ≠ MODEL_NONE ∧
      zoneSettings.color = MODEL_POWERZONE ∧ zoneRide.zoneRange ≥ 0 ∧
      (∃ p ∈ zoneRide.dataPoints, skipped zoneSettings p = false) ∧
      (∀ v ∈ QHash.values (aggregateWith zoneSettings zoneRide initialStatics.intervals_
          initialStatics.iz initialStatics.inum).color,
        0 ≤ zoneRide.zones.whichZone zoneRide.zoneRange v ∧
          zoneRide.zones.whichZone zoneRide.zoneRange v
            ≤ zoneRide.zones.numZones zoneRide.zoneRange - 1)) ∧
    ((∀ v ∈ QHash.values
        (ModelDataProvider.ModelDataProvider greyZones (some zoneSettings) emptyColor
          initialStatics).colorProvider.color,
      ∃ i : Int, v = (i : ℚ) ∧ 1 ≤ i ∧ i ≤ zoneRide.zones.numZones zoneRide.zoneRange) ∧
    (ModelDataProvider.ModelDataProvider greyZones (some zoneSettings) emptyColor
      initialStatics).colorProvider.min = 1 ∧
    (ModelDataProvider.ModelDataProvider greyZones (some zoneSettings) emptyColor
      initialStatics).colorProvider.max
      = ((zoneRide.zones.numZones zoneRide.zoneRange : Int) : ℚ) ∧
    (ModelDataProvider.ModelDataProvider greyZones (some zoneSettings) emptyColor
      initialStatics).colorProvider.iszones = true ∧
    (∀ q : ℚ, q ∈ QHash.keys
        (ModelDataProvider.ModelDataProvider greyZones (some zoneSettings) emptyColor
          initialStatics).colorProvider.zonecolor ↔
      ∃ i : Int, q = (i : ℚ) ∧ 0 ≤ i ∧ i < zoneRide.zones.numZones zoneRide.zoneRange) ∧
    (∀ v ∈ QHash.values
        (ModelDataProvider.ModelDataProvider greyZones (some zoneSettings) emptyColor
          initialStatics).colorProvider.color,
      v - 1 ∈ QHash.keys
        (ModelDataProvider.ModelDataProvider greyZones (some zoneSettings) emptyColor
          initialStatics).colorProvider.zonecolor)) :=
  ⟨⟨rfl, by decide, by decide, by decide, rfl, by decide, by decide!, by decide!⟩,
    C7_zone_values_in_range greyZones zoneSettings zoneRide emptyColor initialStatics
      rfl (by decide) (by decide) (by decide) rfl (by decide) (by decide!) (by decide!)⟩

/-! ## C8: the mesh is at least 3 × 3 -/

/-- C8: whatever the grid bounds and the bin widths are (a single occupied cell with
max = min included), the post-processing issues `setMesh` with the cell counts of the two
axes plus one, and both dimensions of every `setMesh` it issues are at least 3. -/
theorem C8_mesh_at_least_three (zoneColor : Int → Int → QColor) (settings : ModelSettings)
    (ride : RideItem) (st : LoopState) (cp : ModelDataColor) :
    Call.setMesh ((meshAxis settings.xbin st.maxbinx st.minbinx).2.2 + 1)
        ((meshAxis settings.ybin st.maxbiny st.minbiny).2.2 + 1)
      ∈ (postProcess zoneColor settings ride st cp).calls ∧
    (∀ columns rows : Int,
      Call.setMesh columns rows ∈ (postProcess zoneColor settings ride st cp).calls →
        3 ≤ columns ∧ 3 ≤ rows) := by
  have hx := meshAxis_ge settings.xbin st.maxbinx st.minbinx
  have hy := meshAxis_ge settings.ybin st.maxbiny st.minbiny
  constructor
  · simp [postProcess]
  · intro columns rows h
    simp only [postProcess, List.mem_append, List.mem_cons, List.mem_singleton,
      List.not_mem_nil, or_false] at h
    rcases h with (h | h) | h
    · rcases h with h | h <;> cases h
    · split at h
      · simp at h
      · simp at h
    · rcases h with h | h | h | h | h | h
      · injection h with h1 h2
        subst h1 h2
        constructor <;> omega
      all_goals cases h

/-- C8 (witness): the three-sample ride, whose x range is one bin and whose y range is
zero, gets a 4 × 4 mesh. -/
theorem C8_mesh_at_least_three_witness :
    Call.setMesh 4 4 ∈
      (postProcess greyZones timeSettings timeRide (aggregate timeSettings timeRide)
        emptyColor).calls ∧
    ((3 : Int) ≤ 4 ∧ (3 : Int) ≤ 4) :=
  ⟨by decide!,
    (C8_mesh_at_least_three greyZones timeSettings timeRide (aggregate timeSettings timeRide)
      emptyColor).2 4 4 (by decide!)⟩

/-! ## C9: the scale factors are at least 1 -/

/-- C9: for positive x, y and z ranges, after the branch selection and the three fix-ups
each of the factors `xscale`, `yscale`, `zscale` passed to `setScale` is at least 1. -/
theorem C9_scales_at_least_one (maxbinx minbinx maxbiny minbiny maxz minz : ℚ)
    (hx : 0 < maxbinx - minbinx) (hy : 0 < maxbiny - minbiny) (hz : 0 < maxz - minz) :
    1 ≤ (scales maxbinx minbinx maxbiny minbiny maxz minz).1 ∧
    1 ≤ (scales maxbinx minbinx maxbiny minbiny maxz minz).2.1 ∧
    1 ≤ (scales maxbinx minbinx maxbiny minbiny maxz minz).2.2 := by
  obtain ⟨p1, p2, p3⟩ := scaleBranch_pos maxbinx minbinx maxbiny minbiny maxz minz hx hy hz
  exact scaleFix_ge_one _ p1 p2 p3

/-- C9 (witness): the bounds of the three-sample ride, x range 150, y range 30, z range
100/3. -/
theorem C9_scales_at_least_one_witness :
    ((0 : ℚ) < 200 - 50 ∧ (0 : ℚ) < 100 - 70 ∧ (0 : ℚ) < 200 / 3 - 100 / 3) ∧
    (1 ≤ (scales 200 50 100 70 (200 / 3) (100 / 3)).1 ∧
      1 ≤ (scales 200 50 100 70 (200 / 3) (100 / 3)).2.1 ∧
      1 ≤ (scales 200 50 100 70 (200 / 3) (100 / 3)).2.2) :=
  ⟨⟨by norm_num, by norm_num, by norm_num⟩,
    C9_scales_at_least_one 200 50 100 70 (200 / 3) (100 / 3)
      (by norm_num) (by norm_num) (by norm_num)⟩

/-! ## C10: the colour of a cell -/

/-- C10: `ModelDataColor::operator()` returns the transparent RGBA(255,255,255,0) when the
colour map has no entry for the key of (x,y), and also when the stored value is 0;
otherwise the colour it returns has alpha 1, and in zone mode it is the colour that
`zonecolor` holds for the key (stored value − 1), black when `zonecolor` has no such key. -/
theorem C10_colour_of_cell (setHsv : Int → Int → Int → QColor) (cp : ModelDataColor)
    (x y : ℚ) :
    (xystring x y ∉ QHash.keys cp.color →
      cp.call setHsv x y = { r := 255, g := 255, b := 255, a := 0 }) ∧
    (cp.color.value (xystring x y) 0 = 0 →
      cp.call setHsv x y = { r := 255, g := 255, b := 255, a := 0 }) ∧
    (cp.color.value (xystring x y) 0 ≠ 0 →
      (cp.call setHsv x y).a = 1 ∧
      (cp.iszones = true →
        cp.call setHsv x y =
          rgbaOf (cp.zonecolor.value (cp.color.value (xystring x y) 0 - 1)
            { red := 0, green := 0, blue := 0 }) ∧
        (cp.color.value (xystring x y) 0 - 1 ∉ QHash.keys cp.zonecolor →
          cp.call setHsv x y = { r := 0, g := 0, b := 0, a := 1 }))) := by
  have hzero : cp.color.value (xystring x y) 0 = 0 →
      cp.call setHsv x y = { r := 255, g := 255, b := 255, a := 0 } := by
    intro h
    simp [ModelDataColor.call, h]
  refine ⟨fun h => hzero (QHash.value_of_not_mem _ _ _ h), hzero, ?_⟩
  intro hv
  refine ⟨by simp [ModelDataColor.call, hv, rgbaOf], ?_⟩
  intro hzones
  have hcall : cp.call setHsv x y =
      rgbaOf (cp.zonecolor.value (cp.color.value (xystring x y) 0 - 1)
        { red := 0, green := 0, blue := 0 }) := by
    simp [ModelDataColor.call, hv, hzones]
  refine ⟨hcall, ?_⟩
  intro hk
  rw [hcall, QHash.value_of_not_mem _ _ _ hk]
  simp [rgbaOf]

/-- C10 (witness): a zone-mode provider whose cell (100,80) holds zone value 2 returns the
colour of the zone table entry 1, with alpha 1. -/
theorem C10_colour_of_cell_witness :
    (zoneColorProvider.color.value (xystring 100 80) 0 ≠ 0 ∧
      zoneColorProvider.iszones = true) ∧
    (zoneColorProvider.call greyHsv 100 80).a = 1 ∧
    zoneColorProvider.call greyHsv 100 80 =
      rgbaOf (zoneColorProvider.zonecolor.value
        (zoneColorProvider.color.value (xystring 100 80) 0 - 1)
        { red := 0, green := 0, blue := 0 }) :=
  ⟨⟨by decide!, rfl⟩,
    ((C10_colour_of_cell greyHsv zoneColorProvider 100 80).2.2 (by decide!)).1,
    (((C10_colour_of_cell greyHsv zoneColorProvider 100 80).2.2 (by decide!)).2 rfl).1⟩

/-! ## C11: the legend colours -/

/-- C11 (evaluation at the failing input): `createVector` returns 7 colours whenever zone
mode is on and 100 otherwise; for a provider in zone mode whose zone table has the three
keys 0, 1, 2 the vector holds the three zone colours followed by four times black, seven
colours and not three. -/
theorem C11_zone_vector_has_seven_colours :
    (∀ (setHsv : Int → Int → Int → QColor) (cp : ModelDataColor) (vec : ColorVector),
      (cp.createVector setHsv vec).length = if cp.iszones = true then 7 else 100) ∧
    zoneColorProvider.iszones = true ∧
    QHash.keys zoneColorProvider.zonecolor = [0, 1, 2] ∧
    (zoneColorProvider.createVector greyHsv []).length = 7 ∧
    zoneColorProvider.createVector greyHsv [] =
      [{ r := 1, g := 0, b := 0, a := 1 }, { r := 0, g := 1, b := 0, a := 1 },
        { r := 0, g := 0, b := 1, a := 1 }, { r := 0, g := 0, b := 0, a := 1 },
        { r := 0, g := 0, b := 0, a := 1 }, { r := 0, g := 0, b := 0, a := 1 },
        { r := 0, g := 0, b := 0, a := 1 }] := by
  refine ⟨?_, rfl, by decide!, by decide!, by decide!⟩
  intro setHsv cp vec
  by_cases h : cp.iszones = true
  · simp [ModelDataColor.createVector, h, List.range, List.range.loop]
  · simp [ModelDataColor.createVector, h, gradeColors_length]

/-! ## C12: the sample classifier -/

/-- C12: `pointType` is a function defined on every sample and channel: it returns the
field of the sample for each of the eleven direct channels, 1 for time-at-cell, the watts
for power-zone, and 0 for every other channel code. -/
theorem C12_pointType_total (point : RideFilePoint) :
    pointType point MODEL_POWER = point.watts ∧
    pointType point MODEL_CADENCE = point.cad ∧
    pointType point MODEL_HEARTRATE = point.hr ∧
    pointType point MODEL_SPEED = point.kph ∧
    pointType point MODEL_ALT = point.alt ∧
    pointType point MODEL_PEDALFORCE = point.nm ∧
    pointType point MODEL_TIME = point.secs ∧
    pointType point MODEL_DISTANCE = point.km ∧
    pointType point MODEL_INTERVAL = (point.interval : ℚ) ∧
    pointType point MODEL_LAT = point.lat ∧
    pointType point MODEL_LONG = point.lon ∧
    pointType point MODEL_XYTIME = 1 ∧
    pointType point MODEL_POWERZONE = point.watts ∧
    (∀ type : Channel,
      type ∉ [Channel.MODEL_POWER, MODEL_CADENCE, MODEL_HEARTRATE, MODEL_SPEED, MODEL_ALT,
        MODEL_PEDALFORCE, MODEL_TIME, MODEL_DISTANCE, MODEL_INTERVAL, MODEL_LAT, MODEL_LONG,
        MODEL_XYTIME, MODEL_POWERZONE] → pointType point type = 0) := by
  refine ⟨rfl, rfl, rfl, rfl, rfl, rfl, rfl, rfl, rfl, rfl, rfl, rfl, rfl, ?_⟩
  intro type h
  cases type <;> simp_all [pointType]

/-- C12 (witness): an unknown channel code on a concrete sample. -/
theorem C12_pointType_total_witness :
    Channel.unknown 99 ∉ [Channel.MODEL_POWER, MODEL_CADENCE, MODEL_HEARTRATE, MODEL_SPEED,
        MODEL_ALT, MODEL_PEDALFORCE, MODEL_TIME, MODEL_DISTANCE, MODEL_INTERVAL, MODEL_LAT,
        MODEL_LONG, MODEL_XYTIME, MODEL_POWERZONE] ∧
    pointType (samplePoint 0 100 80 120) (Channel.unknown 99) = 0 :=
  ⟨by decide,
    (C12_pointType_total (samplePoint 0 100 80 120)).2.2.2.2.2.2.2.2.2.2.2.2.2
      (Channel.unknown 99) (by decide)⟩

/-! ## C13: power zones without a zone range -/

/-- C13: with complete settings, at least one sample not skipped, the colour channel
power-zone and no zone range configured (`zoneRange() < 0`), the constructor leaves zone
mode off, the colour map exactly as the loop filled it, and the zone table empty; the
colour of a cell with a stored value is then the one of the continuous ramp between the
colour bounds of the loop. -/
theorem C13_no_zone_range_falls_back (zoneColor : Int → Int → QColor)
    (setHsv : Int → Int → Int → QColor) (settings : ModelSettings)
    (ride : RideItem) (cp : ModelDataColor) (statics : Statics)
    (hride : settings.ride = some ride) (hx : settings.x ≠ MODEL_NONE)
    (hy : settings.y ≠ MODEL_NONE) (hz : settings.z ≠ MODEL_NONE)
    (hcol : settings.color = MODEL_POWERZONE) (hrange : ride.zoneRange < 0)
    (hdata : ∃ p ∈ ride.dataPoints, skipped settings p = false) :
    (ModelDataProvider.ModelDataProvider zoneColor (some settings) cp statics).colorProvider.iszones
      = false ∧
    (ModelDataProvider.ModelDataProvider zoneColor (some settings) cp statics).colorProvider.color
      = (aggregateWith settings ride statics.intervals_ statics.iz statics.inum).color ∧
    (ModelDataProvider.ModelDataProvider zoneColor (some settings) cp statics).colorProvider.zonecolor
      = [] ∧
    (∀ x y : ℚ,
      (ModelDataProvider.ModelDataProvider zoneColor (some settings) cp
          statics).colorProvider.color.value (xystring x y) 0 ≠ 0 →
      (ModelDataProvider.ModelDataProvider zoneColor (some settings) cp
          statics).colorProvider.call setHsv x y =
        rgbaOf (setHsv (toInt (255 *
          (((aggregateWith settings ride statics.intervals_ statics.iz
                statics.inum).color.value (xystring x y) 0
              - (aggregateWith settings ride statics.intervals_ statics.iz statics.inum).mincol)
            / ((aggregateWith settings ride statics.intervals_ statics.iz statics.inum).maxcol
              - (aggregateWith settings ride statics.intervals_ statics.iz
                  statics.inum).mincol)))) 255 255)) := by
  have hb : (ModelDataProvider.ModelDataProvider zoneColor (some settings) cp
      statics).colorProvider =
      { color := (aggregateWith settings ride statics.intervals_ statics.iz statics.inum).color,
        num := (aggregateWith settings ride statics.intervals_ statics.iz statics.inum).num,
        min := (aggregateWith settings ride statics.intervals_ statics.iz statics.inum).mincol,
        max := (aggregateWith settings ride statics.intervals_ statics.iz statics.inum).maxcol,
        iszones := false, zonecolor := [] } := by
    rw [constructor_eq_postProcess zoneColor settings ride cp statics hride hx hy hz hdata]
    have h1 : ¬ (MODEL_POWERZONE = MODEL_XYTIME) := by decide
    have h2 : ¬ (MODEL_POWERZONE = MODEL_NONE) := by decide
    have h3 : ¬ ride.zoneRange ≥ 0 := by omega
    simp [postProcess, colorStep, hcol, h1, h2, h3]
  rw [hb]
  refine ⟨rfl, rfl, rfl, ?_⟩
  intro x y hv
  simp only [ModelDataColor.call] at hv ⊢
  simp [hv]

/-- C13 (witness): the heart-rate ride, which has no zone range, coloured by power zone. -/
theorem C13_no_zone_range_falls_back_witness :
    (pzSettings.ride = some hrRide ∧ pzSettings.x ≠ MODEL_NONE ∧ pzSettings.y ≠ MODEL_NONE ∧
      pzSettings.z ≠ MODEL_NONE ∧ pzSettings.color = MODEL_POWERZONE ∧ hrRide.zoneRange < 0 ∧
      ∃ p ∈ hrRide.dataPoints, skipped pzSettings p = false) ∧
    (ModelDataProvider.ModelDataProvider greyZones (some pzSettings) emptyColor
      initialStatics).colorProvider.iszones = false ∧
    (ModelDataProvider.ModelDataProvider greyZones (some pzSettings) emptyColor
      initialStatics).colorProvider.color
      = (aggregateWith pzSettings hrRide initialStatics.intervals_ initialStatics.iz
          initialStatics.inum).color ∧
    (ModelDataProvider.ModelDataProvider greyZones (some pzSettings) emptyColor
      initialStatics).colorProvider.zonecolor = [] :=
  ⟨⟨rfl, by decide, by decide, by decide, rfl, by decide, by decide!⟩,
    (C13_no_zone_range_falls_back greyZones greyHsv pzSettings hrRide emptyColor initialStatics
      rfl (by decide) (by decide) (by decide) rfl (by decide) (by decide!)).1,
    (C13_no_zone_range_falls_back greyZones greyHsv pzSettings hrRide emptyColor initialStatics
      rfl (by decide) (by decide) (by decide) rfl (by decide) (by decide!)).2.1,
    (C13_no_zone_range_falls_back greyZones greyHsv pzSettings hrRide emptyColor initialStatics
      rfl (by decide) (by decide) (by decide) rfl (by decide) (by decide!)).2.2.1⟩

/-! ## C14: degenerate ranges -/

/-- C14 (evaluation at the failing input): on the ride whose two samples fall in the one
cell (100,80), the constructor ends with minz = maxz = 200 and the domain (200, 50, 70, 100);
the divisors used for `diag_` are all different from zero, but the branch taken by the
dominant-axis selection divides by the y range 30 and by the z range 200 - 200 = 0. -/
theorem C14_zero_z_range_is_a_divisor :
    (ModelDataProvider.ModelDataProvider greyZones (some hrSettings) emptyColor
      initialStatics).provider.mz = [((100, 80), 200)] ∧
    (ModelDataProvider.ModelDataProvider greyZones (some hrSettings) emptyColor
      initialStatics).provider.minz = some 200 ∧
    (ModelDataProvider.ModelDataProvider greyZones (some hrSettings) emptyColor
      initialStatics).provider.maxz = some 200 ∧
    Call.setDomain 200 50 70 100 ∈
      (ModelDataProvider.ModelDataProvider greyZones (some hrSettings) emptyColor
        initialStatics).calls ∧
    0 ∉ barDiagDivisors hrSettings.xbin hrSettings.ybin 200 50 100 70 ∧
    scaleBranchDivisors 200 50 100 70 200 200 = [100 - 70, 200 - 200] ∧
    (0 : ℚ) ∈ scaleBranchDivisors 200 50 100 70 200 200 := by
  decide!

/-! ## C15: the grid bounds -/

/-- C15 (evaluation at the failing input): on a ride whose two samples, none skipped, have
the binned x values -122 and -121 and the binned y values 70000 and 70001, the loop ends
with minbinx = -122 but maxbinx = 0 (its initial value, not the maximum -121), and with
maxbiny = 70001 but minbiny = 65535 (its initial value, not the minimum 70000). -/
theorem C15_bounds_keep_their_initial_values :
    westRide.dataPoints.map (binx westSettings) = [-122, -121] ∧
    westRide.dataPoints.map (skipped westSettings) = [false, false] ∧
    (aggregate westSettings westRide).minbinx = -122 ∧
    (aggregate westSettings westRide).maxbinx = 0 ∧
    westRide.dataPoints.map (biny westSettings) = [70000, 70001] ∧
    (aggregate westSettings westRide).minbiny = 65535 ∧
    (aggregate westSettings westRide).maxbiny = 70001 := by
  decide!

/-! ## C16: the height bounds -/

/-- C16: with complete settings and at least one sample not skipped, the constructor
assigns `minz` and `maxz` (and passes them to `setMinZ`, `setMaxZ`) such that both are values
of the height map `mz` it leaves, i.e. after time normalisation, and every value of that map
lies between them; a scan of the same entries in any other order gives the same pair; and
the same `minz` and `maxz` result whatever colour provider and statics (in particular the
interval maps `iz`, `inum`) the constructor starts from. -/
theorem C16_height_bounds (zoneColor : Int → Int → QColor) (settings : ModelSettings)
    (ride : RideItem) (cp : ModelDataColor) (statics : Statics)
    (hride : settings.ride = some ride) (hx : settings.x ≠ MODEL_NONE)
    (hy : settings.y ≠ MODEL_NONE) (hz : settings.z ≠ MODEL_NONE)
    (hdata : ∃ p ∈ ride.dataPoints, skipped settings p = false) :
    ∃ lo hi : ℚ,
      (ModelDataProvider.ModelDataProvider zoneColor (some settings) cp statics).provider.minz
        = some lo ∧
      (ModelDataProvider.ModelDataProvider zoneColor (some settings) cp statics).provider.maxz
        = some hi ∧
      Call.setMinZ lo ∈
        (ModelDataProvider.ModelDataProvider zoneColor (some settings) cp statics).calls ∧
      Call.setMaxZ hi ∈
        (ModelDataProvider.ModelDataProvider zoneColor (some settings) cp statics).calls ∧
      lo ∈ QHash.values
        (ModelDataProvider.ModelDataProvider zoneColor (some settings) cp statics).provider.mz ∧
      hi ∈ QHash.values
        (ModelDataProvider.ModelDataProvider zoneColor (some settings) cp statics).provider.mz ∧
      (∀ v ∈ QHash.values
          (ModelDataProvider.ModelDataProvider zoneColor (some settings) cp statics).provider.mz,
        lo ≤ v ∧ v ≤ hi) ∧
      (∀ m2 : QHash Key ℚ,
        (ModelDataProvider.ModelDataProvider zoneColor (some settings) cp
          statics).provider.mz.Perm m2 → scanMinMax m2 = some (lo, hi)) ∧
      (∀ (cp2 : ModelDataColor) (statics2 : Statics),
        (ModelDataProvider.ModelDataProvider zoneColor (some settings) cp2
            statics2).provider.minz = some lo ∧
        (ModelDataProvider.ModelDataProvider zoneColor (some settings) cp2
            statics2).provider.maxz = some hi) := by
  have hpost : ∀ (cp2 : ModelDataColor) (statics2 : Statics),
      (ModelDataProvider.ModelDataProvider zoneColor (some settings) cp2 statics2) =
        postProcess zoneColor settings ride
          (aggregateWith settings ride statics2.intervals_ statics2.iz statics2.inum) cp2 :=
    fun cp2 statics2 =>
      constructor_eq_postProcess zoneColor settings ride cp2 statics2 hride hx hy hz hdata
  have hne : (aggregateWith settings ride statics.intervals_ statics.iz statics.inum).mz ≠ [] :=
    fun h => aggregateWith_count_ne_zero settings ride statics hdata (by simp [QHash.count, h])
  have hnd : (QHash.keys
      (aggregateWith settings ride statics.intervals_ statics.iz statics.inum).mz).Nodup :=
    aggregateFrom_mz_nodup settings ride.recIntSecs ride.dataPoints _
      (by simp [loopInit, QHash.keys])
  have hfin : finalMz settings ride
      (aggregateWith settings ride statics.intervals_ statics.iz statics.inum).mz ≠ [] := by
    unfold finalMz
    split
    · exact timePercent_ne_nil _ _ hne hnd
    · exact hne
  obtain ⟨lo, hi, hs, hlo, hhi, hall⟩ := scanMinMax_spec _ hfin
  obtain ⟨p1, p2, p3, p4, p5⟩ := postProcess_provider zoneColor settings ride
    (aggregateWith settings ride statics.intervals_ statics.iz statics.inum) cp
  rw [hs] at p2 p3 p4 p5
  simp only [Option.getD_some] at p2 p3 p4 p5
  refine ⟨lo, hi, ?_, ?_, ?_, ?_, ?_, ?_, ?_, ?_, ?_⟩
  · rw [hpost, p2]
  · rw [hpost, p3]
  · rw [hpost]; exact p4
  · rw [hpost]; exact p5
  · rw [hpost, p1]; exact hlo
  · rw [hpost, p1]; exact hhi
  · rw [hpost, p1]; exact hall
  · intro m2 hp
    rw [hpost, p1] at hp
    rw [← scanMinMax_perm _ _ hp, hs]
  · intro cp2 statics2
    obtain ⟨_, q2, q3, _, _⟩ := postProcess_provider zoneColor settings ride
      (aggregateWith settings ride statics2.intervals_ statics2.iz statics2.inum) cp2
    rw [hpost cp2 statics2, q2, q3, aggregateWith_mz_statics settings ride statics2 statics, hs]
    exact ⟨rfl, rfl⟩

/-- C16 (witness): the three-sample ride with z = time-at-cell. -/
theorem C16_height_bounds_witness :
    (timeSettings.ride = some timeRide ∧ timeSettings.x ≠ MODEL_NONE ∧
      timeSettings.y ≠ MODEL_NONE ∧ timeSettings.z ≠ MODEL_NONE ∧
      ∃ p ∈ timeRide.dataPoints, skipped timeSettings p = false) ∧
    (∃ lo hi : ℚ,
      (ModelDataProvider.ModelDataProvider greyZones (some timeSettings) emptyColor initialStatics).provider.minz
        = some lo ∧
      (ModelDataProvider.ModelDataProvider greyZones (some timeSettings) emptyColor initialStatics).provider.maxz
        = some hi ∧
      Call.setMinZ lo ∈
        (ModelDataProvider.ModelDataProvider greyZones (some timeSettings) emptyColor initialStatics).calls ∧
      Call.setMaxZ hi ∈
        (ModelDataProvider.ModelDataProvider greyZones (some timeSettings) emptyColor initialStatics).calls ∧
      lo ∈ QHash.values
        (ModelDataProvider.ModelDataProvider greyZones (some timeSettings) emptyColor initialStatics).provider.mz ∧
      hi ∈ QHash.values
        (ModelDataProvider.ModelDataProvider greyZones (some timeSettings) emptyColor initialStatics).provider.mz ∧
      (∀ v ∈ QHash.values
          (ModelDataProvider.ModelDataProvider greyZones (some timeSettings) emptyColor initialStatics).provider.mz,
        lo ≤ v ∧ v ≤ hi) ∧
      (∀ m2 : QHash Key ℚ,
        (ModelDataProvider.ModelDataProvider greyZones (some timeSettings) emptyColor
          initialStatics).provider.mz.Perm m2 → scanMinMax m2 = some (lo, hi)) ∧
      (∀ (cp2 : ModelDataColor) (statics2 : Statics),
        (ModelDataProvider.ModelDataProvider greyZones (some timeSettings) cp2
            statics2).provider.minz = some lo ∧
        (ModelDataProvider.ModelDataProvider greyZones (some timeSettings) cp2
            statics2).provider.maxz = some hi)) :=
  ⟨⟨rfl, by decide, by decide, by decide, by decide!⟩,
    C16_height_bounds greyZones timeSettings timeRide emptyColor initialStatics
      rfl (by decide) (by decide) (by decide) (by decide!)⟩

/-! ## C17: the scale factors -/

/-- C17: for positive x, y and z ranges the factors passed to `setScale` are
(M/rx, M/ry, M/rz) with M the largest of the three ranges, in every branch of the
dominant-axis selection; so the axis with the largest range gets the factor 1. -/
theorem C17_scales_are_largest_range_over_range
    (maxbinx minbinx maxbiny minbiny maxz minz : ℚ)
    (hx : 0 < maxbinx - minbinx) (hy : 0 < maxbiny - minbiny) (hz : 0 < maxz - minz) :
    scales maxbinx minbinx maxbiny minbiny maxz minz =
      (max (maxbinx - minbinx) (max (maxbiny - minbiny) (maxz - minz)) / (maxbinx - minbinx),
        max (maxbinx - minbinx) (max (maxbiny - minbiny) (maxz - minz)) / (maxbiny - minbiny),
        max (maxbinx - minbinx) (max (maxbiny - minbiny) (maxz - minz)) / (maxz - minz)) := by
  obtain ⟨a1, a2⟩ := scaleBranch_shape maxbinx minbinx maxbiny minbiny maxz minz hx hy hz
  obtain ⟨b1, b2⟩ := fixX_shape _ _ _ hx hy hz _ a1 a2
  obtain ⟨c1, c2⟩ := fixY_shape _ _ _ hx hy hz _ b1 b2
  obtain ⟨⟨c, hc, hs⟩, d2⟩ := fixZ_shape _ _ _ hx hy hz _ c1 c2
  obtain ⟨p1, p2, p3⟩ := scaleBranch_pos maxbinx minbinx maxbiny minbiny maxz minz hx hy hz
  obtain ⟨g1, g2, g3⟩ :=
    scaleFix_ge_one (scaleBranch maxbinx minbinx maxbiny minbiny maxz minz) p1 p2 p3
  change 1 ≤ (scales maxbinx minbinx maxbiny minbiny maxz minz).1 at g1
  change 1 ≤ (scales maxbinx minbinx maxbiny minbiny maxz minz).2.1 at g2
  change 1 ≤ (scales maxbinx minbinx maxbiny minbiny maxz minz).2.2 at g3
  have hsc : scales maxbinx minbinx maxbiny minbiny maxz minz
      = (c / (maxbinx - minbinx), c / (maxbiny - minbiny), c / (maxz - minz)) := hs
  change (scales maxbinx minbinx maxbiny minbiny maxz minz).1 = 1 ∨
    (scales maxbinx minbinx maxbiny minbiny maxz minz).2.1 = 1 ∨
    (scales maxbinx minbinx maxbiny minbiny maxz minz).2.2 = 1 at d2
  rw [hsc] at g1 g2 g3 d2 ⊢
  simp only at g1 g2 g3 d2
  have k1 : maxbinx - minbinx ≤ c := (one_le_div hx).mp g1
  have k2 : maxbiny - minbiny ≤ c := (one_le_div hy).mp g2
  have k3 : maxz - minz ≤ c := (one_le_div hz).mp g3
  have hM : max (maxbinx - minbinx) (max (maxbiny - minbiny) (maxz - minz)) = c := by
    apply le_antisymm
    · exact max_le k1 (max_le k2 k3)
    · rcases d2 with d | d | d
      · have : c = maxbinx - minbinx := by
          field_simp at d; linarith
        rw [this]; exact le_max_left _ _
      · have : c = maxbiny - minbiny := by
          field_simp at d; linarith
        rw [this]; exact le_trans (le_max_left _ _) (le_max_right _ _)
      · have : c = maxz - minz := by
          field_simp at d; linarith
        rw [this]; exact le_trans (le_max_right _ _) (le_max_right _ _)
  rw [hM]

/-- C17 (witness): the ranges 150, 30 and 100/3 of the three-sample ride. -/
theorem C17_scales_are_largest_range_over_range_witness :
    ((0 : ℚ) < 200 - 50 ∧ (0 : ℚ) < 100 - 70 ∧ (0 : ℚ) < 200 / 3 - 100 / 3) ∧
    scales 200 50 100 70 (200 / 3) (100 / 3) =
      (max (200 - 50 : ℚ) (max (100 - 70) (200 / 3 - 100 / 3)) / (200 - 50),
        max (200 - 50 : ℚ) (max (100 - 70) (200 / 3 - 100 / 3)) / (100 - 70),
        max (200 - 50 : ℚ) (max (100 - 70) (200 / 3 - 100 / 3)) / (200 / 3 - 100 / 3)) :=
  ⟨⟨by norm_num, by norm_num, by norm_num⟩,
    C17_scales_are_largest_range_over_range 200 50 100 70 (200 / 3) (100 / 3)
      (by norm_num) (by norm_num) (by norm_num)⟩

/-! ## C18: the bar half-width -/

/-- C18 (counterexample): with bin widths 1 and 10 and final ranges 3 and 40 the candidates
are cx = 3/10 and cy = 16/5, and `diag_` is 16/5, not the smaller of the two. -/
theorem C18_diag_not_the_smaller_candidate :
    ¬ (barDiag 1 10 3 0 40 0 = min (absCandidate 1 (3 - 0)) (absCandidate 10 (40 - 0))) := by
  decide!

/-- C18 (amended): `diag_` is the absolute candidate of x when the relative fraction
0.8 × (xbin / (rx + xbin)) / 2 of x is smaller than that of y, and the absolute candidate
of y otherwise. -/
theorem C18_diag_follows_smaller_fraction (xbin ybin : Int)
    (maxbinx minbinx maxbiny minbiny : ℚ) :
    barDiag xbin ybin maxbinx minbinx maxbiny minbiny =
      if relFraction xbin (maxbinx - minbinx) < relFraction ybin (maxbiny - minbiny) then
        absCandidate xbin (maxbinx - minbinx)
      else absCandidate ybin (maxbiny - minbiny) := by
  unfold barDiag relFraction absCandidate
  simp only []
  split
  · ring
  · ring

/-! ## C19: one interval update per sample -/

/-- C19: whatever the interval list (overlapping intervals included), the interval loop on a
sample applies the update of the colour and interval aggregates once when at least one
interval holds the secs of the sample, and not at all otherwise; hence with z = time-at-cell,
`iz` and `inum` being empty at the start, the interval height of a cell after the loop is
recIntSecs × the number of samples that are not skipped, are binned to the cell and have
their secs in at least one selected interval. -/
theorem C19_one_interval_update_per_sample (settings : ModelSettings) :
    (∀ (r : ℚ) (point : RideFilePoint) (lookup : Key) (color : ℚ) (l : List IntervalItem)
        (st : LoopState),
      intervalLoop settings r point lookup color l st =
        if l.any (fun c => decide (point.secs ≥ c.start ∧ point.secs ≤ c.stop)) = true then
          intervalUpdate settings r point lookup color st
        else st) ∧
    (settings.z = MODEL_XYTIME →
      ∀ (ride : RideItem) (n : Nat) (k : Key),
        (aggregateWith settings ride n [] []).iz.value k 0 =
          ride.recIntSecs *
            (((contributing settings ride.dataPoints k).filter
              (fun p => inSomeInterval settings p)).length : ℚ)) := by
  constructor
  · intro r point lookup color l st
    exact intervalLoop_eq settings r point lookup color l st
  · intro hz ride n k
    have h := aggregateFrom_time_iz settings ride.recIntSecs hz ride.dataPoints
      (loopInit n [] []) k
    unfold aggregateWith
    rw [h]
    simp [loopInit, QHash.value]
    ring

/-- C19 (witness): with the overlapping intervals [0,2] and [1,3] every sample of the
three-sample ride lies in an interval, two of them in both, and the interval heights are 2
and 1. -/
theorem C19_one_interval_update_per_sample_witness :
    overlapSettings.z = MODEL_XYTIME ∧
    (aggregateWith overlapSettings timeRide 0 [] []).iz.value (100, 80) 0 =
      timeRide.recIntSecs *
        (((contributing overlapSettings timeRide.dataPoints (100, 80)).filter
          (fun p => inSomeInterval overlapSettings p)).length : ℚ) ∧
    (aggregateWith overlapSettings timeRide 0 [] []).iz = [((100, 80), 2), ((150, 80), 1)] :=
  ⟨rfl, (C19_one_interval_update_per_sample overlapSettings).2 rfl timeRide 0 (100, 80),
    by decide!⟩

/-! ## C20: binning -/

/-- C20: for positive bin widths the binned x (and y) of a sample is an integer multiple of
the bin width at distance at most half a bin width from the raw value, and two samples
get the same grid key exactly when their x values round to the same multiple and their y
values do. -/
theorem C20_binning_rounds_to_nearest_multiple (settings : ModelSettings)
    (hx : 0 < settings.xbin) (hy : 0 < settings.ybin) (p q : RideFilePoint) :
    (∃ n : Int, binx settings p = settings.xbin * n) ∧
    |((binx settings p : Int) : ℚ) - pointType p settings.x| ≤ (settings.xbin : ℚ) / 2 ∧
    (∃ n : Int, biny settings p = settings.ybin * n) ∧
    |((biny settings p : Int) : ℚ) - pointType p settings.y| ≤ (settings.ybin : ℚ) / 2 ∧
    (cellOf settings p = cellOf settings q ↔
      round (pointType p settings.x / settings.xbin)
          = round (pointType q settings.x / settings.xbin) ∧
        round (pointType p settings.y / settings.ybin)
          = round (pointType q settings.y / settings.ybin)) := by
  refine ⟨⟨_, rfl⟩, bin_sub_abs_le _ _ hx, ⟨_, rfl⟩, bin_sub_abs_le _ _ hy, ?_⟩
  rw [cellOf_eq, cellOf_eq, Prod.mk.injEq]
  unfold binx biny
  constructor
  · rintro ⟨h1, h2⟩
    exact ⟨Int.eq_of_mul_eq_mul_left (ne_of_gt hx) h1,
      Int.eq_of_mul_eq_mul_left (ne_of_gt hy) h2⟩
  · rintro ⟨h1, h2⟩
    rw [h1, h2]
    exact ⟨rfl, rfl⟩

/-- C20 (witness): power 140 with bin width 50 and cadence 81 with bin width 10. -/
theorem C20_binning_rounds_to_nearest_multiple_witness :
    (0 < timeSettings.xbin ∧ 0 < timeSettings.ybin) ∧
    ((∃ n : Int, binx timeSettings (samplePoint 2 140 81 0) = timeSettings.xbin * n) ∧
    |((binx timeSettings (samplePoint 2 140 81 0) : Int) : ℚ)
        - pointType (samplePoint 2 140 81 0) timeSettings.x| ≤ (timeSettings.xbin : ℚ) / 2 ∧
    (∃ n : Int, biny timeSettings (samplePoint 2 140 81 0) = timeSettings.ybin * n) ∧
    |((biny timeSettings (samplePoint 2 140 81 0) : Int) : ℚ)
        - pointType (samplePoint 2 140 81 0) timeSettings.y| ≤ (timeSettings.ybin : ℚ) / 2 ∧
    (cellOf timeSettings (samplePoint 2 140 81 0) = cellOf timeSettings (samplePoint 1 120 82 0) ↔
      round (pointType (samplePoint 2 140 81 0) timeSettings.x / timeSettings.xbin)
          = round (pointType (samplePoint 1 120 82 0) timeSettings.x / timeSettings.xbin) ∧
        round (pointType (samplePoint 2 140 81 0) timeSettings.y / timeSettings.ybin)
          = round (pointType (samplePoint 1 120 82 0) timeSettings.y / timeSettings.ybin))) :=
  ⟨⟨by decide, by decide⟩,
    C20_binning_rounds_to_nearest_multiple timeSettings (by decide) (by decide)
      (samplePoint 2 140 81 0) (samplePoint 1 120 82 0)⟩

/-! ## C21: what the bar enrichment draws -/

/-- C21: for a position whose height differs from the global minimum, `Bar::draw` emits,
when no interval selection is active, exactly the shaded box and the wireframe of the
all-samples height; and when an interval selection is active, no shaded box of the
all-samples height, its wireframe exactly when the SHOW_FRAME bit is set, and the shaded
box plus wireframe from the global minimum to the interval height exactly when the value
of `iz` for the cell is not zero. -/
theorem C21_bar_draw_blocks (setHsv : Int → Int → Int → QColor) (cp : ModelDataColor)
    (statics : Statics) (hullMinZ hullMaxZ : ℚ) (pos : Triple) (hz : pos.z ≠ hullMinZ) :
    (statics.intervals_ = 0 →
      Bar.draw setHsv cp statics hullMinZ hullMaxZ pos =
        [shadedBox statics.diag_ pos hullMinZ pos.z (hullMinZ + 1 * (hullMaxZ - hullMinZ))
            ((hullMaxZ - hullMinZ) / 100) (cp.call setHsv pos.x pos.y)
            (cp.call setHsv pos.x pos.y),
          Drawn.lines pos.x pos.y statics.diag_ hullMinZ pos.z]) ∧
    (statics.intervals_ ≠ 0 →
      Bar.draw setHsv cp statics hullMinZ hullMaxZ pos =
        (if statics.intervals_ &&& SHOW_FRAME ≠ 0 then
            [Drawn.lines pos.x pos.y statics.diag_ hullMinZ pos.z]
          else []) ++
        (if statics.iz.value (xystring pos.x pos.y) 0 ≠ 0 then
            [shadedBox statics.diag_ pos hullMinZ (statics.iz.value (xystring pos.x pos.y) 0)
                (hullMinZ + 1 * (hullMaxZ - hullMinZ)) ((hullMaxZ - hullMinZ) / 100)
                (cp.call setHsv pos.x pos.y) (cp.call setHsv pos.x pos.y),
              Drawn.lines pos.x pos.y statics.diag_ hullMinZ
                (statics.iz.value (xystring pos.x pos.y) 0)]
          else [])) := by
  constructor
  · intro h0
    simp [Bar.draw, hz, h0]
  · intro h0
    by_cases hf : statics.intervals_ &&& SHOW_FRAME = 0 <;>
      by_cases hv : statics.iz.value (xystring pos.x pos.y) 0 = 0 <;>
      simp [Bar.draw, hz, h0, hf, hv]

/-- C21 (witness): a cell of height 200 and interval height 120 with the frame shown:
the wireframe to 200, then the shaded box and the wireframe to 120. -/
theorem C21_bar_draw_blocks_witness :
    (({ x := 100, y := 80, z := 200 } : Triple).z ≠ 100 ∧ intervalStatics.intervals_ ≠ 0) ∧
    Bar.draw greyHsv rampColorProvider intervalStatics 100 200 { x := 100, y := 80, z := 200 } =
      [Drawn.lines 100 80 3 100 200,
        Drawn.quads 100 80 3 100 120 { r := 127 / 255, g := 127 / 255, b := 127 / 255, a := 1 }
          { r := 127 / 255, g := 127 / 255, b := 127 / 255, a := 1 }
          { r := 127 / 255, g := 127 / 255, b := 127 / 255, a := 1 }
          { r := 127 / 255, g := 127 / 255, b := 127 / 255, a := 1 },
        Drawn.lines 100 80 3 100 120] :=
  ⟨⟨by decide!, by decide⟩,
    ((C21_bar_draw_blocks greyHsv rampColorProvider intervalStatics 100 200
      { x := 100, y := 80, z := 200 } (by decide!)).2 (by decide)).trans (by decide!)⟩

/-! ## C22: the non-time aggregates hold the last sample -/

/-- C22: `iz` and `inum` being empty at the start, with a z channel other than time-at-cell
every count stored in `mnum` and `inum` is 0 after the loop, the height of a cell is the raw
z value of the last sample that was not skipped and binned to it, and its interval height
the raw z value of the last such sample lying in a selected interval; with a colour channel
other than time-at-cell every count in `num` is 0 and the colour value of a cell is the raw
colour value of the last such sample that fed the colour aggregate (0 when there is none). -/
theorem C22_non_time_value_is_last_sample (settings : ModelSettings) (ride : RideItem)
    (n : Nat) :
    (settings.z ≠ MODEL_XYTIME →
      (∀ v ∈ QHash.values (aggregateWith settings ride n [] []).mnum, v = 0) ∧
      (∀ v ∈ QHash.values (aggregateWith settings ride n [] []).inum, v = 0) ∧
      ∀ k : Key,
        (aggregateWith settings ride n [] []).mz.value k 0 =
          (match (contributing settings ride.dataPoints k).getLast? with
            | some p => pointType p settings.z
            | none => 0) ∧
        (aggregateWith settings ride n [] []).iz.value k 0 =
          (match ((contributing settings ride.dataPoints k).filter
              (inSomeInterval settings)).getLast? with
            | some p => pointType p settings.z
            | none => 0)) ∧
    (settings.color ≠ MODEL_XYTIME →
      (∀ v ∈ QHash.values (aggregateWith settings ride n [] []).num, v = 0) ∧
      ∀ k : Key,
        (aggregateWith settings ride n [] []).color.value k 0 =
          (match ((contributing settings ride.dataPoints k).filter
              (feedsColor settings)).getLast? with
            | some p => pointType p settings.color
            | none => 0)) := by
  constructor
  · intro hz
    obtain ⟨a1, a2⟩ := aggregateFrom_raw_mz settings ride.recIntSecs hz ride.dataPoints
      (loopInit n [] []) (by simp [loopInit, QHash.values])
    obtain ⟨b1, b2⟩ := aggregateFrom_raw_iz settings ride.recIntSecs hz ride.dataPoints
      (loopInit n [] []) (by simp [loopInit, QHash.values])
    refine ⟨a1, b1, fun k => ⟨?_, ?_⟩⟩
    · exact a2 k
    · exact b2 k
  · intro hc
    obtain ⟨c1, c2⟩ := aggregateFrom_raw_color settings ride.recIntSecs hc ride.dataPoints
      (loopInit n [] []) (by simp [loopInit, QHash.values])
    exact ⟨c1, fun k => c2 k⟩

/-- C22 (witness): two heart rates 100 and 200 in the cell (100,80), only the first inside a
selected interval: the height is 200 and the interval height 100. -/
theorem C22_non_time_value_is_last_sample_witness :
    (hrIntervalSettings.z ≠ MODEL_XYTIME ∧ zeroSettings.color ≠ MODEL_XYTIME) ∧
    ((∀ v ∈ QHash.values (aggregateWith hrIntervalSettings hrRide 0 [] []).mnum, v = 0) ∧
      (∀ v ∈ QHash.values (aggregateWith hrIntervalSettings hrRide 0 [] []).inum, v = 0) ∧
      ∀ k : Key,
        (aggregateWith hrIntervalSettings hrRide 0 [] []).mz.value k 0 =
          (match (contributing hrIntervalSettings hrRide.dataPoints k).getLast? with
            | some p => pointType p hrIntervalSettings.z
            | none => 0) ∧
        (aggregateWith hrIntervalSettings hrRide 0 [] []).iz.value k 0 =
          (match ((contributing hrIntervalSettings hrRide.dataPoints k).filter
              (inSomeInterval hrIntervalSettings)).getLast? with
            | some p => pointType p hrIntervalSettings.z
            | none => 0)) ∧
    ((∀ v ∈ QHash.values (aggregateWith zeroSettings zeroRide 0 [] []).num, v = 0) ∧
      ∀ k : Key,
        (aggregateWith zeroSettings zeroRide 0 [] []).color.value k 0 =
          (match ((contributing zeroSettings zeroRide.dataPoints k).filter
              (feedsColor zeroSettings)).getLast? with
            | some p => pointType p zeroSettings.color
            | none => 0)) ∧
    (aggregateWith hrIntervalSettings hrRide 0 [] []).mz = [((100, 80), 200)] ∧
    (aggregateWith hrIntervalSettings hrRide 0 [] []).iz = [((100, 80), 100)] :=
  ⟨⟨by decide, by decide⟩,
    (C22_non_time_value_is_last_sample hrIntervalSettings hrRide 0).1 (by decide),
    (C22_non_time_value_is_last_sample zeroSettings zeroRide 0).2 (by decide),
    by decide!, by decide!⟩

/-! ## C23: the interval bar stays within the all-samples bar -/

/-- C23: `iz` and `inum` being empty at the start, every key of `iz` after the loop is a key
of `mz`; and with complete settings, z = time-at-cell, a recording interval that is not
negative and a positive duration, the interval height of every cell is at most its
all-samples height, after the loop and in what the constructor leaves (after time
normalisation). -/
theorem C23_interval_bar_within_all_samples_bar (zoneColor : Int → Int → QColor)
    (settings : ModelSettings) (ride : RideItem) (cp : ModelDataColor) (statics : Statics)
    (hiz : statics.iz = []) (hinum : statics.inum = []) :
    (∀ k : Key,
      k ∈ QHash.keys (aggregateWith settings ride statics.intervals_ statics.iz statics.inum).iz →
      k ∈ QHash.keys (aggregateWith settings ride statics.intervals_ statics.iz statics.inum).mz) ∧
    (settings.ride = some ride → settings.x ≠ MODEL_NONE → settings.y ≠ MODEL_NONE →
      settings.z = MODEL_XYTIME → 0 ≤ ride.recIntSecs → 0 < rideDuration ride →
      ∀ k : Key,
        (aggregateWith settings ride statics.intervals_ statics.iz statics.inum).iz.value k 0
          ≤ (aggregateWith settings ride statics.intervals_ statics.iz statics.inum).mz.value k 0 ∧
        (ModelDataProvider.ModelDataProvider zoneColor (some settings) cp statics).statics.iz.value
            k 0
          ≤ (ModelDataProvider.ModelDataProvider zoneColor (some settings) cp
              statics).provider.mz.value k 0) := by
  rw [hiz, hinum]
  constructor
  · intro k hk
    unfold aggregateWith at hk ⊢
    rw [mem_keys_aggregateFrom settings ride.recIntSecs (fun s => QHash.keys s.iz) _
      (mem_keys_loopBody_iz settings ride.recIntSecs) ride.dataPoints _ k] at hk
    rw [mem_keys_aggregateFrom settings ride.recIntSecs (fun s => QHash.keys s.mz) _
      (mem_keys_loopBody_mz settings ride.recIntSecs) ride.dataPoints _ k]
    rcases hk with h | ⟨p, hp, ⟨hs, _⟩, hc⟩
    · simp [loopInit, QHash.keys] at h
    · exact Or.inr ⟨p, hp, hs, hc⟩
  · intro hride hx hy hz hr hd k
    have hle := aggregateWith_iz_le_mz settings ride statics.intervals_ hz hr k
    refine ⟨hle, ?_⟩
    have hzn : settings.z ≠ MODEL_NONE := by rw [hz]; decide
    have hst : ({ statics with iz := [], inum := [] } : Statics) = statics := by
      cases statics
      simp only at hiz hinum
      subst hiz hinum
      rfl
    by_cases hall : ∀ p ∈ ride.dataPoints, skipped settings p = true
    · have hagg : aggregateWith settings ride statics.intervals_ [] []
          = loopInit statics.intervals_ [] [] :=
        aggregateFrom_all_skipped settings ride.recIntSecs ride.dataPoints _ hall
      have hcount : (aggregateWith settings ride statics.intervals_ statics.iz
          statics.inum).mz.count = 0 := by
        rw [hiz, hinum, hagg]; rfl
      simp only [ModelDataProvider.ModelDataProvider, hride, hx, hy, hzn, or_self, if_false,
        hcount, if_true, emptyDataset]
      rw [hiz, hinum, hagg]
      simp [loopInit, QHash.value]
    · have hdata : ∃ p ∈ ride.dataPoints, skipped settings p = false := by
        push_neg at hall
        obtain ⟨p, hp, hs⟩ := hall
        exact ⟨p, hp, by simpa using hs⟩
      rw [constructor_eq_postProcess zoneColor settings ride cp statics hride hx hy hzn hdata,
        hiz, hinum]
      have hndm : (QHash.keys (aggregateWith settings ride statics.intervals_ [] []).mz).Nodup :=
        aggregateFrom_mz_nodup settings ride.recIntSecs ride.dataPoints _
          (by simp [loopInit, QHash.keys])
      have hndi : (QHash.keys (aggregateWith settings ride statics.intervals_ [] []).iz).Nodup :=
        aggregateFrom_iz_nodup settings ride.recIntSecs ride.dataPoints _
          (by simp [loopInit, QHash.keys])
      simp only [postProcess, hz, if_true]
      rw [timePercent_value _ _ _ hndm (ne_of_gt hd), timePercent_value _ _ _ hndi (ne_of_gt hd)]
      have := div_le_div_of_nonneg_right hle (le_of_lt hd)
      linarith

/-- C23 (witness): the three-sample ride with overlapping intervals and z = time-at-cell. -/
theorem C23_interval_bar_within_all_samples_bar_witness :
    (initialStatics.iz = [] ∧ initialStatics.inum = [] ∧ overlapSettings.ride = some timeRide ∧
      overlapSettings.x ≠ MODEL_NONE ∧ overlapSettings.y ≠ MODEL_NONE ∧
      overlapSettings.z = MODEL_XYTIME ∧ 0 ≤ timeRide.recIntSecs ∧ 0 < rideDuration timeRide) ∧
    (∀ k : Key,
      k ∈ QHash.keys (aggregateWith overlapSettings timeRide initialStatics.intervals_
        initialStatics.iz initialStatics.inum).iz →
      k ∈ QHash.keys (aggregateWith overlapSettings timeRide initialStatics.intervals_
        initialStatics.iz initialStatics.inum).mz) ∧
    (∀ k : Key,
      (aggregateWith overlapSettings timeRide initialStatics.intervals_ initialStatics.iz
          initialStatics.inum).iz.value k 0
        ≤ (aggregateWith overlapSettings timeRide initialStatics.intervals_ initialStatics.iz
          initialStatics.inum).mz.value k 0 ∧
      (ModelDataProvider.ModelDataProvider greyZones (some overlapSettings) emptyColor
          initialStatics).statics.iz.value k 0
        ≤ (ModelDataProvider.ModelDataProvider greyZones (some overlapSettings) emptyColor
            initialStatics).provider.mz.value k 0) :=
  ⟨⟨rfl, rfl, rfl, by decide, by decide, rfl, by decide!, by decide!⟩,
    (C23_interval_bar_within_all_samples_bar greyZones overlapSettings timeRide emptyColor
      initialStatics rfl rfl).1,
    (C23_interval_bar_within_all_samples_bar greyZones overlapSettings timeRide emptyColor
      initialStatics rfl rfl).2 rfl (by decide) (by decide) rfl (by decide!) (by decide!)⟩

/-! ## C24: the values of the interval flags -/

/-- C24: starting from `intervals_ = 0`, after any sequence of provider constructions,
`setData` and `setFrame` calls `intervals_` is 0, SHOW_INTERVALS or
SHOW_INTERVALS|SHOW_FRAME, so the SHOW_FRAME bit is set only together with the
SHOW_INTERVALS bit; and `setFrame(false)` leaves the SHOW_FRAME bit clear and the
SHOW_INTERVALS bit as it was, whatever `intervals_` holds. -/
theorem C24_intervals_flag_invariant (zoneColor : Int → Int → QColor) (s : PlotState)
    (calls : List PlotCall) (h0 : s.statics.intervals_ = 0) :
    ((runCalls zoneColor s calls).statics.intervals_ = 0 ∨
      (runCalls zoneColor s calls).statics.intervals_ = SHOW_INTERVALS ∨
      (runCalls zoneColor s calls).statics.intervals_ = SHOW_INTERVALS ||| SHOW_FRAME) ∧
    ((runCalls zoneColor s calls).statics.intervals_ &&& SHOW_FRAME ≠ 0 →
      (runCalls zoneColor s calls).statics.intervals_ &&& SHOW_INTERVALS ≠ 0) ∧
    (∀ statics : Statics,
      (BasicModelPlot.setFrame false statics).intervals_ &&& SHOW_FRAME = 0 ∧
      (BasicModelPlot.setFrame false statics).intervals_ &&& SHOW_INTERVALS
        = statics.intervals_ &&& SHOW_INTERVALS) := by
  have hv : validFlags (runCalls zoneColor s calls).statics.intervals_ :=
    runCalls_validFlags zoneColor calls s (Or.inl h0)
  refine ⟨hv, ?_, setFrame_false_bits⟩
  rcases hv with h | h | h <;> rw [h] <;> decide

/-- C24 (witness): a null construction, a ride with intervals and the frame on, the frame
switched off and on again, then a ride without intervals. -/
theorem C24_intervals_flag_invariant_witness :
    ({ colorProvider := emptyColor, statics := initialStatics } : PlotState).statics.intervals_
      = 0 ∧
    (runCalls greyZones { colorProvider := emptyColor, statics := initialStatics }
      [PlotCall.construct none, PlotCall.setData hrIntervalSettings, PlotCall.setFrame false,
        PlotCall.setFrame true, PlotCall.setData hrSettings,
        PlotCall.setFrame true]).statics.intervals_ = 0 ∧
    (runCalls greyZones { colorProvider := emptyColor, statics := initialStatics }
      [PlotCall.construct none, PlotCall.setData hrIntervalSettings, PlotCall.setFrame false,
        PlotCall.setFrame true]).statics.intervals_ = SHOW_INTERVALS ||| SHOW_FRAME ∧
    ((runCalls greyZones { colorProvider := emptyColor, statics := initialStatics }
        [PlotCall.construct none, PlotCall.setData hrIntervalSettings, PlotCall.setFrame false,
          PlotCall.setFrame true]).statics.intervals_ &&& SHOW_FRAME ≠ 0 →
      (runCalls greyZones { colorProvider := emptyColor, statics := initialStatics }
        [PlotCall.construct none, PlotCall.setData hrIntervalSettings, PlotCall.setFrame false,
          PlotCall.setFrame true]).statics.intervals_ &&& SHOW_INTERVALS ≠ 0) :=
  ⟨rfl, by decide!, by decide!,
    (C24_intervals_flag_invariant greyZones
      { colorProvider := emptyColor, statics := initialStatics }
      [PlotCall.construct none, PlotCall.setData hrIntervalSettings, PlotCall.setFrame false,
        PlotCall.setFrame true] rfl).2.1⟩

/-! ## C25: the mesh spans the domain -/

/-- C25: for a positive bin width w and bounds min ≤ max that are integer multiples of w, the
mesh sizing of an axis ends with max' - min' = m × w for the final cell count m, with
min' ≤ min and max ≤ max'. -/
theorem C25_mesh_spans_domain (w a b : Int) (maxbin minbin : ℚ) (hw : 0 < w) (hab : b ≤ a)
    (hmax : maxbin = (a : ℚ) * w) (hmin : minbin = (b : ℚ) * w) :
    (meshAxis w maxbin minbin).1 - (meshAxis w maxbin minbin).2.1
      = ((meshAxis w maxbin minbin).2.2 : ℚ) * w ∧
    (meshAxis w maxbin minbin).2.1 ≤ minbin ∧
    maxbin ≤ (meshAxis w maxbin minbin).1 := by
  have hwq : (0 : ℚ) < (w : ℚ) := by exact_mod_cast hw
  have hm0 : toInt ((maxbin - minbin) / w) = a - b := by
    have : (maxbin - minbin) / w = ((a - b : Int) : ℚ) := by
      rw [hmax, hmin]
      push_cast
      field_simp
      ring
    rw [this, toInt_intCast]
  simp only [meshAxis, growMesh_eq, hm0]
  by_cases h2 : a - b < 2
  · simp only [h2, if_true]
    have h4 : (2 : Int) < 4 := by decide
    simp only [h4, if_true]
    have hq : ((2 - (a - b) : Int) : ℚ) = 2 - ((a : ℚ) - b) := by push_cast; ring
    have hge : (0 : ℚ) ≤ (a : ℚ) - b := by
      have : (b : ℚ) ≤ a := by exact_mod_cast hab
      linarith
    have hlt : (a : ℚ) - b < 2 := by
      have : ((a - b : Int) : ℚ) < 2 := by exact_mod_cast h2
      push_cast at this
      exact this
    refine ⟨?_, ?_, ?_⟩
    · rw [hq, hmax, hmin]; push_cast; ring
    · linarith
    · rw [hq]
      nlinarith
  · simp only [h2, if_false]
    by_cases h4 : a - b < 4
    · simp only [h4, if_true]
      refine ⟨?_, by linarith, le_refl _⟩
      rw [hmax, hmin]; push_cast; ring
    · simp only [h4, if_false]
      refine ⟨?_, le_refl _, le_refl _⟩
      rw [hmax, hmin]; push_cast; ring

/-- C25 (witness): a single occupied bin, max = min = 100 with bin width 50. -/
theorem C25_mesh_spans_domain_witness :
    ((0 : Int) < 50 ∧ (2 : Int) ≤ 2 ∧ (100 : ℚ) = ((2 : Int) : ℚ) * ((50 : Int) : ℚ) ∧
      (100 : ℚ) = ((2 : Int) : ℚ) * ((50 : Int) : ℚ)) ∧
    ((meshAxis 50 100 100).1 - (meshAxis 50 100 100).2.1
      = ((meshAxis 50 100 100).2.2 : ℚ) * ((50 : Int) : ℚ) ∧
    (meshAxis 50 100 100).2.1 ≤ 100 ∧
    (100 : ℚ) ≤ (meshAxis 50 100 100).1) :=
  ⟨⟨by decide, by decide, by norm_num, by norm_num⟩,
    C25_mesh_spans_domain 50 2 2 100 100 (by decide) (by decide) (by norm_num) (by norm_num)⟩

end ModelPlot
